import Mathlib

/-!
# Outgoing connector handler (package `webapi`)

A shallow embedding of `core/capabilities/webapi/outgoing_connector_handler.go`
and the properties of its request/response correlation.

Modelling conventions.

* The handler's `responseChs` map is an association list from message id to a
  channel reference; channel references are indices into a heap `chans` of
  buffered channels (Go channels are reference values: the map and the waiting
  caller share one channel).
* Calls on the gateway connector, the rate limiter and `encoding/json` are
  collaborators whose code is outside this file; they are fields of `Env`.
* A `select` with several ready cases is resolved by an explicit scheduler
  choice `pick`; a `select` with no ready case is a blocked step (`none`).
* A `HandleSingleNodeRequest` call that runs among other goroutines is a
  sequence of steps (lines 61-80, lines 81-102, the final `select`), between
  which steps of other goroutines on the same handler may happen.
* Logging is not modelled.
-/

namespace Webapi

/-! ## Data model -/

/-- Go `error` values: a leaf error or an error wrapping a cause
(`fmt.Errorf("...: %w", err)`, `errors.Wrap(err, "...")`). -/
inductive GoError where
  | new (msg : String)
  | wrap (msg : String) (cause : GoError)
  deriving DecidableEq, Repr

/-- Byte slices (`[]byte`); the contents are opaque to the handler. -/
abbrev Bytes := List Nat

/-- Modelled from the spec: `api.MessageBody` is declared outside the handler's
source file; these are the fields the handler reads or writes (request
identifier, method name, destination domain identifier, opaque payload,
declared sender identity). -/
structure MessageBody where
  MessageId : String
  Method : String
  DonId : String
  Payload : Bytes
  Sender : String
  deriving DecidableEq, Repr

/-- Modelled from the spec: `api.Message`, the envelope around a `MessageBody`. -/
structure Message where
  Body : MessageBody
  deriving DecidableEq, Repr

/-- Modelled from the spec: `capabilities.Request` carries an optional timeout
in milliseconds (a `uint32`) and an opaque body. -/
structure Request where
  TimeoutMs : Nat
  Body : Bytes
  deriving DecidableEq, Repr

/-- The state of a `context.Context` at the moment it is inspected. -/
inductive Context where
  | live
  | canceled
  | deadlineExceeded
  deriving DecidableEq, Repr

/-- Readiness of `<-ctx.Done()`. -/
def Context.Done : Context → Bool
  | .live => false
  | .canceled => true
  | .deadlineExceeded => true

/-- Value of `ctx.Err()`. -/
def Context.Err : Context → Option GoError
  | .live => none
  | .canceled => some (.new "context canceled")
  | .deadlineExceeded => some (.new "context deadline exceeded")

/-- A buffered channel `chan *api.Message` with its capacity and its queue. -/
structure Chan where
  cap : Nat
  buf : List Message
  deriving DecidableEq, Repr

/-- The collaborators of the handler: the method-name constants of package
`capabilities`, the gateway connector `gc`, the rate limiter and the JSON
codec. `K` is the rate-limiter configuration, `L` the rate limiter's state. -/
structure Env (K L : Type) where
  MethodWebAPITarget : String
  MethodComputeAction : String
  MethodWorkflowSyncer : String
  DonID : String
  GatewayIDs : List String
  SignAndSendToGateway : String → MessageBody → Option GoError
  NewRateLimiter : K → Except GoError L
  Allow : L → String → Bool × L
  Marshal : Request → Except GoError Bytes
  Unmarshal : Bytes → Option GoError

/-- The struct `OutgoingConnectorHandler` together with the part of the heap it
refers to: `chans` holds every channel created by `make`, and `sent` records
the calls made to `SignAndSendToGateway` (gateway id and envelope), oldest
first. -/
structure OutgoingConnectorHandler (L : Type) where
  method : String
  responseChs : List (String × Nat)
  rateLimiter : L
  chans : List Chan
  sent : List (String × MessageBody)
  deriving DecidableEq, Repr

/-- What a call of `HandleSingleNodeRequest` has come to: it returned
`(resp, err)`, it is parked in the final `select` on channel `ch` with the
given timeout bound to its context, or it indexed an empty slice. -/
inductive CallStatus where
  | returned (resp : Option Message) (err : Option GoError)
  | waiting (ch : Nat) (timeout : Int)
  | indexOutOfRange
  deriving DecidableEq, Repr

/-- The branch by which `HandleGatewayMessage` returned. -/
inductive Handled where
  | rateLimited
  | unsupportedMethod
  | unmarshalFailed
  | noResponseChannel
  | delivered
  | ctxDone
  deriving DecidableEq, Repr

/-! ## Go maps and channels -/

variable {K L : Type}

/-- Go map read `m[k]` with the `ok` flag. -/
def mapGet (m : List (String × Nat)) (k : String) : Option Nat :=
  m.lookup k

/-- Go `delete(m, k)`. -/
def mapDelete (m : List (String × Nat)) (k : String) : List (String × Nat) :=
  m.filter (fun e => e.1 != k)

/-- Go map write `m[k] = v`. -/
def mapSet (m : List (String × Nat)) (k : String) (v : Nat) : List (String × Nat) :=
  (k, v) :: mapDelete m k

/-- The expression `make(chan *api.Message, cap)`: a new empty channel on the heap. -/
def makeChan (c : OutgoingConnectorHandler L) (cap : Nat) :
    OutgoingConnectorHandler L × Nat :=
  ({ c with chans := c.chans ++ [⟨cap, []⟩] }, c.chans.length)

/-- The channel operation `ch <- msg` when it can proceed at once: the heap
after the send, or `none` when the buffer is full (or `ch` is no channel). -/
def chanSend (chans : List Chan) (ch : Nat) (msg : Message) : Option (List Chan) :=
  match chans[ch]? with
  | some x =>
    if x.buf.length < x.cap then some (chans.set ch { x with buf := x.buf ++ [msg] })
    else none
  | none => none

/-- The channel operation `<-ch` when it can proceed at once: the value received
and the heap after the receive, or `none` when the buffer is empty. -/
def chanRecv (chans : List Chan) (ch : Nat) : Option (Message × List Chan) :=
  match chans[ch]? with
  | some ⟨cap, resp :: rest⟩ => some (resp, chans.set ch ⟨cap, rest⟩)
  | _ => none

/-- The queue of channel `ch` (empty for a reference that is no channel). -/
def slot (c : OutgoingConnectorHandler L) (ch : Nat) : List Message :=
  match c.chans[ch]? with
  | some x => x.buf
  | none => []

/-- Go `sort.Strings`: the increasing rearrangement of the slice in the
lexicographic order of strings. The order is total and antisymmetric, so the
sorted slice does not depend on the sorting algorithm. -/
def sortStrings (xs : List String) : List String :=
  xs.insertionSort (fun a b => a ≤ b)

/-! ## Timeouts -/

/-- The constant `defaultFetchTimeoutMs`. -/
def defaultFetchTimeoutMs : Nat := 20000

/-- The constant `time.Millisecond`, in nanoseconds. -/
def Millisecond : Int := 1000000

/-- Two's-complement wrap of an integer to `int64` (`time.Duration`). -/
def wrapInt64 (x : Int) : Int := (x + 2 ^ 63) % 2 ^ 64 - 2 ^ 63

/-- Lines 62-64: the default timeout is substituted when none was given. -/
def withDefaultTimeout (req : Request) : Request :=
  if req.TimeoutMs == 0 then { req with TimeoutMs := defaultFetchTimeoutMs } else req

/-- Lines 67-69: `timeoutDuration + margin`, in nanoseconds. -/
def timeoutWithMargin (req : Request) : Int :=
  let timeoutDuration := wrapInt64 ((req.TimeoutMs : Int) * Millisecond)
  let margin := wrapInt64 (100 * Millisecond)
  wrapInt64 (timeoutDuration + margin)

/-! ## The handler -/

/-- The function `validMethod`. -/
def validMethod (env : Env K L) (method : String) : Bool :=
  method == env.MethodWebAPITarget || method == env.MethodComputeAction ||
    method == env.MethodWorkflowSyncer

/-- The constructor `NewOutgoingConnectorHandler`. -/
def NewOutgoingConnectorHandler (env : Env K L) (config : K) (method : String) :
    Except GoError (OutgoingConnectorHandler L) :=
  match env.NewRateLimiter config with
  | .error err => .error err
  | .ok rateLimiter =>
    if !validMethod env method then
      .error (.new ("invalid outgoing connector handler method: " ++ method))
    else
      .ok { method := method, responseChs := [], rateLimiter := rateLimiter,
            chans := [], sent := [] }

/-- Lines 77-80 of `HandleSingleNodeRequest`: make a channel of capacity 1 and
store it under `messageID`. -/
def register (c : OutgoingConnectorHandler L) (messageID : String) :
    OutgoingConnectorHandler L × Nat :=
  let (c1, ch) := makeChan c 1
  ({ c1 with responseChs := mapSet c1.responseChs messageID ch }, ch)

/-- The call `c.gc.SignAndSendToGateway(ctx, gatewayID, body)`: the connector's
answer, with the call recorded. -/
def SignAndSendToGateway (env : Env K L) (c : OutgoingConnectorHandler L)
    (gatewayID : String) (body : MessageBody) :
    OutgoingConnectorHandler L × Option GoError :=
  ({ c with sent := c.sent ++ [(gatewayID, body)] }, env.SignAndSendToGateway gatewayID body)

/-- Lines 61-102 of `HandleSingleNodeRequest`: everything before the final
`select`. -/
def dispatch (env : Env K L) (c : OutgoingConnectorHandler L) (messageID : String)
    (req : Request) : OutgoingConnectorHandler L × CallStatus :=
  let req := withDefaultTimeout req
  let timeout := timeoutWithMargin req
  match env.Marshal req with
  | .error err => (c, .returned none (some (.wrap "failed to marshal fetch request" err)))
  | .ok payload =>
    let (c1, ch) := register c messageID
    let body : MessageBody :=
      { MessageId := messageID, DonId := env.DonID, Method := c1.method,
        Payload := payload, Sender := "" }
    let gatewayIDs := env.GatewayIDs
    if gatewayIDs.length == 0 then
      (c1, .returned none (some (.new "no gateway nodes available")))
    else
      match (sortStrings gatewayIDs)[0]? with
      | none => (c1, .indexOutOfRange)
      | some gatewayID =>
        match SignAndSendToGateway env c1 gatewayID body with
        | (c2, some err) =>
          (c2, .returned none (some (.wrap "failed to send request to gateway" err)))
        | (c2, none) => (c2, .waiting ch timeout)

/-- Lines 104-110 of `HandleSingleNodeRequest`: the `select` on the response
channel and on `ctx.Done()`. With both cases ready `pick = true` takes the
channel; with neither ready the call stays blocked (`none`). -/
def awaitResponse (c : OutgoingConnectorHandler L) (ch : Nat) (ctx : Context)
    (pick : Bool) : Option (OutgoingConnectorHandler L × CallStatus) :=
  match chanRecv c.chans ch with
  | some (resp, chans) =>
    if ctx.Done && !pick then
      some (c, .returned none ctx.Err)
    else
      some ({ c with chans := chans }, .returned (some resp) none)
  | none =>
    if ctx.Done then some (c, .returned none ctx.Err) else none

/-- The method `HandleSingleNodeRequest`, run without interference from other
goroutines: `ctx` and `pick` are the state of the call's context and the
scheduler's choice at the final `select`; `none` is a call that stays blocked. -/
def HandleSingleNodeRequest (env : Env K L) (c : OutgoingConnectorHandler L)
    (ctx : Context) (pick : Bool) (messageID : String) (req : Request) :
    Option (OutgoingConnectorHandler L × CallStatus) :=
  match dispatch env c messageID req with
  | (c1, .waiting ch _) => awaitResponse c1 ch ctx pick
  | (c1, status) => some (c1, status)

/-- The method `HandleGatewayMessage`. With both cases of its `select` ready
`pick = true` takes the send; with neither ready the call stays blocked
(`none`). -/
def HandleGatewayMessage (env : Env K L) (c : OutgoingConnectorHandler L)
    (ctx : Context) (pick : Bool) (_gatewayID : String) (msg : Message) :
    Option (OutgoingConnectorHandler L × Handled) :=
  let body := msg.Body
  let (allowed, rateLimiter) := env.Allow c.rateLimiter body.Sender
  let c := { c with rateLimiter := rateLimiter }
  if !allowed then
    some (c, .rateLimited)
  else if body.Method == env.MethodWebAPITarget || body.Method == env.MethodComputeAction ||
      body.Method == env.MethodWorkflowSyncer then
    match env.Unmarshal body.Payload with
    | some _ => some (c, .unmarshalFailed)
    | none =>
      match mapGet c.responseChs body.MessageId with
      | none => some (c, .noResponseChannel)
      | some ch =>
        match chanSend c.chans ch msg with
        | some chans =>
          if !ctx.Done || pick then
            some ({ c with chans := chans,
                           responseChs := mapDelete c.responseChs body.MessageId }, .delivered)
          else
            some (c, .ctxDone)
        | none =>
          if ctx.Done then some (c, .ctxDone) else none
  else
    some (c, .unsupportedMethod)

/-! ## Reachable states and their invariant -/

/-- The states a handler can be in: the state built by
`NewOutgoingConnectorHandler`, followed by any interleaving of the steps of
`HandleSingleNodeRequest` calls (registration, send, the final `select`) and of
`HandleGatewayMessage` calls. -/
inductive Reachable (env : Env K L) : OutgoingConnectorHandler L → Prop where
  | init {config : K} {method : String} {c : OutgoingConnectorHandler L} :
      NewOutgoingConnectorHandler env config method = .ok c → Reachable env c
  | register {c : OutgoingConnectorHandler L} (messageID : String) :
      Reachable env c → Reachable env (register c messageID).1
  | send {c : OutgoingConnectorHandler L} (gatewayID : String) (body : MessageBody) :
      Reachable env c → Reachable env (SignAndSendToGateway env c gatewayID body).1
  | await {c c1 : OutgoingConnectorHandler L} {ch : Nat} {ctx : Context} {pick : Bool}
      {status : CallStatus} :
      Reachable env c → awaitResponse c ch ctx pick = some (c1, status) → Reachable env c1
  | gateway {c c1 : OutgoingConnectorHandler L} {ctx : Context} {pick : Bool}
      {gatewayID : String} {msg : Message} {how : Handled} :
      Reachable env c → HandleGatewayMessage env c ctx pick gatewayID msg = some (c1, how) →
      Reachable env c1

/-- The invariant of the correlator: every channel stored in `responseChs` is
on the heap with capacity 1 and an empty queue, no channel is stored under two
ids, no id occurs twice, and every channel on the heap has capacity 1 and holds
at most one message. -/
structure Inv (c : OutgoingConnectorHandler L) : Prop where
  empty : ∀ k ch, (k, ch) ∈ c.responseChs → c.chans[ch]? = some ⟨1, []⟩
  inj : ∀ k1 k2 ch, (k1, ch) ∈ c.responseChs → (k2, ch) ∈ c.responseChs → k1 = k2
  keys : (c.responseChs.map Prod.fst).Nodup
  caps : ∀ x ∈ c.chans, x.cap = 1 ∧ x.buf.length ≤ 1

/-- An inbound message that passes every check of `HandleGatewayMessage` in
state `c`: the rate limiter allows its sender, its method is one of the three
supported methods and its payload deserializes as a `Response`. -/
def Accepted (env : Env K L) (c : OutgoingConnectorHandler L) (msg : Message) : Prop :=
  (env.Allow c.rateLimiter msg.Body.Sender).1 = true ∧
  validMethod env msg.Body.Method = true ∧
  env.Unmarshal msg.Body.Payload = none

/-! ## A call among other goroutines -/

/-- The points of a `HandleSingleNodeRequest` call between which other
goroutines may run: before its first statement; after line 80, holding the
channel it made, the payload and the timeout; and what the call has come to
once line 99 is behind it. -/
inductive CallPoint where
  | entry
  | registered (ch : Nat) (payload : Bytes) (timeout : Int)
  | after (status : CallStatus)
  deriving DecidableEq, Repr

/-- Lines 61-80 of `HandleSingleNodeRequest`: the timeout, the payload, and the
registration of a new channel under `messageID`, up to the release of the
mutex. -/
def registerStep (env : Env K L) (c : OutgoingConnectorHandler L) (messageID : String)
    (req : Request) : OutgoingConnectorHandler L × CallPoint :=
  let req := withDefaultTimeout req
  let timeout := timeoutWithMargin req
  match env.Marshal req with
  | .error err =>
    (c, .after (.returned none (some (.wrap "failed to marshal fetch request" err))))
  | .ok payload =>
    let (c1, ch) := register c messageID
    (c1, .registered ch payload timeout)

/-- Lines 81-102 of `HandleSingleNodeRequest`: the envelope, the choice of the
gateway and the send, in the handler state `c` the call finds when it gets
there. -/
def sendStep (env : Env K L) (c : OutgoingConnectorHandler L) (messageID : String)
    (ch : Nat) (payload : Bytes) (timeout : Int) : OutgoingConnectorHandler L × CallStatus :=
  let body : MessageBody :=
    { MessageId := messageID, DonId := env.DonID, Method := c.method,
      Payload := payload, Sender := "" }
  let gatewayIDs := env.GatewayIDs
  if gatewayIDs.length == 0 then
    (c, .returned none (some (.new "no gateway nodes available")))
  else
    match (sortStrings gatewayIDs)[0]? with
    | none => (c, .indexOutOfRange)
    | some gatewayID =>
      match SignAndSendToGateway env c gatewayID body with
      | (c2, some err) =>
        (c2, .returned none (some (.wrap "failed to send request to gateway" err)))
      | (c2, none) => (c2, .waiting ch timeout)

/-- The next step of a `HandleSingleNodeRequest` call that stands at the given
point, in handler state `c`: lines 61-80, then lines 81-102, then the final
`select` (which may stay blocked, `none`); a call that has returned takes no
step. -/
def callStep (env : Env K L) (c : OutgoingConnectorHandler L) (ctx : Context) (pick : Bool)
    (messageID : String) (req : Request) :
    CallPoint → Option (OutgoingConnectorHandler L × CallPoint)
  | .entry => some (registerStep env c messageID req)
  | .registered ch payload timeout =>
    some ((sendStep env c messageID ch payload timeout).1,
      .after (sendStep env c messageID ch payload timeout).2)
  | .after (.waiting ch _) =>
    match awaitResponse c ch ctx pick with
    | some (c1, status) => some (c1, .after status)
    | none => none
  | .after _ => none

/-- A step of another goroutine on the same handler: the registration (lines
77-80), the send (line 99) or the final `select` (lines 104-110) of another
`HandleSingleNodeRequest` call, or a `HandleGatewayMessage` call. -/
inductive Interference where
  | register (messageID : String)
  | send (gatewayID : String) (body : MessageBody)
  | await (ch : Nat) (ctx : Context) (pick : Bool)
  | gateway (ctx : Context) (pick : Bool) (gatewayID : String) (msg : Message)
  deriving DecidableEq, Repr

/-- The handler state after a step of another goroutine; `none` when that step
is blocked. -/
def interfere (env : Env K L) (c : OutgoingConnectorHandler L) :
    Interference → Option (OutgoingConnectorHandler L)
  | .register messageID => some (register c messageID).1
  | .send gatewayID body => some (SignAndSendToGateway env c gatewayID body).1
  | .await ch ctx pick =>
    match awaitResponse c ch ctx pick with
    | some (c1, _) => some c1
    | none => none
  | .gateway ctx pick gatewayID msg =>
    match HandleGatewayMessage env c ctx pick gatewayID msg with
    | some (c1, _) => some c1
    | none => none

/-- Whether a step of another goroutine is made for the id `id`: a
registration under `id` or a gateway message that carries `id`. -/
def Interference.carries (id : String) : Interference → Bool
  | .register messageID => messageID == id
  | .gateway _ _ _ msg => msg.Body.MessageId == id
  | _ => false

/-- The handler state after a sequence of steps of other goroutines. -/
def runOthers (env : Env K L) :
    OutgoingConnectorHandler L → List Interference → Option (OutgoingConnectorHandler L)
  | c, [] => some c
  | c, ev :: rest =>
    match interfere env c ev with
    | some c1 => runOthers env c1 rest
    | none => none

/-- What happens next on the handler: the call under study takes its next
step, or another goroutine takes a step. -/
inductive Event where
  | own
  | other (ev : Interference)
  deriving DecidableEq, Repr

/-- An execution: the handler state and the point of the call under study
after the given events, in order; `none` when one of them cannot happen. -/
def execution (env : Env K L) (ctx : Context) (pick : Bool) (messageID : String)
    (req : Request) :
    OutgoingConnectorHandler L × CallPoint → List Event →
    Option (OutgoingConnectorHandler L × CallPoint)
  | s, [] => some s
  | s, .own :: rest =>
    match callStep env s.1 ctx pick messageID req s.2 with
    | some s1 => execution env ctx pick messageID req s1 rest
    | none => none
  | s, .other ev :: rest =>
    match interfere env s.1 ev with
    | some c1 => execution env ctx pick messageID req (c1, s.2) rest
    | none => none

/-! ## Lifecycle -/

/-- Modelled from the spec: the state of the `services.StateMachine` embedded
in the handler, whose code is outside this repository's sources: one small
state machine `Created → Started → Stopped`. -/
inductive HandlerState where
  | created
  | started
  | stopped
  deriving DecidableEq, Repr

/-- The lifecycle state of a handler: its state machine and the method lists
the connector has received through `AddHandler`, oldest first. -/
structure Lifecycle where
  state : HandlerState
  added : List (List String)
  deriving DecidableEq, Repr

/-- The call `c.gc.AddHandler(methods, c)`: the connector's answer, with the
call recorded. -/
def AddHandler (answer : List String → Option GoError) (methods : List String)
    (added : List (List String)) : List (List String) × Option GoError :=
  (added ++ [methods], answer methods)

/-- Modelled from the spec: `StateMachine.StartOnce`. The `Started` transition
fires at most once: from `Created` the function is run and the state becomes
`Started`; in every other state nothing is run and the call fails cleanly. -/
def StartOnce (name : String)
    (fn : List (List String) → List (List String) × Option GoError) (s : Lifecycle) :
    Lifecycle × Option GoError :=
  match s.state with
  | .created =>
    let (added, err) := fn s.added
    ({ state := .started, added := added }, err)
  | _ => (s, some (.new (name ++ " has already been started once")))

/-- Modelled from the spec: `StateMachine.StopOnce`. The `Stopped` transition
fires at most once, from `Started`; `Stopped` is terminal. In every other state
nothing is run and the state is left as it is. -/
def StopOnce (name : String)
    (fn : List (List String) → List (List String) × Option GoError) (s : Lifecycle) :
    Lifecycle × Option GoError :=
  match s.state with
  | .started =>
    let (added, err) := fn s.added
    ({ state := .stopped, added := added }, err)
  | _ => (s, some (.new (name ++ " cannot be stopped in this state")))

/-- The method `Start`. -/
def Start (answer : List String → Option GoError) (c : OutgoingConnectorHandler L)
    (s : Lifecycle) : Lifecycle × Option GoError :=
  StartOnce "OutgoingConnectorHandler" (fun added => AddHandler answer [c.method] added) s

/-- The method `Close`. -/
def Close (s : Lifecycle) : Lifecycle × Option GoError :=
  StopOnce "OutgoingConnectorHandler" (fun added => (added, none)) s

/-- A lifecycle call on a handler. -/
inductive LifecycleCall where
  | start
  | close
  deriving DecidableEq, Repr

/-- A sequence of `Start` and `Close` calls on one handler, in order. -/
def runCalls (answer : List String → Option GoError) (c : OutgoingConnectorHandler L) :
    List LifecycleCall → Lifecycle → Lifecycle
  | [], s => s
  | .start :: rest, s => runCalls answer c rest (Start answer c s).1
  | .close :: rest, s => runCalls answer c rest (Close s).1

/-! ## The mutex `responseChsMu` -/

/-- The operations of a call that take or release the mutex, touch the map, or
may block. -/
inductive Op where
  | lock
  | unlock
  | mapWrite
  | mapRead
  | mapDelete
  | gatewaySend
  | selectDeliver
  | selectAwait
  deriving DecidableEq, Repr

/-- The operations that may block: the network send and the two `select`s. -/
def Op.blocking : Op → Bool
  | .gatewaySend => true
  | .selectDeliver => true
  | .selectAwait => true
  | _ => false

/-- The operations `HandleSingleNodeRequest` performs, in program order:
lines 78-80 lock, write the map and unlock; line 99 sends; lines 104-110 wait. -/
def opsHandleSingleNodeRequest (env : Env K L) (c : OutgoingConnectorHandler L)
    (messageID : String) (req : Request) : List Op :=
  match env.Marshal (withDefaultTimeout req) with
  | .error _ => []
  | .ok payload =>
    [.lock, .mapWrite, .unlock] ++
      if env.GatewayIDs.length == 0 then []
      else
        match (sortStrings env.GatewayIDs)[0]? with
        | none => []
        | some gatewayID =>
          .gatewaySend ::
            match env.SignAndSendToGateway gatewayID
                { MessageId := messageID, DonId := env.DonID, Method := c.method,
                  Payload := payload, Sender := "" } with
            | some _ => []
            | none => [.selectAwait]

/-- The operations `HandleGatewayMessage` performs, in program order, by the
branch it takes: line 132 locks, line 133 defers the unlock to the return,
line 134 reads the map, lines 139-144 are the `select`, line 141 the delete. A
call blocked in the `select` has not reached its deferred unlock. -/
def opsHandleGatewayMessage (env : Env K L) (c : OutgoingConnectorHandler L)
    (ctx : Context) (pick : Bool) (gatewayID : String) (msg : Message) : List Op :=
  match (HandleGatewayMessage env c ctx pick gatewayID msg).map Prod.snd with
  | some .rateLimited => []
  | some .unsupportedMethod => []
  | some .unmarshalFailed => []
  | some .noResponseChannel => [.lock, .mapRead, .unlock]
  | some .delivered => [.lock, .mapRead, .selectDeliver, .mapDelete, .unlock]
  | some .ctxDone => [.lock, .mapRead, .selectDeliver, .unlock]
  | none => [.lock, .mapRead, .selectDeliver]

/-- The operations performed while the mutex is held (`held` says whether it
is held at the start), without the lock and unlock operations themselves. -/
def underLock : Bool → List Op → List Op
  | _, [] => []
  | _, .lock :: rest => underLock true rest
  | _, .unlock :: rest => underLock false rest
  | true, op :: rest => op :: underLock true rest
  | false, _ :: rest => underLock false rest

/-- Whether some operation that may block is performed with the mutex held. -/
def blocksUnderLock (ops : List Op) : Bool :=
  (underLock false ops).any Op.blocking

/-! ## A sample environment -/

/-- A sample rate limiter: its state is a burst size and the number of
messages seen per sender; a sender is allowed `burst` messages. -/
def sampleAllow (l : Nat × List (String × Nat)) (sender : String) :
    Bool × (Nat × List (String × Nat)) :=
  let seen := (mapGet l.2 sender).getD 0
  if seen < l.1 then (true, (l.1, mapSet l.2 sender (seen + 1))) else (false, l)

/-- A sample environment: three gateways, a connector that accepts every send,
a codec that accepts every request and every non-empty payload. -/
def sampleEnv : Env Nat (Nat × List (String × Nat)) where
  MethodWebAPITarget := "web_api_target"
  MethodComputeAction := "compute_action"
  MethodWorkflowSyncer := "workflow_syncer"
  DonID := "don"
  GatewayIDs := ["b", "a", "c"]
  SignAndSendToGateway := fun _ _ => none
  NewRateLimiter := fun burst =>
    if burst = 0 then .error (.new "burst must be positive") else .ok (burst, [])
  Allow := sampleAllow
  Marshal := fun req => .ok (req.TimeoutMs :: req.Body)
  Unmarshal := fun payload =>
    if payload = [] then some (.new "unexpected end of JSON input") else none

/-- A fresh handler of the sample environment (burst 2). -/
def sampleHandler : OutgoingConnectorHandler (Nat × List (String × Nat)) :=
  { method := "web_api_target", responseChs := [], rateLimiter := (2, []),
    chans := [], sent := [] }

/-- A handler of the sample environment with one pending request `"x"` whose
rate limiter has already seen two messages from sender `"s"`. -/
def sampleLimited : OutgoingConnectorHandler (Nat × List (String × Nat)) :=
  { method := "web_api_target", responseChs := [("x", 0)], rateLimiter := (2, [("s", 2)]),
    chans := [⟨1, []⟩], sent := [] }

/-- An inbound response carrying `id` from `sender`. -/
def sampleMsg (id sender : String) (payload : Bytes) : Message :=
  ⟨{ MessageId := id, Method := "web_api_target", DonId := "don",
     Payload := payload, Sender := sender }⟩

/-- The envelope the sample handler sends for request `"x"` with body `[1]`
and no timeout. -/
def sampleBody : MessageBody :=
  { MessageId := "x", Method := "web_api_target", DonId := "don",
    Payload := [20000, 1], Sender := "" }

/-- The sample handler after it dispatched request `"x"`. -/
def sampleDispatched : OutgoingConnectorHandler (Nat × List (String × Nat)) :=
  { method := "web_api_target", responseChs := [("x", 0)], rateLimiter := (2, []),
    chans := [⟨1, []⟩], sent := [("a", sampleBody)] }

/-- The sample handler after request `"x"` timed out and a late response to it
from sender `"s"` was handled. -/
def sampleLate : OutgoingConnectorHandler (Nat × List (String × Nat)) :=
  { method := "web_api_target", responseChs := [], rateLimiter := (2, [("s", 1)]),
    chans := [⟨1, [⟨{ MessageId := "x", Method := "web_api_target", DonId := "don",
                      Payload := [7], Sender := "s" }⟩]⟩],
    sent := [("a", sampleBody)] }

/-- The sample handler after the call for `"x"` registered and, before the
call reached its send, a response carrying `"x"` from sender `"s"` was
handled. -/
def sampleEarlyResponse : OutgoingConnectorHandler (Nat × List (String × Nat)) :=
  { method := "web_api_target", responseChs := [], rateLimiter := (2, [("s", 1)]),
    chans := [⟨1, [sampleMsg "x" "s" [7]]⟩], sent := [] }

/-- The sample handler after requests `"x"` and `"y"` were registered and a
response to `"x"` from sender `"s"` was delivered. -/
def sampleResolvedX : OutgoingConnectorHandler (Nat × List (String × Nat)) :=
  { method := "web_api_target", responseChs := [("y", 1)], rateLimiter := (2, [("s", 1)]),
    chans := [⟨1, [sampleMsg "x" "s" [7]]⟩, ⟨1, []⟩], sent := [] }

end Webapi

/-!
# Deployment changesets (packages `changeset` and `solana`)

A shallow embedding of `deployment/ccip/changeset/solana_state.go`,
`deployment/ccip/changeset/solana/cs_solana_token.go`,
`deployment/ccip/changeset/solana/cs_chain_contracts.go` and
`deployment/common/changeset/transfer_to_mcms_with_timelock.go`.

Modelling conventions.

* A Go map that is ranged over is the list of its entries in the order of the
  iteration; the order is arbitrary, so every statement holds for every list.
* Calls into the Solana and EVM client libraries, the address book and the
  proposal builder are collaborators whose code is outside this file; they are
  fields of `SolEnv` and `EvmEnv`.
* An instruction built by a library constructor is the record of the
  constructor's arguments.
* A call that panics has the outcome `panicked`.
-/

namespace Changeset

open Webapi

/-! ## Solana: data model -/

/-- The result of a Go call that either returns or panics. -/
inductive Outcome (α : Type) where
  | returned (a : α)
  | panicked
  deriving DecidableEq, Repr

/-- The type `solana.PublicKey`, an array of 32 bytes. -/
abbrev PublicKey := Bytes

/-- The zero value of `solana.PublicKey`. -/
def zeroKey : PublicKey := List.replicate 32 0

/-- The conversion `[]byte(s)`: the UTF-8 bytes of a string. -/
def stringBytes (s : String) : Bytes :=
  (s.data.flatMap String.utf8EncodeChar).map UInt8.toNat

/-- The function `binary.LittleEndian.AppendUint64`: `b` followed by the eight
bytes `byte(v), byte(v>>8), ..., byte(v>>56)`. -/
def AppendUint64 (b : Bytes) (v : Nat) : Bytes :=
  b ++ [v % 256, v / 2 ^ 8 % 256, v / 2 ^ 16 % 256, v / 2 ^ 24 % 256,
        v / 2 ^ 32 % 256, v / 2 ^ 40 % 256, v / 2 ^ 48 % 256, v / 2 ^ 56 % 256]

/-- The type `deployment.TypeAndVersion`, declared outside the sources at hand:
a contract type (the field `Type`) and a version. -/
structure TypeAndVersion where
  Type_ : String
  Version : String
  deriving DecidableEq, Repr

/-- The struct `SolCCIPChainState`. -/
structure SolCCIPChainState where
  LinkToken : PublicKey
  Router : PublicKey
  Timelock : PublicKey
  AddressLookupTable : PublicKey
  Receiver : PublicKey
  deriving DecidableEq, Repr

/-- The struct `RemoteChainConfigSolana`. -/
structure RemoteChainConfigSolana where
  EnabledAsSource : Bool
  EnabledAsDestination : Bool
  RemoteChainOnRampAddress : String
  DefaultTxGasLimit : Nat
  MaxPerMsgGasLimit : Nat
  MaxDataBytes : Nat
  MaxNumberOfTokensPerMsg : Nat
  ChainFamilySelector : List Nat
  deriving DecidableEq, Repr

/-- The fields of `solRouter.SourceChainConfig` that the changeset sets. -/
structure SourceChainConfig where
  OnRamp : Bytes
  IsEnabled : Bool
  deriving DecidableEq, Repr

/-- The fields of `solRouter.DestChainConfig` that the changeset sets. -/
structure DestChainConfig where
  IsEnabled : Bool
  DefaultTxGasLimit : Nat
  MaxPerMsgGasLimit : Nat
  MaxDataBytes : Nat
  MaxNumberOfTokensPerMsg : Nat
  ChainFamilySelector : List Nat
  deriving DecidableEq, Repr

/-- The instructions the changesets build, each the record of the arguments
given to its constructor: `solTokenUtil.MintTo(amount, program, mint,
toAccount, authority)` and `solRouter.NewAddChainSelectorInstruction(selector,
sourceChainConfig, destChainConfig, sourceChainState, destChainState, config,
authority, systemProgram)`. -/
inductive Instruction where
  | mintTo (amount : Nat) (program mint toAccount authority : PublicKey)
  | addChainSelector (selector : Nat) (sourceChainConfig : SourceChainConfig)
      (destChainConfig : DestChainConfig)
      (sourceChainState destChainState config authority systemProgram : PublicKey)
  deriving DecidableEq, Repr

/-- The struct `MintSolanaTokenConfig`. -/
structure MintSolanaTokenConfig where
  ChainSelector : Nat
  TokenName : String
  TokenProgram : String
  Amount : Nat
  ToAddressList : List String
  deriving DecidableEq, Repr

/-- The collaborators of the Solana changesets: the `solana-go` library
(`PublicKeyFromBase58`, whose `Must` form panics on `none`,
`FindProgramAddress`, `SystemProgramID`), the token utilities, the constants
and the rendering of `deployment.TypeAndVersion`, the environment's lookups,
the deployer key of a chain and the chain's `Confirm`. -/
structure SolEnv where
  PublicKeyFromBase58 : String → Option PublicKey
  FindProgramAddress : List Bytes → PublicKey → PublicKey
  FindAssociatedTokenAddress : PublicKey → PublicKey → PublicKey → PublicKey
  SystemProgramID : PublicKey
  TypeAndVersionString : TypeAndVersion → String
  LinkToken : String
  Router : String
  Version1_0_0 : String
  FindTokenAddress : Nat → String → Except GoError PublicKey
  GetTokenProgramID : String → Except GoError PublicKey
  DeployerKey : Nat → PublicKey
  MintTo : Instruction → Option GoError
  ValidateAndBuild : Instruction → Option GoError
  Confirm : Nat → List Instruction → Option GoError

/-- The variable `AddressLookupTable`. -/
def AddressLookupTable : String := "AddressLookupTable"

/-- The variable `TokenPool`. -/
def TokenPool : String := "TokenPool"

/-- The variable `Receiver`. -/
def Receiver : String := "Receiver"

/-! ## Solana: program-derived addresses -/

/-- The function `GetRouterConfigPDA`. -/
def GetRouterConfigPDA (env : SolEnv) (ccipRouterProgramID : PublicKey) : PublicKey :=
  env.FindProgramAddress [stringBytes "config"] ccipRouterProgramID

/-- The function `GetSolanaSourceChainStatePDA`. -/
def GetSolanaSourceChainStatePDA (env : SolEnv) (ccipRouterProgramID : PublicKey)
    (solanaChainSelector : Nat) : PublicKey :=
  env.FindProgramAddress
    [stringBytes "source_chain_state", AppendUint64 [] solanaChainSelector]
    ccipRouterProgramID

/-- The function `GetSolanaDestChainStatePDA`. -/
def GetSolanaDestChainStatePDA (env : SolEnv) (ccipRouterProgramID : PublicKey)
    (solanaChainSelector : Nat) : PublicKey :=
  env.FindProgramAddress
    [stringBytes "dest_chain_state", AppendUint64 [] solanaChainSelector]
    ccipRouterProgramID

/-- The function `GetEvmSourceChainStatePDA`. -/
def GetEvmSourceChainStatePDA (env : SolEnv) (ccipRouterProgramID : PublicKey)
    (evmChainSelector : Nat) : PublicKey :=
  env.FindProgramAddress
    [stringBytes "source_chain_state", AppendUint64 [] evmChainSelector]
    ccipRouterProgramID

/-- The function `GetEvmDestChainStatePDA`. -/
def GetEvmDestChainStatePDA (env : SolEnv) (ccipRouterProgramID : PublicKey)
    (evmChainSelector : Nat) : PublicKey :=
  env.FindProgramAddress
    [stringBytes "dest_chain_state", AppendUint64 [] evmChainSelector]
    ccipRouterProgramID

/-- The value of eight little-endian bytes. -/
def littleEndianValue : Bytes → Nat
  | [] => 0
  | b :: rest => b + 256 * littleEndianValue rest

/-! ## Solana: chain state -/

/-- The loop of `LoadChainStateSolana` (lines 55-72) over the entries that are
still to be visited, from the state built so far. -/
def loadChainStateSolanaFrom (env : SolEnv) (state : SolCCIPChainState) :
    List (String × TypeAndVersion) → Outcome (SolCCIPChainState × Option GoError)
  | [] => .returned (state, none)
  | (address, tvStr) :: rest =>
    if env.TypeAndVersionString tvStr ==
        env.TypeAndVersionString ⟨env.LinkToken, env.Version1_0_0⟩ then
      match env.PublicKeyFromBase58 address with
      | none => .panicked
      | some pub => loadChainStateSolanaFrom env { state with LinkToken := pub } rest
    else if env.TypeAndVersionString tvStr ==
        env.TypeAndVersionString ⟨env.Router, env.Version1_0_0⟩ then
      match env.PublicKeyFromBase58 address with
      | none => .panicked
      | some pub => loadChainStateSolanaFrom env { state with Router := pub } rest
    else if env.TypeAndVersionString tvStr ==
        env.TypeAndVersionString ⟨AddressLookupTable, env.Version1_0_0⟩ then
      match env.PublicKeyFromBase58 address with
      | none => .panicked
      | some pub => loadChainStateSolanaFrom env { state with AddressLookupTable := pub } rest
    else if env.TypeAndVersionString tvStr ==
        env.TypeAndVersionString ⟨Receiver, env.Version1_0_0⟩ then
      match env.PublicKeyFromBase58 address with
      | none => .panicked
      | some pub => loadChainStateSolanaFrom env { state with Receiver := pub } rest
    else
      .returned (state, some (.new ("unknown contract " ++ env.TypeAndVersionString tvStr)))

/-- The function `LoadChainStateSolana`; `addresses` is the address map in the
order of its iteration. -/
def LoadChainStateSolana (env : SolEnv) (addresses : List (String × TypeAndVersion)) :
    Outcome (SolCCIPChainState × Option GoError) :=
  loadChainStateSolanaFrom env ⟨zeroKey, zeroKey, zeroKey, zeroKey, zeroKey⟩ addresses

/-- The public key recorded for the type-and-version rendered as `key`: the
key of the address of the first entry of that type, the zero key when there is
none. -/
def recordedKey (env : SolEnv) (addresses : List (String × TypeAndVersion)) (key : String) :
    PublicKey :=
  match addresses.find? (fun e => env.TypeAndVersionString e.2 == key) with
  | some e => (env.PublicKeyFromBase58 e.1).getD zeroKey
  | none => zeroKey

/-- The public key recorded for `key` among `addresses`, and `dflt` when there
is none. -/
def recordedKeyFrom (env : SolEnv) (dflt : PublicKey)
    (addresses : List (String × TypeAndVersion)) (key : String) : PublicKey :=
  match addresses.find? (fun e => env.TypeAndVersionString e.2 == key) with
  | some e => (env.PublicKeyFromBase58 e.1).getD zeroKey
  | none => dflt

/-- The four renderings `LoadChainStateSolana` compares against, in the order
of its `switch`. -/
def knownTypes (env : SolEnv) : List String :=
  [env.TypeAndVersionString ⟨env.LinkToken, env.Version1_0_0⟩,
   env.TypeAndVersionString ⟨env.Router, env.Version1_0_0⟩,
   env.TypeAndVersionString ⟨AddressLookupTable, env.Version1_0_0⟩,
   env.TypeAndVersionString ⟨Receiver, env.Version1_0_0⟩]

/-! ## Solana: minting -/

/-- The instruction `MintSolanaToken` builds for one recipient (lines
107-110). -/
def mintToInstruction (env : SolEnv) (cfg : MintSolanaTokenConfig)
    (tokenAddress tokenprogramID toAddressBase58 : PublicKey) : Instruction :=
  .mintTo cfg.Amount tokenprogramID tokenAddress
    (env.FindAssociatedTokenAddress tokenprogramID tokenAddress toAddressBase58)
    (env.DeployerKey cfg.ChainSelector)

/-- The loop of `MintSolanaToken` (lines 106-115) over the recipients that are
still to be visited, from the instructions built so far. -/
def mintInstructions (env : SolEnv) (cfg : MintSolanaTokenConfig)
    (tokenAddress tokenprogramID : PublicKey) :
    List String → List Instruction → Outcome (Except GoError (List Instruction))
  | [], instructions => .returned (.ok instructions)
  | toAddress :: rest, instructions =>
    match env.PublicKeyFromBase58 toAddress with
    | none => .panicked
    | some toAddressBase58 =>
      let mintToI := mintToInstruction env cfg tokenAddress tokenprogramID toAddressBase58
      match env.MintTo mintToI with
      | some err => .returned (.error err)
      | none =>
        mintInstructions env cfg tokenAddress tokenprogramID rest (instructions ++ [mintToI])

/-- The function `MintSolanaToken`: the instruction lists it passed to
`chain.Confirm`, in order, and the error it returns (its output is always the
empty `ChangesetOutput`). -/
def MintSolanaToken (env : SolEnv) (cfg : MintSolanaTokenConfig) :
    Outcome (List (List Instruction) × Option GoError) :=
  match env.FindTokenAddress cfg.ChainSelector cfg.TokenName with
  | .error err => .returned ([], some err)
  | .ok tokenAddress =>
    match env.GetTokenProgramID cfg.TokenProgram with
    | .error err => .returned ([], some err)
    | .ok tokenprogramID =>
      match mintInstructions env cfg tokenAddress tokenprogramID cfg.ToAddressList [] with
      | .panicked => .panicked
      | .returned (.error err) => .returned ([], some err)
      | .returned (.ok instructions) =>
        .returned ([instructions], env.Confirm cfg.ChainSelector instructions)

/-! ## Solana: remote chains -/

/-- The instruction `doAddRemoteChainToSolana` builds for one update (lines
111-137). -/
def addChainSelectorInstruction (env : SolEnv) (ccipRouterID : PublicKey) (chainSel : Nat)
    (destination : Nat) (update : RemoteChainConfigSolana) : Instruction :=
  let sourceChainStatePDA := GetEvmSourceChainStatePDA env ccipRouterID destination
  let validSourceChainConfig : SourceChainConfig :=
    { OnRamp := stringBytes update.RemoteChainOnRampAddress,
      IsEnabled := update.EnabledAsSource }
  let destChainStatePDA := GetEvmDestChainStatePDA env ccipRouterID destination
  let validDestChainConfig : DestChainConfig :=
    { IsEnabled := update.EnabledAsDestination,
      DefaultTxGasLimit := update.DefaultTxGasLimit,
      MaxPerMsgGasLimit := update.MaxPerMsgGasLimit,
      MaxDataBytes := update.MaxDataBytes,
      MaxNumberOfTokensPerMsg := update.MaxNumberOfTokensPerMsg,
      ChainFamilySelector := [40, 18, 213, 44] }
  .addChainSelector destination validSourceChainConfig validDestChainConfig
    sourceChainStatePDA destChainStatePDA (GetRouterConfigPDA env ccipRouterID)
    (env.DeployerKey chainSel) env.SystemProgramID

/-- The loop of `doAddRemoteChainToSolana` (lines 109-149): the instruction
lists passed to `chain.Confirm`, in order, and the error returned. -/
def addRemoteChains (env : SolEnv) (ccipRouterID : PublicKey) (chainSel : Nat) :
    List (Nat × RemoteChainConfigSolana) → List (List Instruction) × Option GoError
  | [] => ([], none)
  | (destination, update) :: rest =>
    let instruction := addChainSelectorInstruction env ccipRouterID chainSel destination update
    match env.ValidateAndBuild instruction with
    | some err => ([], some (.wrap "failed to generate instructions" err))
    | none =>
      match env.Confirm chainSel [instruction] with
      | some err => ([[instruction]], some (.wrap "failed to confirm instructions" err))
      | none =>
        let (confirmed, err) := addRemoteChains env ccipRouterID chainSel rest
        ([instruction] :: confirmed, err)

/-- The function `doAddRemoteChainToSolana`; `s` is the `SolChains` map of the
on-chain state (a missing chain gives the zero state) and `updates` the map of
updates in the order of its iteration. -/
def doAddRemoteChainToSolana (env : SolEnv) (s : Nat → SolCCIPChainState) (chainSel : Nat)
    (updates : List (Nat × RemoteChainConfigSolana)) :
    List (List Instruction) × Option GoError :=
  let ccipRouterID := (s chainSel).Router
  addRemoteChains env ccipRouterID chainSel updates

/-- The loop of `AddRemoteChainToSolana` (lines 92-97) over the chains. -/
def addRemoteChainsByChain (env : SolEnv) (s : Nat → SolCCIPChainState) :
    List (Nat × List (Nat × RemoteChainConfigSolana)) →
    List (List Instruction) × Option GoError
  | [] => ([], none)
  | (chainSel, updates) :: rest =>
    match doAddRemoteChainToSolana env s chainSel updates with
    | (confirmed, some err) => (confirmed, some err)
    | (confirmed, none) =>
      let (more, err) := addRemoteChainsByChain env s rest
      (confirmed ++ more, err)

/-- The function `AddRemoteChainToSolana`. The results of `cfg.Validate(e)` and
of `cs.LoadOnchainState(e)`, which read the environment through code outside
the sources at hand, are given as `validated` and `loaded`. -/
def AddRemoteChainToSolana (env : SolEnv) (validated : Option GoError)
    (loaded : Except GoError (Nat → SolCCIPChainState))
    (updatesByChain : List (Nat × List (Nat × RemoteChainConfigSolana))) :
    List (List Instruction) × Option GoError :=
  match validated with
  | some err => ([], some err)
  | none =>
    match loaded with
    | .error err => ([], some err)
    | .ok s => addRemoteChainsByChain env s updatesByChain

/-! ## Solana: a sample environment -/

/-- A sample public key: 32 bytes equal to `n`. -/
def sampleKey (n : Nat) : PublicKey := List.replicate 32 n

/-- A sample environment. Its parser knows the keys written `"A"`, `"B"`, `"C"`
and `"D"` and rejects every other string; its derived addresses are 32-byte
digests that only keep the sum of the inputs; every build and every `Confirm`
succeeds. -/
def sampleSolEnv : SolEnv where
  PublicKeyFromBase58 := fun s =>
    if s = "A" then some (sampleKey 1) else if s = "B" then some (sampleKey 2)
    else if s = "C" then some (sampleKey 3) else if s = "D" then some (sampleKey 4)
    else none
  FindProgramAddress := fun seeds program =>
    sampleKey (((seeds.map List.sum).sum + program.sum) % 256)
  FindAssociatedTokenAddress := fun program mint owner =>
    sampleKey ((program.sum + mint.sum + owner.sum) % 256)
  SystemProgramID := zeroKey
  TypeAndVersionString := fun tv => tv.Type_ ++ " " ++ tv.Version
  LinkToken := "LinkToken"
  Router := "Router"
  Version1_0_0 := "1.0.0"
  FindTokenAddress := fun _ name =>
    if name = "spl-token-2022" then .ok (sampleKey 9) else .error (.new "token not found")
  GetTokenProgramID := fun name =>
    if name = "spl-token-2022" then .ok (sampleKey 8) else .error (.new "invalid token program")
  DeployerKey := fun _ => sampleKey 1
  MintTo := fun _ => none
  ValidateAndBuild := fun _ => none
  Confirm := fun _ _ => none

/-- A sample token ledger for the sample environment: the balance of each
token account that holds tokens, a `uint64`. -/
def sampleBalance (c : List (PublicKey × Nat)) (account : PublicKey) : Nat :=
  (c.lookup account).getD 0

/-- A sample token program for the sample environment: a `MintTo` credits its
amount to its destination account and fails when the balance would leave
`uint64`; every other instruction leaves the balances as they are. -/
def sampleProcess (c : List (PublicKey × Nat)) : Instruction → Option (List (PublicKey × Nat))
  | .mintTo amount _ _ toAccount _ =>
    if sampleBalance c toAccount + amount < 2 ^ 64 then
      some ((toAccount, sampleBalance c toAccount + amount) ::
        c.filter (fun e => e.1 != toAccount))
    else none
  | _ => some c

/-- A sample address map with a link token and a router. -/
def sampleAddresses : List (String × TypeAndVersion) :=
  [("B", ⟨"Router", "1.0.0"⟩), ("A", ⟨"LinkToken", "1.0.0"⟩)]

/-- The minting configuration of `TestDeploySolanaToken`, with the deployer
listed twice. -/
def sampleMintConfig : MintSolanaTokenConfig :=
  { ChainSelector := 7, TokenName := "spl-token-2022", TokenProgram := "spl-token-2022",
    Amount := 1000, ToAddressList := ["A", "B", "A"] }

/-- The remote chain update of `TestAddRemoteChain`. -/
def sampleUpdate : RemoteChainConfigSolana :=
  { EnabledAsSource := true, EnabledAsDestination := true,
    RemoteChainOnRampAddress := "0xab", DefaultTxGasLimit := 1, MaxPerMsgGasLimit := 100,
    MaxDataBytes := 32, MaxNumberOfTokensPerMsg := 1, ChainFamilySelector := [0, 0, 0, 0] }

/-! ## EVM: transfer of ownership to the timelock -/

/-- The message of a Go error, as the verb `%v` prints it. -/
def errorString : GoError → String
  | .new msg => msg
  | .wrap msg cause => msg ++ ": " ++ errorString cause

/-- The type `common.Address`, an array of 20 bytes. -/
abbrev Address := Bytes

/-- The zero value of `common.Address`. -/
def zeroAddress : Address := List.replicate 20 0

/-- The fields of `mcms.Operation`. -/
structure Operation where
  To : Address
  Data : Bytes
  Value : Int
  deriving DecidableEq, Repr

/-- The fields of `timelock.BatchChainOperation`. -/
structure BatchChainOperation where
  ChainIdentifier : Nat
  Batch : List Operation
  deriving DecidableEq, Repr

/-- The struct `TransferToMCMSWithTimelockConfig`; `ContractsByChain` is the
map in the order of its iteration. -/
structure TransferToMCMSWithTimelockConfig where
  ContractsByChain : List (Nat × List Address)
  MinDelay : Int
  deriving DecidableEq, Repr

/-- The part of `deployment.ChangesetOutput` the changeset fills: its
proposals. The empty output has none. -/
structure ChangesetOutput (P : Type) where
  Proposals : List P
  deriving DecidableEq, Repr

/-- The collaborators of the transfer changeset: the contract-type constants,
the rendering and parsing of addresses, the address book of the environment,
the contract bindings reading and writing the chains (whose state is `W`), and
the proposal builder (whose proposals are `P`). `TransferOwnership` stands for
the call followed by `deployment.ConfirmIfNoError`. -/
structure EvmEnv (W P : Type) where
  RBACTimelock : String
  ProposerManyChainMultisig : String
  AddressString : Address → String
  HexToAddress : String → Address
  AddressBookContains : Nat → String → Except GoError Bool
  SearchAddressBook : Nat → String → Except GoError String
  NewBurnMintERC677 : Nat → Address → Option GoError
  Owner : W → Nat → Address → Except GoError Address
  DeployerKeyFrom : Nat → Address
  NewManyChainMultiSig : Nat → Address → Option GoError
  TransferOwnership : W → Nat → Address → Address → W × Option GoError
  AcceptOwnership : Nat → Address → Except GoError Bytes
  BuildProposalFromBatches : List (Nat × Address) → List (Nat × Address) →
    List BatchChainOperation → String → Int → Except GoError P

/-- The chains together with the record of the `TransferOwnership` calls made
on them (chain selector, contract, new owner), oldest first. -/
structure EvmState (W : Type) where
  world : W
  transfers : List (Nat × Address × Address)

variable {W P : Type}

/-- The function `LoadOwnableContract`: the owner it reads, or its error. -/
def LoadOwnableContract (env : EvmEnv W P) (w : W) (chainSelector : Nat) (addr : Address) :
    Except GoError Address :=
  match env.NewBurnMintERC677 chainSelector addr with
  | some err => .error (.new ("failed to create contract: " ++ errorString err))
  | none =>
    match env.Owner w chainSelector addr with
    | .error err => .error (.new ("failed to get owner of contract: " ++ errorString err))
    | .ok owner => .ok owner

/-- The inner loop of `Validate` (lines 49-65) over the contracts of a chain. -/
def validateContracts (env : EvmEnv W P) (w : W) (chainSelector : Nat) :
    List Address → Option GoError
  | [] => none
  | contract :: rest =>
    match env.AddressBookContains chainSelector (env.AddressString contract) with
    | .error err => some (.new ("failed to check address book: " ++ errorString err))
    | .ok false =>
      some (.new ("contract " ++ env.AddressString contract ++ " not found in address book"))
    | .ok true =>
      match LoadOwnableContract env w chainSelector contract with
      | .error err => some (.new ("failed to load ownable: " ++ errorString err))
      | .ok owner =>
        if owner != env.DeployerKeyFrom chainSelector then
          some (.new ("contract " ++ env.AddressString contract ++
            " is not owned by the deployer key"))
        else validateContracts env w chainSelector rest

/-- The outer loop of `Validate` (lines 48-73) over the chains. -/
def validateChains (env : EvmEnv W P) (w : W) : List (Nat × List Address) → Option GoError
  | [] => none
  | (chainSelector, contracts) :: rest =>
    match validateContracts env w chainSelector contracts with
    | some err => some err
    | none =>
      match env.SearchAddressBook chainSelector env.RBACTimelock with
      | .error err => some (.new ("timelock not present on the chain " ++ errorString err))
      | .ok _ =>
        match env.SearchAddressBook chainSelector env.ProposerManyChainMultisig with
        | .error err =>
          some (.new ("mcms proposer not present on the chain " ++ errorString err))
        | .ok _ => validateChains env w rest

/-- The method `TransferToMCMSWithTimelockConfig.Validate`. -/
def Validate (env : EvmEnv W P) (w : W) (cfg : TransferToMCMSWithTimelockConfig) :
    Option GoError :=
  validateChains env w cfg.ContractsByChain

/-- The address string `SearchAddressBook` gives when its error is dropped
(lines 98-99): the empty string on an error. -/
def searchOrEmpty (env : EvmEnv W P) (chainSelector : Nat) (contractType : String) : String :=
  match env.SearchAddressBook chainSelector contractType with
  | .ok addr => addr
  | .error _ => ""

/-- The value of `owner` at line 111, where the error of `LoadOwnableContract`
is dropped: the zero address on an error. -/
def ownerSeen (env : EvmEnv W P) (w : W) (chainSelector : Nat) (contract : Address) :
    Address :=
  match LoadOwnableContract env w chainSelector contract with
  | .ok owner => owner
  | .error _ => zeroAddress

/-- The inner loop of `TransferToMCMSWithTimelock` (lines 108-131) over the
contracts of a chain that are still to be visited, from the operations built
so far. A contract that failed to load leaves a nil binding, on which
`TransferOwnership` panics. -/
def transferContracts (env : EvmEnv W P) (chainSelector : Nat) (timelockAddr : String) :
    EvmState W → List Address → List Operation →
    Outcome (EvmState W × Except GoError (List Operation))
  | st, [], ops => .returned (st, .ok ops)
  | st, contract :: rest, ops =>
    if env.AddressString (ownerSeen env st.world chainSelector contract) == timelockAddr then
      transferContracts env chainSelector timelockAddr st rest ops
    else
      match LoadOwnableContract env st.world chainSelector contract with
      | .error _ => .panicked
      | .ok _ =>
        match env.TransferOwnership st.world chainSelector contract
            (env.HexToAddress timelockAddr) with
        | (w1, some err) =>
          .returned
            ({ world := w1,
               transfers := st.transfers ++
                 [(chainSelector, contract, env.HexToAddress timelockAddr)] },
             .error (.new ("failed to transfer ownership of contract common.Address: " ++
               errorString err)))
        | (w1, none) =>
          match env.AcceptOwnership chainSelector contract with
          | .error err =>
            .returned
              ({ world := w1,
                 transfers := st.transfers ++
                   [(chainSelector, contract, env.HexToAddress timelockAddr)] },
               .error (.wrap ("failed to generate accept ownership calldata of " ++
                 env.AddressString contract) err))
          | .ok data =>
            transferContracts env chainSelector timelockAddr
              { world := w1,
                transfers := st.transfers ++
                  [(chainSelector, contract, env.HexToAddress timelockAddr)] }
              rest (ops ++ [{ To := contract, Data := data, Value := 0 }])

/-- What the outer loop of `TransferToMCMSWithTimelock` accumulates: the
batches, the timelock of each chain and the proposer of each chain. -/
structure Batches where
  batches : List BatchChainOperation
  timelocksByChain : List (Nat × Address)
  proposersByChain : List (Nat × Address)
  deriving DecidableEq, Repr

/-- The outer loop of `TransferToMCMSWithTimelock` (lines 96-136) over the
chains that are still to be visited. -/
def transferChains (env : EvmEnv W P) :
    EvmState W → List (Nat × List Address) → Batches →
    Outcome (EvmState W × Except GoError Batches)
  | st, [], acc => .returned (st, .ok acc)
  | st, (chainSelector, contracts) :: rest, acc =>
    let timelockAddr := searchOrEmpty env chainSelector env.RBACTimelock
    let proposerAddr := searchOrEmpty env chainSelector env.ProposerManyChainMultisig
    match env.NewManyChainMultiSig chainSelector (env.HexToAddress proposerAddr) with
    | some err =>
      .returned (st, .error (.new ("failed to create proposer mcms: " ++ errorString err)))
    | none =>
      match transferContracts env chainSelector timelockAddr st contracts [] with
      | .panicked => .panicked
      | .returned (st1, .error err) => .returned (st1, .error err)
      | .returned (st1, .ok ops) =>
        transferChains env st1 rest
          { batches := acc.batches ++ [{ ChainIdentifier := chainSelector, Batch := ops }],
            timelocksByChain :=
              acc.timelocksByChain ++ [(chainSelector, env.HexToAddress timelockAddr)],
            proposersByChain :=
              acc.proposersByChain ++ [(chainSelector, env.HexToAddress proposerAddr)] }

/-- The function `TransferToMCMSWithTimelock`: the state of the chains after
the call, its output and its error. -/
def TransferToMCMSWithTimelock (env : EvmEnv W P) (st : EvmState W)
    (cfg : TransferToMCMSWithTimelockConfig) :
    Outcome (EvmState W × ChangesetOutput P × Option GoError) :=
  match Validate env st.world cfg with
  | some err => .returned (st, ⟨[]⟩, some err)
  | none =>
    match transferChains env st cfg.ContractsByChain ⟨[], [], []⟩ with
    | .panicked => .panicked
    | .returned (st1, .error err) => .returned (st1, ⟨[]⟩, some err)
    | .returned (st1, .ok acc) =>
      match env.BuildProposalFromBatches acc.timelocksByChain acc.proposersByChain
          acc.batches "Transfer ownership to timelock" cfg.MinDelay with
      | .error err =>
        .returned (st1, ⟨[]⟩, some (.wrap "failed to build proposal from batch" err))
      | .ok proposal => .returned (st1, ⟨[proposal]⟩, none)

/-- The accept-ownership operations of one chain, in the words of the
specification: going through the configured contracts in order from the chain
state `w`, a contract whose owner is the chain's timelock contributes nothing,
and every other contract is transferred to the timelock and contributes one
operation with `To` the contract, `Value` 0 and `Data` the `AcceptOwnership`
calldata; `w1` is the chain state after the transfers. -/
inductive AcceptOps (env : EvmEnv W P) (chainSelector : Nat) (timelockAddr : String) :
    W → List Address → W → List Operation → Prop where
  | done (w : W) : AcceptOps env chainSelector timelockAddr w [] w []
  | owned {w w1 : W} {contract : Address} {rest : List Address} {ops : List Operation} :
      env.AddressString (ownerSeen env w chainSelector contract) = timelockAddr →
      AcceptOps env chainSelector timelockAddr w rest w1 ops →
      AcceptOps env chainSelector timelockAddr w (contract :: rest) w1 ops
  | accept {w w0 w1 : W} {contract : Address} {rest : List Address} {ops : List Operation}
      {data : Bytes} :
      env.AddressString (ownerSeen env w chainSelector contract) ≠ timelockAddr →
      env.TransferOwnership w chainSelector contract (env.HexToAddress timelockAddr) =
        (w0, none) →
      env.AcceptOwnership chainSelector contract = .ok data →
      AcceptOps env chainSelector timelockAddr w0 rest w1 ops →
      AcceptOps env chainSelector timelockAddr w (contract :: rest) w1
        ({ To := contract, Data := data, Value := 0 } :: ops)

/-- The batches of a proposal, in the words of the specification: one batch
per chain selector of the configuration, in the order of the iteration, each
holding the accept-ownership operations of its chain built against the chain's
timelock; the chain state is threaded from one chain to the next. -/
inductive ChainOps (env : EvmEnv W P) :
    W → List (Nat × List Address) → W → List BatchChainOperation → Prop where
  | done (w : W) : ChainOps env w [] w []
  | chain {w w0 w1 : W} {chainSelector : Nat} {contracts : List Address}
      {rest : List (Nat × List Address)} {ops : List Operation}
      {batches : List BatchChainOperation} :
      AcceptOps env chainSelector (searchOrEmpty env chainSelector env.RBACTimelock)
        w contracts w0 ops →
      ChainOps env w0 rest w1 batches →
      ChainOps env w ((chainSelector, contracts) :: rest) w1
        ({ ChainIdentifier := chainSelector, Batch := ops } :: batches)

/-- The `TransferOwnership` calls that go with a list of batches: one per
operation, to the timelock of the batch's chain. -/
def transfersOf (env : EvmEnv W P) (batches : List BatchChainOperation) :
    List (Nat × Address × Address) :=
  batches.flatMap (fun b => b.Batch.map (fun op =>
    (b.ChainIdentifier, op.To,
      env.HexToAddress (searchOrEmpty env b.ChainIdentifier env.RBACTimelock))))

/-! ## EVM: a sample environment -/

/-- A sample address: 20 bytes equal to `n`. -/
def sampleAddress (n : Nat) : Address := List.replicate 20 n

/-- A sample environment with one chain, selector 1. An address is rendered as
the string of the characters coded by its bytes. The chain state lists each
contract with its owner, newest first; ownership is transferred in one step.
The address book knows every contract and has a timelock (20 bytes 84) and a
proposer (20 bytes 77) on chain 1 only. A proposal is its list of batches. -/
def sampleEvmEnv : EvmEnv (List (Address × Address)) (List BatchChainOperation) where
  RBACTimelock := "RBACTimelock"
  ProposerManyChainMultisig := "ProposerManyChainMultiSig"
  AddressString := fun a => String.mk (a.map Char.ofNat)
  HexToAddress := fun s => s.data.map Char.toNat
  AddressBookContains := fun _ _ => .ok true
  SearchAddressBook := fun chain contractType =>
    if chain = 1 then
      if contractType = "RBACTimelock" then .ok (String.mk ((sampleAddress 84).map Char.ofNat))
      else .ok (String.mk ((sampleAddress 77).map Char.ofNat))
    else .error (.new "not found")
  NewBurnMintERC677 := fun _ _ => none
  Owner := fun w _ a => .ok ((w.lookup a).getD zeroAddress)
  DeployerKeyFrom := fun _ => sampleAddress 68
  NewManyChainMultiSig := fun _ _ => none
  TransferOwnership := fun w _ contract newOwner => ((contract, newOwner) :: w, none)
  AcceptOwnership := fun _ _ => .ok [121, 186, 80, 151]
  BuildProposalFromBatches := fun _ _ batches _ _ => .ok batches

/-- A sample chain state: contracts 1 and 2 are owned by the deployer key. -/
def sampleWorld : EvmState (List (Address × Address)) :=
  { world := [(sampleAddress 1, sampleAddress 68), (sampleAddress 2, sampleAddress 68)],
    transfers := [] }

/-- A sample configuration: contract 1, contract 1 again, contract 2, on
chain 1. -/
def sampleTransferConfig : TransferToMCMSWithTimelockConfig :=
  { ContractsByChain := [(1, [sampleAddress 1, sampleAddress 1, sampleAddress 2])],
    MinDelay := 0 }

end Changeset

namespace Webapi

variable {K L : Type}

/-! ## Go maps -/

theorem mem_of_mapGet {m : List (String × Nat)} {k : String} {v : Nat}
    (h : mapGet m k = some v) : (k, v) ∈ m := by
  induction m with
  | nil => simp [mapGet] at h
  | cons e m ih =>
    obtain ⟨k1, v1⟩ := e
    by_cases hk : k = k1
    · subst hk
      simp [mapGet, List.lookup] at h
      simp [h]
    · have hb : (k == k1) = false := by simpa using hk
      simp only [mapGet, List.lookup, hb] at h
      exact List.mem_cons_of_mem _ (ih h)

theorem mapGet_of_mem {m : List (String × Nat)} {k : String} {v : Nat}
    (hn : (m.map Prod.fst).Nodup) (h : (k, v) ∈ m) : mapGet m k = some v := by
  induction m with
  | nil => simp at h
  | cons e m ih =>
    obtain ⟨k1, v1⟩ := e
    simp only [List.map_cons, List.nodup_cons] at hn
    rcases List.mem_cons.mp h with h1 | h1
    · cases h1
      simp [mapGet, List.lookup]
    · have hk : k ≠ k1 := by
        rintro rfl
        exact hn.1 (List.mem_map_of_mem Prod.fst h1)
      have hb : (k == k1) = false := by simpa using hk
      simp only [mapGet, List.lookup, hb]
      exact ih hn.2 h1

theorem mapGet_eq_none_iff {m : List (String × Nat)} {k : String} :
    mapGet m k = none ↔ ∀ v, (k, v) ∉ m := by
  induction m with
  | nil => simp [mapGet]
  | cons e m ih =>
    obtain ⟨k1, v1⟩ := e
    by_cases hk : k = k1
    · subst hk
      simp only [mapGet, List.lookup, beq_self_eq_true]
      constructor
      · intro h; cases h
      · intro h; exact absurd (List.mem_cons_self _ _) (h v1)
    · have hb : (k == k1) = false := by simpa using hk
      simp only [mapGet, List.lookup, hb]
      rw [show List.lookup k m = mapGet m k from rfl, ih]
      constructor
      · intro h v hv
        rcases List.mem_cons.mp hv with h1 | h1
        · cases h1; exact hk rfl
        · exact h v h1
      · intro h v hv
        exact h v (List.mem_cons_of_mem _ hv)

theorem mem_mapDelete {m : List (String × Nat)} {k : String} {e : String × Nat} :
    e ∈ mapDelete m k ↔ e ∈ m ∧ e.1 ≠ k := by
  simp [mapDelete]

theorem mapGet_mapDelete_self (m : List (String × Nat)) (k : String) :
    mapGet (mapDelete m k) k = none := by
  rw [mapGet_eq_none_iff]
  intro v hv
  exact (mem_mapDelete.mp hv).2 rfl

theorem mapGet_mapDelete_ne (m : List (String × Nat)) {k k1 : String} (h : k1 ≠ k) :
    mapGet (mapDelete m k) k1 = mapGet m k1 := by
  induction m with
  | nil => rfl
  | cons e m ih =>
    obtain ⟨k2, v2⟩ := e
    by_cases hk : k2 = k
    · subst hk
      have hb : (k1 == k2) = false := by simpa using h
      simp only [mapDelete, List.filter, bne_self_eq_false, mapGet, List.lookup, hb]
      exact ih
    · have hb : (k2 != k) = true := by simpa using hk
      simp only [mapDelete, List.filter, hb, mapGet, List.lookup]
      cases k1 == k2
      · exact ih
      · rfl

theorem mapDelete_of_mapGet_none {m : List (String × Nat)} {k : String}
    (h : mapGet m k = none) : mapDelete m k = m := by
  rw [mapGet_eq_none_iff] at h
  apply List.filter_eq_self.mpr
  rintro ⟨k1, v1⟩ he
  have : k1 ≠ k := by
    rintro rfl
    exact h v1 he
  simpa using this

theorem mapGet_mapSet_self (m : List (String × Nat)) (k : String) (v : Nat) :
    mapGet (mapSet m k v) k = some v := by
  simp [mapGet, mapSet, List.lookup]

theorem mapGet_mapSet_ne (m : List (String × Nat)) {k k1 : String} (v : Nat) (h : k1 ≠ k) :
    mapGet (mapSet m k v) k1 = mapGet m k1 := by
  have hb : (k1 == k) = false := by simpa using h
  simp only [mapGet, mapSet, List.lookup, hb]
  exact mapGet_mapDelete_ne m h

theorem nodup_keys_mapDelete {m : List (String × Nat)} (k : String)
    (h : (m.map Prod.fst).Nodup) : ((mapDelete m k).map Prod.fst).Nodup := by
  have hs : List.Sublist ((mapDelete m k).map Prod.fst) (m.map Prod.fst) :=
    List.Sublist.map _ (List.filter_sublist m)
  exact hs.nodup h

/-! ## The invariant holds in every reachable state -/

theorem inv_init {env : Env K L} {config : K} {method : String}
    {c : OutgoingConnectorHandler L}
    (h : NewOutgoingConnectorHandler env config method = .ok c) : Inv c := by
  unfold NewOutgoingConnectorHandler at h
  split at h
  · cases h
  · split at h
    · cases h
    · cases h
      exact ⟨by simp, by simp, by simp, by simp⟩

theorem inv_register {c : OutgoingConnectorHandler L} (messageID : String) (h : Inv c) :
    Inv (register c messageID).1 := by
  have hlt : ∀ k ch, (k, ch) ∈ c.responseChs → ch < c.chans.length := by
    intro k ch hm
    have := h.empty k ch hm
    by_contra hge
    rw [List.getElem?_eq_none (Nat.le_of_not_lt hge)] at this
    cases this
  refine ⟨?_, ?_, ?_, ?_⟩
  · intro k ch hm
    simp only [register, makeChan, mapSet, List.mem_cons] at hm
    rcases hm with h1 | h1
    · cases h1
      simp [register, makeChan]
    · have hm1 := (mem_mapDelete.mp h1).1
      simp only [register, makeChan]
      rw [List.getElem?_append_left (hlt k ch hm1)]
      exact h.empty k ch hm1
  · intro k1 k2 ch hm1 hm2
    simp only [register, makeChan, mapSet, List.mem_cons] at hm1 hm2
    rcases hm1 with h1 | h1 <;> rcases hm2 with h2 | h2
    · cases h1; cases h2; rfl
    · cases h1
      exact absurd (hlt k2 _ (mem_mapDelete.mp h2).1) (Nat.lt_irrefl _)
    · cases h2
      exact absurd (hlt k1 _ (mem_mapDelete.mp h1).1) (Nat.lt_irrefl _)
    · exact h.inj k1 k2 ch (mem_mapDelete.mp h1).1 (mem_mapDelete.mp h2).1
  · simp only [register, makeChan, mapSet, List.map_cons, List.nodup_cons]
    refine ⟨?_, nodup_keys_mapDelete messageID h.keys⟩
    intro hm
    obtain ⟨e, he, hk⟩ := List.mem_map.mp hm
    exact (mem_mapDelete.mp he).2 hk
  · intro x hx
    simp only [register, makeChan, List.mem_append, List.mem_singleton] at hx
    rcases hx with hx | hx
    · exact h.caps x hx
    · subst hx
      simp

theorem inv_send (env : Env K L) {c : OutgoingConnectorHandler L} (gatewayID : String)
    (body : MessageBody) (h : Inv c) : Inv (SignAndSendToGateway env c gatewayID body).1 :=
  ⟨h.empty, h.inj, h.keys, h.caps⟩

theorem chanRecv_some {chans chans1 : List Chan} {ch : Nat} {resp : Message}
    (h : chanRecv chans ch = some (resp, chans1)) :
    ∃ cap rest, chans[ch]? = some ⟨cap, resp :: rest⟩ ∧ chans1 = chans.set ch ⟨cap, rest⟩ := by
  unfold chanRecv at h
  split at h
  · next cap r rest heq =>
    cases h
    exact ⟨cap, rest, heq, rfl⟩
  · cases h

theorem chanSend_some {chans chans1 : List Chan} {ch : Nat} {msg : Message}
    (h : chanSend chans ch msg = some chans1) :
    ∃ x, chans[ch]? = some x ∧ x.buf.length < x.cap ∧
      chans1 = chans.set ch { x with buf := x.buf ++ [msg] } := by
  unfold chanSend at h
  split at h
  · next x heq =>
    split at h
    · next hlt =>
      cases h
      exact ⟨x, heq, hlt, rfl⟩
    · cases h
  · cases h

theorem inv_await {c c1 : OutgoingConnectorHandler L} {ch : Nat} {ctx : Context}
    {pick : Bool} {status : CallStatus} (h : Inv c)
    (hs : awaitResponse c ch ctx pick = some (c1, status)) : Inv c1 := by
  unfold awaitResponse at hs
  split at hs
  · next resp chans hr =>
    split at hs
    · cases hs; exact h
    · cases hs
      obtain ⟨cap, rest, hget, rfl⟩ := chanRecv_some hr
      have hne : ∀ k ch1, (k, ch1) ∈ c.responseChs → ch ≠ ch1 := by
        rintro k ch1 hm rfl
        have := h.empty k ch hm
        rw [hget] at this
        cases this
      refine ⟨?_, h.inj, h.keys, ?_⟩
      · intro k ch1 hm
        show (c.chans.set ch _)[ch1]? = _
        rw [List.getElem?_set_ne (hne k ch1 hm)]
        exact h.empty k ch1 hm
      · intro x hx
        show x.cap = 1 ∧ x.buf.length ≤ 1
        have hx1 : x ∈ c.chans.set ch ⟨cap, rest⟩ := hx
        rcases List.mem_or_eq_of_mem_set hx1 with h1 | h1
        · exact h.caps x h1
        · subst h1
          have := h.caps _ (List.mem_iff_getElem?.mpr ⟨ch, hget⟩)
          simp only [List.length_cons] at this
          exact ⟨this.1, Nat.le_of_succ_le this.2⟩
  · split at hs
    · cases hs; exact h
    · cases hs

theorem inv_rateLimiter {c : OutgoingConnectorHandler L} (l : L) (h : Inv c) :
    Inv { c with rateLimiter := l } :=
  ⟨h.empty, h.inj, h.keys, h.caps⟩

theorem inv_gateway {env : Env K L} {c c1 : OutgoingConnectorHandler L} {ctx : Context}
    {pick : Bool} {gatewayID : String} {msg : Message} {how : Handled} (h : Inv c)
    (hs : HandleGatewayMessage env c ctx pick gatewayID msg = some (c1, how)) : Inv c1 := by
  unfold HandleGatewayMessage at hs
  simp only at hs
  split at hs
  · cases hs; exact inv_rateLimiter _ h
  · split at hs
    · split at hs
      · cases hs; exact inv_rateLimiter _ h
      · split at hs
        · cases hs; exact inv_rateLimiter _ h
        · next ch hget =>
          have hmem : (msg.Body.MessageId, ch) ∈ c.responseChs := mem_of_mapGet hget
          split at hs
          · next chans hsend =>
            split at hs
            · cases hs
              obtain ⟨x, hx, -, rfl⟩ := chanSend_some hsend
              have hx1 : x = ⟨1, []⟩ := by
                have := h.empty _ _ hmem
                rw [hx] at this
                exact Option.some.inj this
              subst hx1
              refine ⟨?_, ?_, nodup_keys_mapDelete _ h.keys, ?_⟩
              · intro k ch1 hm
                obtain ⟨hm1, hk⟩ := mem_mapDelete.mp hm
                have hne : ch ≠ ch1 := by
                  rintro rfl
                  exact hk (h.inj _ _ _ hm1 hmem)
                show (c.chans.set ch _)[ch1]? = _
                rw [List.getElem?_set_ne hne]
                exact h.empty k ch1 hm1
              · intro k1 k2 ch1 hm1 hm2
                exact h.inj k1 k2 ch1 (mem_mapDelete.mp hm1).1 (mem_mapDelete.mp hm2).1
              · intro y hy
                have hy1 : y ∈ c.chans.set ch _ := hy
                rcases List.mem_or_eq_of_mem_set hy1 with h1 | h1
                · exact h.caps y h1
                · subst h1
                  simp
            · cases hs; exact inv_rateLimiter _ h
          · split at hs
            · cases hs; exact inv_rateLimiter _ h
            · cases hs
    · cases hs; exact inv_rateLimiter _ h

theorem reachable_inv {env : Env K L} {c : OutgoingConnectorHandler L}
    (h : Reachable env c) : Inv c := by
  induction h with
  | init h0 => exact inv_init h0
  | register messageID _ ih => exact inv_register messageID ih
  | send gatewayID body _ ih => exact inv_send env gatewayID body ih
  | await _ hs ih => exact inv_await ih hs
  | gateway _ hs ih => exact inv_gateway ih hs

/-! ## The effect of `HandleGatewayMessage` -/

/-- An accepted message whose id is registered with an empty capacity-1 channel
is delivered when the `select` takes the send. -/
theorem gateway_delivers (env : Env K L) (c : OutgoingConnectorHandler L) {msg : Message}
    {ch : Nat} (ctx : Context) (pick : Bool) (gatewayID : String)
    (hacc : Accepted env c msg)
    (hk : mapGet c.responseChs msg.Body.MessageId = some ch)
    (hch : c.chans[ch]? = some ⟨1, []⟩) (hctx : ctx.Done = false ∨ pick = true) :
    HandleGatewayMessage env c ctx pick gatewayID msg =
      some ({ c with
              rateLimiter := (env.Allow c.rateLimiter msg.Body.Sender).2,
              chans := c.chans.set ch ⟨1, [msg]⟩,
              responseChs := mapDelete c.responseChs msg.Body.MessageId }, .delivered) := by
  obtain ⟨ha, hm, hp⟩ := hacc
  have hsend : chanSend c.chans ch msg = some (c.chans.set ch ⟨1, [msg]⟩) := by
    simp [chanSend, hch]
  have hsel : (!ctx.Done || pick) = true := by
    rcases hctx with h | h <;> simp [h]
  unfold validMethod at hm
  unfold HandleGatewayMessage
  simp only [ha, hm, hp, hk, hsend, hsel, Bool.not_true, Bool.false_eq_true, if_false, if_true]

/-- A message whose id is not registered changes nothing but the rate limiter. -/
theorem gateway_unregistered (env : Env K L) (c : OutgoingConnectorHandler L) {msg : Message}
    (ctx : Context) (pick : Bool) (gatewayID : String)
    (hk : mapGet c.responseChs msg.Body.MessageId = none) :
    ∃ how, how ≠ Handled.delivered ∧ how ≠ Handled.ctxDone ∧
      HandleGatewayMessage env c ctx pick gatewayID msg =
        some ({ c with rateLimiter := (env.Allow c.rateLimiter msg.Body.Sender).2 }, how) := by
  unfold HandleGatewayMessage
  simp only [hk]
  split
  · exact ⟨_, by simp, by simp, rfl⟩
  · split
    · split
      · exact ⟨_, by simp, by simp, rfl⟩
      · exact ⟨_, by simp, by simp, rfl⟩
    · exact ⟨_, by simp, by simp, rfl⟩

/-- Whatever `HandleGatewayMessage` does, it either delivers its message into
the channel registered under the message's id and removes that entry, or it
changes nothing but the rate limiter. -/
theorem gateway_effect {env : Env K L} {c c1 : OutgoingConnectorHandler L} {ctx : Context}
    {pick : Bool} {gatewayID : String} {msg : Message} {how : Handled}
    (hs : HandleGatewayMessage env c ctx pick gatewayID msg = some (c1, how)) :
    (how = .delivered ∧ ∃ ch chans, mapGet c.responseChs msg.Body.MessageId = some ch ∧
        chanSend c.chans ch msg = some chans ∧
        c1 = { c with
               rateLimiter := (env.Allow c.rateLimiter msg.Body.Sender).2,
               chans := chans,
               responseChs := mapDelete c.responseChs msg.Body.MessageId }) ∨
    (how ≠ .delivered ∧
        c1 = { c with rateLimiter := (env.Allow c.rateLimiter msg.Body.Sender).2 }) := by
  unfold HandleGatewayMessage at hs
  simp only at hs
  split at hs
  · cases hs; exact Or.inr ⟨by simp, rfl⟩
  · split at hs
    · split at hs
      · cases hs; exact Or.inr ⟨by simp, rfl⟩
      · split at hs
        · cases hs; exact Or.inr ⟨by simp, rfl⟩
        · next ch hget =>
          split at hs
          · next chans hsend =>
            split at hs
            · cases hs; exact Or.inl ⟨rfl, ch, chans, hget, hsend, rfl⟩
            · cases hs; exact Or.inr ⟨by simp, rfl⟩
          · split at hs
            · cases hs; exact Or.inr ⟨by simp, rfl⟩
            · cases hs
    · cases hs; exact Or.inr ⟨by simp, rfl⟩

/-- Receiving from a channel that holds exactly `msg`. -/
theorem await_receives {c : OutgoingConnectorHandler L} {ch : Nat} {cap : Nat} {msg : Message}
    (ctx : Context) (pick : Bool) (hch : c.chans[ch]? = some ⟨cap, [msg]⟩)
    (hctx : ctx.Done = false ∨ pick = true) :
    awaitResponse c ch ctx pick =
      some ({ c with chans := c.chans.set ch ⟨cap, []⟩ }, .returned (some msg) none) := by
  have hr : chanRecv c.chans ch = some (msg, c.chans.set ch ⟨cap, []⟩) := by
    simp [chanRecv, hch]
  have hsel : (ctx.Done && !pick) = false := by
    rcases hctx with h | h <;> simp [h]
  simp [awaitResponse, hr, hsel]

/-- Waiting on an empty channel with a context that is done returns the
context's error and changes nothing. -/
theorem await_times_out {c : OutgoingConnectorHandler L} {ch : Nat} {cap : Nat}
    (ctx : Context) (pick : Bool) (hch : c.chans[ch]? = some ⟨cap, []⟩)
    (hctx : ctx.Done = true) :
    awaitResponse c ch ctx pick = some (c, .returned none ctx.Err) := by
  have hr : chanRecv c.chans ch = none := by
    simp [chanRecv, hch]
  simp [awaitResponse, hr, hctx]

/-- Steps of other goroutines between a call's registration and its send: a
registered id keeps its entry and its empty capacity-1 channel under the
registration of any other id, under any send, under any receive, and under any
`HandleGatewayMessage` whose message carries another id. -/
theorem registered_entry_stable (env : Env K L) {c : OutgoingConnectorHandler L}
    {id : String} {ch : Nat} (hinv : Inv c) (hk : mapGet c.responseChs id = some ch) :
    (∀ id1, id1 ≠ id →
      mapGet (register c id1).1.responseChs id = some ch ∧
      (register c id1).1.chans[ch]? = some ⟨1, []⟩) ∧
    (∀ g body,
      mapGet (SignAndSendToGateway env c g body).1.responseChs id = some ch ∧
      (SignAndSendToGateway env c g body).1.chans[ch]? = some ⟨1, []⟩) ∧
    (∀ ch1 ctx pick c1 status, awaitResponse c ch1 ctx pick = some (c1, status) →
      mapGet c1.responseChs id = some ch ∧ c1.chans[ch]? = some ⟨1, []⟩) ∧
    (∀ ctx pick g msg c1 how, msg.Body.MessageId ≠ id →
      HandleGatewayMessage env c ctx pick g msg = some (c1, how) →
      mapGet c1.responseChs id = some ch ∧ c1.chans[ch]? = some ⟨1, []⟩) := by
  have hmem := mem_of_mapGet hk
  have hch := hinv.empty _ _ hmem
  have hlt : ch < c.chans.length := by
    by_contra hge
    rw [List.getElem?_eq_none (Nat.le_of_not_lt hge)] at hch
    cases hch
  refine ⟨?_, fun _ _ => ⟨hk, hch⟩, ?_, ?_⟩
  · intro id1 hne
    refine ⟨?_, ?_⟩
    · rw [← hk]
      exact mapGet_mapSet_ne _ _ (Ne.symm hne)
    · show (c.chans ++ [⟨1, []⟩])[ch]? = _
      rw [List.getElem?_append_left hlt]
      exact hch
  · intro ch1 ctx pick c1 status hs
    unfold awaitResponse at hs
    split at hs
    · next resp chans hr =>
      split at hs
      · cases hs; exact ⟨hk, hch⟩
      · cases hs
        obtain ⟨cap, rest, hget, rfl⟩ := chanRecv_some hr
        have hne : ch1 ≠ ch := by
          rintro rfl
          rw [hget] at hch
          cases hch
        refine ⟨hk, ?_⟩
        show (c.chans.set ch1 _)[ch]? = _
        rw [List.getElem?_set_ne hne]
        exact hch
    · split at hs
      · cases hs; exact ⟨hk, hch⟩
      · cases hs
  · intro ctx pick g msg c1 how hne hs
    rcases gateway_effect hs with ⟨-, ch1, chans, hget, hsend, rfl⟩ | ⟨-, rfl⟩
    · obtain ⟨x, -, -, rfl⟩ := chanSend_some hsend
      have hne1 : ch1 ≠ ch := by
        rintro rfl
        exact hne (hinv.inj _ _ _ (mem_of_mapGet hget) hmem)
      refine ⟨?_, ?_⟩
      · rw [← hk]
        exact mapGet_mapDelete_ne _ (Ne.symm hne)
      · show (c.chans.set ch1 _)[ch]? = _
        rw [List.getElem?_set_ne hne1]
        exact hch
    · exact ⟨hk, hch⟩

theorem sampleHandler_reachable : Reachable sampleEnv sampleHandler :=
  @Reachable.init _ _ sampleEnv 2 "web_api_target" sampleHandler rfl

/-! ## Resolution of a pending request -/

/-- C1: in every reachable handler state in which `id` is a key of
`responseChs` (mapped to channel `ch`), an accepted inbound message `msg`
carrying `id`, handled with a context that is not cancelled, is delivered:
`HandleGatewayMessage` returns, `ch` then holds exactly `msg`, and `id` is
removed from `responseChs`. The `HandleSingleNodeRequest` call parked on `ch`
then returns `msg` with a nil error (whenever its `select` takes the channel,
in particular whenever its own context is not done). -/
theorem gateway_message_resolves_waiting_call (env : Env K L)
    (c : OutgoingConnectorHandler L) (id : String) (ch : Nat) (msg : Message)
    (pick : Bool) (gatewayID : String)
    (hr : Reachable env c) (hk : mapGet c.responseChs id = some ch)
    (hid : msg.Body.MessageId = id) (hacc : Accepted env c msg) :
    ∃ c1, HandleGatewayMessage env c .live pick gatewayID msg = some (c1, .delivered) ∧
      slot c1 ch = [msg] ∧
      c1.responseChs = mapDelete c.responseChs id ∧
      mapGet c1.responseChs id = none ∧
      ∀ (wctx : Context) (wpick : Bool), wctx.Done = false ∨ wpick = true →
        ∃ c2, awaitResponse c1 ch wctx wpick = some (c2, .returned (some msg) none) := by
  subst hid
  have hinv := reachable_inv hr
  have hch := hinv.empty _ _ (mem_of_mapGet hk)
  have hlt : ch < c.chans.length := by
    by_contra hge
    rw [List.getElem?_eq_none (Nat.le_of_not_lt hge)] at hch
    cases hch
  have hget : (c.chans.set ch ⟨1, [msg]⟩)[ch]? = some ⟨1, [msg]⟩ :=
    List.getElem?_set_self hlt
  refine ⟨_, gateway_delivers env c .live pick gatewayID hacc hk hch (Or.inl rfl), ?_, rfl,
    mapGet_mapDelete_self _ _, ?_⟩
  · simp [slot, hget]
  · intro wctx wpick hw
    exact ⟨_, await_receives wctx wpick hget hw⟩

theorem gateway_message_resolves_waiting_call_witness :
    ∃ c1, HandleGatewayMessage sampleEnv (register sampleHandler "x").1 .live false "a"
        (sampleMsg "x" "s" [7]) = some (c1, .delivered) ∧
      slot c1 0 = [sampleMsg "x" "s" [7]] ∧
      c1.responseChs = mapDelete (register sampleHandler "x").1.responseChs "x" ∧
      mapGet c1.responseChs "x" = none ∧
      ∀ (wctx : Context) (wpick : Bool), wctx.Done = false ∨ wpick = true →
        ∃ c2, awaitResponse c1 0 wctx wpick =
          some (c2, .returned (some (sampleMsg "x" "s" [7])) none) :=
  gateway_message_resolves_waiting_call sampleEnv (register sampleHandler "x").1 "x" 0
    (sampleMsg "x" "s" [7]) false "a"
    (Reachable.register "x" sampleHandler_reachable) (by decide) rfl
    ⟨by decide, by decide, by decide⟩

/-- C6: in every handler state, an inbound message whose `Body.MessageId` is
not a key of `responseChs` makes `HandleGatewayMessage` return (it does not
block, whatever the context and the scheduler do) without delivering:
`responseChs`, every channel and the send log are unchanged. -/
theorem gateway_message_unknown_id_is_dropped (env : Env K L)
    (c : OutgoingConnectorHandler L) (ctx : Context) (pick : Bool) (gatewayID : String)
    (msg : Message) (hk : mapGet c.responseChs msg.Body.MessageId = none) :
    ∃ c1 how, HandleGatewayMessage env c ctx pick gatewayID msg = some (c1, how) ∧
      how ≠ .delivered ∧ c1.responseChs = c.responseChs ∧ c1.chans = c.chans ∧
      c1.sent = c.sent ∧ c1.method = c.method := by
  obtain ⟨how, h1, -, h2⟩ := gateway_unregistered env c ctx pick gatewayID hk
  exact ⟨_, how, h2, h1, rfl, rfl, rfl, rfl⟩

theorem gateway_message_unknown_id_is_dropped_witness :
    ∃ c1 how, HandleGatewayMessage sampleEnv (register sampleHandler "x").1 .live false "a"
        (sampleMsg "y" "s" [7]) = some (c1, how) ∧
      how ≠ .delivered ∧ c1.responseChs = (register sampleHandler "x").1.responseChs ∧
      c1.chans = (register sampleHandler "x").1.chans ∧
      c1.sent = (register sampleHandler "x").1.sent ∧
      c1.method = (register sampleHandler "x").1.method :=
  gateway_message_unknown_id_is_dropped sampleEnv (register sampleHandler "x").1 .live false
    "a" (sampleMsg "y" "s" [7]) (by decide)

/-- The channel made by `register` is new on the heap, empty, of capacity 1,
and is what `responseChs` maps the id to afterwards. -/
theorem register_fresh (c : OutgoingConnectorHandler L) (messageID : String) :
    (register c messageID).2 = c.chans.length ∧
    c.chans[(register c messageID).2]? = none ∧
    (register c messageID).1.chans[(register c messageID).2]? = some ⟨1, []⟩ ∧
    mapGet (register c messageID).1.responseChs messageID = some (register c messageID).2 := by
  refine ⟨rfl, ?_, ?_, ?_⟩
  · simp [register, makeChan]
  · simp [register, makeChan]
  · exact mapGet_mapSet_self _ _ _

/-- C7: after a registration of `id`, an accepted message `m1` carrying `id`
(delivered because its `select` takes the send) followed by any second message
`m2` carrying `id` leaves the correlator map and every channel exactly as `m1`
alone left them: the channel holds `m1` only, `m2` is not delivered, and when
`m2` is itself accepted it ends in the "no response channel" branch. -/
theorem second_resolve_is_noop (env : Env K L) (c : OutgoingConnectorHandler L)
    (id : String) (m1 m2 : Message) (ctx1 ctx2 : Context) (pick1 pick2 : Bool)
    (g1 g2 : String)
    (h1 : m1.Body.MessageId = id) (h2 : m2.Body.MessageId = id)
    (hacc : Accepted env (register c id).1 m1)
    (hctx : ctx1.Done = false ∨ pick1 = true) :
    ∃ c1 c2 how,
      HandleGatewayMessage env (register c id).1 ctx1 pick1 g1 m1 = some (c1, .delivered) ∧
      HandleGatewayMessage env c1 ctx2 pick2 g2 m2 = some (c2, how) ∧
      how ≠ .delivered ∧
      c2.responseChs = c1.responseChs ∧ c2.chans = c1.chans ∧
      slot c1 (register c id).2 = [m1] ∧ slot c2 (register c id).2 = [m1] ∧
      mapGet c2.responseChs id = none ∧
      (Accepted env c1 m2 → how = .noResponseChannel) := by
  subst h1
  obtain ⟨hlen, -, hch, hk⟩ := register_fresh c m1.Body.MessageId
  have hd := gateway_delivers env _ ctx1 pick1 g1 hacc hk hch hctx
  have hlt : (register c m1.Body.MessageId).2 < (register c m1.Body.MessageId).1.chans.length := by
    simp [register, makeChan]
  have hget : ((register c m1.Body.MessageId).1.chans.set (register c m1.Body.MessageId).2
      ⟨1, [m1]⟩)[(register c m1.Body.MessageId).2]? = some ⟨1, [m1]⟩ :=
    List.getElem?_set_self hlt
  have hnone : mapGet (mapDelete (register c m1.Body.MessageId).1.responseChs
      m1.Body.MessageId) m2.Body.MessageId = none := by
    rw [h2]; exact mapGet_mapDelete_self _ _
  obtain ⟨how, hne, -, hstep⟩ := gateway_unregistered env
    { (register c m1.Body.MessageId).1 with
      rateLimiter := (env.Allow (register c m1.Body.MessageId).1.rateLimiter m1.Body.Sender).2,
      chans := (register c m1.Body.MessageId).1.chans.set (register c m1.Body.MessageId).2 ⟨1, [m1]⟩,
      responseChs := mapDelete (register c m1.Body.MessageId).1.responseChs m1.Body.MessageId }
    ctx2 pick2 g2 hnone
  refine ⟨_, _, how, hd, hstep, hne, rfl, rfl, ?_, ?_, mapGet_mapDelete_self _ _, ?_⟩
  · simp [slot, hget]
  · simp [slot, hget]
  · rintro ⟨ha, hm, hp⟩
    unfold validMethod at hm
    unfold HandleGatewayMessage at hstep
    simp only [ha, hm, hp, hnone, Bool.not_true, Bool.false_eq_true, if_false, if_true] at hstep
    have := (Prod.mk.inj (Option.some.inj hstep)).2
    exact this.symm

theorem second_resolve_is_noop_witness :
    ∃ c1 c2 how,
      HandleGatewayMessage sampleEnv (register sampleHandler "x").1 .live false "a"
        (sampleMsg "x" "s" [7]) = some (c1, .delivered) ∧
      HandleGatewayMessage sampleEnv c1 .live false "b" (sampleMsg "x" "t" [8]) =
        some (c2, how) ∧
      how ≠ .delivered ∧
      c2.responseChs = c1.responseChs ∧ c2.chans = c1.chans ∧
      slot c1 (register sampleHandler "x").2 = [sampleMsg "x" "s" [7]] ∧
      slot c2 (register sampleHandler "x").2 = [sampleMsg "x" "s" [7]] ∧
      mapGet c2.responseChs "x" = none ∧
      (Accepted sampleEnv c1 (sampleMsg "x" "t" [8]) → how = .noResponseChannel) :=
  second_resolve_is_noop sampleEnv sampleHandler "x" (sampleMsg "x" "s" [7])
    (sampleMsg "x" "t" [8]) .live .live false false "a" "b" rfl rfl
    ⟨by decide, by decide, by decide⟩ (Or.inl rfl)

/-- C8: in every handler state, an inbound message whose `Body.Sender` the
rate limiter rejects is dropped, whatever its method, payload and id:
`HandleGatewayMessage` returns in the rate-limited branch with `responseChs`,
every channel and the send log unchanged. The decision reads nothing of the
message but its declared sender: every message with that sender is rejected in
this state, while a message whose sender is allowed never ends in the
rate-limited branch, and is delivered when it is accepted and its id is
registered with an empty channel. -/
theorem rate_limited_message_resolves_nothing (env : Env K L)
    (c : OutgoingConnectorHandler L) (ctx : Context) (pick : Bool) (gatewayID : String)
    (msg : Message) (hrej : (env.Allow c.rateLimiter msg.Body.Sender).1 = false) :
    (∃ c1, HandleGatewayMessage env c ctx pick gatewayID msg = some (c1, .rateLimited) ∧
      c1.responseChs = c.responseChs ∧ c1.chans = c.chans ∧ c1.sent = c.sent) ∧
    (∀ (msg2 : Message) (ctx2 : Context) (pick2 : Bool) (g2 : String),
      msg2.Body.Sender = msg.Body.Sender →
      ∃ c1, HandleGatewayMessage env c ctx2 pick2 g2 msg2 = some (c1, .rateLimited) ∧
        c1.responseChs = c.responseChs ∧ c1.chans = c.chans) ∧
    (∀ (msg2 : Message) (ctx2 : Context) (pick2 : Bool) (g2 : String),
      (env.Allow c.rateLimiter msg2.Body.Sender).1 = true →
      (∀ c1, HandleGatewayMessage env c ctx2 pick2 g2 msg2 ≠ some (c1, .rateLimited)) ∧
      (∀ ch, Accepted env c msg2 → mapGet c.responseChs msg2.Body.MessageId = some ch →
        c.chans[ch]? = some ⟨1, []⟩ → ctx2.Done = false ∨ pick2 = true →
        ∃ c1, HandleGatewayMessage env c ctx2 pick2 g2 msg2 = some (c1, .delivered) ∧
          slot c1 ch = [msg2])) := by
  have hdrop : ∀ (m : Message) (cx : Context) (p : Bool) (g : String),
      (env.Allow c.rateLimiter m.Body.Sender).1 = false →
      HandleGatewayMessage env c cx p g m =
        some ({ c with rateLimiter := (env.Allow c.rateLimiter m.Body.Sender).2 },
          .rateLimited) := by
    intro m cx p g h
    unfold HandleGatewayMessage
    simp [h]
  refine ⟨⟨_, hdrop msg ctx pick gatewayID hrej, rfl, rfl, rfl⟩, ?_, ?_⟩
  · intro msg2 ctx2 pick2 g2 hs
    exact ⟨_, hdrop msg2 ctx2 pick2 g2 (by rw [hs]; exact hrej), rfl, rfl⟩
  · intro msg2 ctx2 pick2 g2 ha
    refine ⟨?_, ?_⟩
    · intro c1 hc
      unfold HandleGatewayMessage at hc
      simp only [ha, Bool.not_true, Bool.false_eq_true, if_false] at hc
      split at hc
      · split at hc
        · cases hc
        · split at hc
          · cases hc
          · split at hc
            · split at hc <;> cases hc
            · split at hc <;> cases hc
      · cases hc
    · intro ch hacc hk hch hctx
      have hlt : ch < c.chans.length := by
        by_contra hge
        rw [List.getElem?_eq_none (Nat.le_of_not_lt hge)] at hch
        cases hch
      have hget : (c.chans.set ch ⟨1, [msg2]⟩)[ch]? = some ⟨1, [msg2]⟩ :=
        List.getElem?_set_self hlt
      refine ⟨_, gateway_delivers env c ctx2 pick2 g2 hacc hk hch hctx, ?_⟩
      simp [slot, hget]

theorem rate_limited_message_resolves_nothing_witness :
    ∃ c1, HandleGatewayMessage sampleEnv sampleLimited .live true "a"
        (sampleMsg "x" "s" [7]) = some (c1, .rateLimited) ∧
      c1.responseChs = sampleLimited.responseChs ∧ c1.chans = sampleLimited.chans ∧
      c1.sent = sampleLimited.sent :=
  (rate_limited_message_resolves_nothing sampleEnv sampleLimited .live true "a"
    (sampleMsg "x" "s" [7]) (by decide)).1

/-- C9: in every reachable handler state with distinct ids `X` and `Y` both
registered, a `HandleGatewayMessage` that resolves `X` leaves the entry of `Y`
and the contents of its channel unchanged; the two channels are distinct, every
entry other than that of `X` and every channel other than that of `X` is
unchanged, while `X` is removed and its channel now holds the message. -/
theorem resolve_leaves_other_ids_alone (env : Env K L)
    (c c1 : OutgoingConnectorHandler L) (X Y : String) (chX chY : Nat) (msg : Message)
    (ctx : Context) (pick : Bool) (gatewayID : String)
    (hr : Reachable env c) (hXY : X ≠ Y)
    (hX : mapGet c.responseChs X = some chX) (hY : mapGet c.responseChs Y = some chY)
    (hid : msg.Body.MessageId = X)
    (hres : HandleGatewayMessage env c ctx pick gatewayID msg = some (c1, .delivered)) :
    mapGet c1.responseChs Y = some chY ∧
    c1.chans[chY]? = c.chans[chY]? ∧
    slot c1 chY = slot c chY ∧
    chX ≠ chY ∧
    (∀ k, k ≠ X → mapGet c1.responseChs k = mapGet c.responseChs k) ∧
    (∀ ch, ch ≠ chX → c1.chans[ch]? = c.chans[ch]?) ∧
    mapGet c1.responseChs X = none ∧
    slot c1 chX = [msg] := by
  subst hid
  have hinv := reachable_inv hr
  have hne : chX ≠ chY := by
    rintro rfl
    exact hXY (hinv.inj _ _ _ (mem_of_mapGet hX) (mem_of_mapGet hY))
  rcases gateway_effect hres with ⟨-, ch, chans, hget, hsend, rfl⟩ | ⟨h, -⟩
  · rw [hX] at hget
    cases hget
    obtain ⟨x, hx, -, rfl⟩ := chanSend_some hsend
    have hx1 : x = ⟨1, []⟩ := by
      have := hinv.empty _ _ (mem_of_mapGet hX)
      rw [hx] at this
      exact Option.some.inj this
    subst hx1
    have hlt : chX < c.chans.length := by
      by_contra hge
      rw [List.getElem?_eq_none (Nat.le_of_not_lt hge)] at hx
      cases hx
    have hframe : ∀ ch, ch ≠ chX →
        (c.chans.set chX ⟨1, [] ++ [msg]⟩)[ch]? = c.chans[ch]? := by
      intro ch hch
      exact List.getElem?_set_ne (Ne.symm hch)
    refine ⟨?_, hframe chY (Ne.symm hne), ?_, hne, ?_, hframe, mapGet_mapDelete_self _ _, ?_⟩
    · rw [← hY]
      exact mapGet_mapDelete_ne _ (Ne.symm hXY)
    · simp only [slot]
      rw [hframe chY (Ne.symm hne)]
    · intro k hk
      exact mapGet_mapDelete_ne _ hk
    · simp only [slot]
      rw [List.getElem?_set_self hlt]
      rfl
  · exact absurd rfl h

theorem resolve_leaves_other_ids_alone_witness :
    mapGet sampleResolvedX.responseChs "y" = some 1 ∧
    sampleResolvedX.chans[1]? = (register (register sampleHandler "x").1 "y").1.chans[1]? ∧
    slot sampleResolvedX 1 = slot (register (register sampleHandler "x").1 "y").1 1 ∧
    (0 : Nat) ≠ 1 ∧
    (∀ k, k ≠ "x" → mapGet sampleResolvedX.responseChs k =
      mapGet (register (register sampleHandler "x").1 "y").1.responseChs k) ∧
    (∀ ch, ch ≠ 0 → sampleResolvedX.chans[ch]? =
      (register (register sampleHandler "x").1 "y").1.chans[ch]?) ∧
    mapGet sampleResolvedX.responseChs "x" = none ∧
    slot sampleResolvedX 0 = [sampleMsg "x" "s" [7]] :=
  resolve_leaves_other_ids_alone sampleEnv
    (register (register sampleHandler "x").1 "y").1 sampleResolvedX
    "x" "y" 0 1 (sampleMsg "x" "s" [7]) .live false "a"
    (Reachable.register "y" (Reachable.register "x" sampleHandler_reachable))
    (by decide) (by decide) (by decide) rfl (by decide)

/-! ## The dispatch path -/

theorem sortStrings_perm {xs ys : List String} (h : xs.Perm ys) :
    sortStrings xs = sortStrings ys := by
  unfold sortStrings
  apply List.eq_of_perm_of_sorted (r := fun a b : String => a ≤ b)
  · exact ((List.perm_insertionSort _ xs).trans h).trans (List.perm_insertionSort _ ys).symm
  · exact List.sorted_insertionSort _ xs
  · exact List.sorted_insertionSort _ ys

/-- The first element of the sorted slice is a least element of the slice. -/
theorem sortStrings_first {xs : List String} (h : xs ≠ []) :
    ∃ g, (sortStrings xs)[0]? = some g ∧ g ∈ xs ∧ ∀ x ∈ xs, g ≤ x := by
  have hs : List.Sorted (fun a b : String => a ≤ b) (sortStrings xs) :=
    List.sorted_insertionSort _ xs
  have hp : (sortStrings xs).Perm xs := List.perm_insertionSort _ xs
  cases hsx : sortStrings xs with
  | nil =>
    rw [hsx] at hp
    exact absurd hp.symm.eq_nil h
  | cons g rest =>
    rw [hsx] at hs hp
    refine ⟨g, by simp, hp.subset (List.mem_cons_self _ _), ?_⟩
    intro x hx
    rcases List.mem_cons.mp (hp.symm.subset hx) with h1 | h1
    · rw [h1]
    · exact List.rel_of_sorted_cons hs x h1

/-- The result of `dispatch` once serialization has succeeded and there is a
gateway: one send, to the first gateway id in sorted order, from the state
produced by the registration. -/
theorem dispatch_sends {env : Env K L} (c : OutgoingConnectorHandler L) (messageID : String)
    (req : Request) {payload : Bytes} {g : String}
    (hm : env.Marshal (withDefaultTimeout req) = .ok payload)
    (hg : (sortStrings env.GatewayIDs)[0]? = some g) :
    dispatch env c messageID req =
      match SignAndSendToGateway env (register c messageID).1 g
          { MessageId := messageID, DonId := env.DonID, Method := c.method,
            Payload := payload, Sender := "" } with
      | (c2, some err) =>
        (c2, .returned none (some (.wrap "failed to send request to gateway" err)))
      | (c2, none) =>
        (c2, .waiting (register c messageID).2 (timeoutWithMargin (withDefaultTimeout req))) := by
  have hne : env.GatewayIDs ≠ [] := by
    intro h
    rw [h] at hg
    simp [sortStrings] at hg
  have hlen : (env.GatewayIDs.length == 0) = false := by
    cases hl : env.GatewayIDs with
    | nil => exact absurd hl hne
    | cons a l => rfl
  unfold dispatch
  simp only [hm, hlen, hg, Bool.false_eq_true, if_false]
  rfl

/-- The state `dispatch` leaves once it has sent: the state after the
registration, with the envelope added to the send log. -/
theorem dispatch_sends_state {env : Env K L} (c : OutgoingConnectorHandler L)
    (messageID : String) (req : Request) {payload : Bytes} {g : String}
    (hm : env.Marshal (withDefaultTimeout req) = .ok payload)
    (hg : (sortStrings env.GatewayIDs)[0]? = some g) :
    (dispatch env c messageID req).1 =
      (SignAndSendToGateway env (register c messageID).1 g
        { MessageId := messageID, DonId := env.DonID, Method := c.method,
          Payload := payload, Sender := "" }).1 := by
  rw [dispatch_sends c messageID req hm hg]
  cases h : env.SignAndSendToGateway g
      { MessageId := messageID, DonId := env.DonID, Method := c.method,
        Payload := payload, Sender := "" } <;>
    simp [SignAndSendToGateway, h]

/-- The result of `dispatch` when serialization succeeded and no gateway is
known. -/
theorem dispatch_no_gateway {env : Env K L} (c : OutgoingConnectorHandler L)
    (messageID : String) (req : Request) {payload : Bytes}
    (hm : env.Marshal (withDefaultTimeout req) = .ok payload) (hg : env.GatewayIDs = []) :
    dispatch env c messageID req =
      ((register c messageID).1,
        .returned none (some (.new "no gateway nodes available"))) := by
  unfold dispatch
  simp only [hm, hg, List.length_nil, beq_self_eq_true, if_true]

/-- The send log after `dispatch` is the old log, or the old log with one more
entry. -/
theorem dispatch_sent (env : Env K L) (c : OutgoingConnectorHandler L) (messageID : String)
    (req : Request) :
    (dispatch env c messageID req).1.sent = c.sent ∨
    ∃ payload g, env.Marshal (withDefaultTimeout req) = .ok payload ∧
      (sortStrings env.GatewayIDs)[0]? = some g := by
  cases hm : env.Marshal (withDefaultTimeout req) with
  | error err =>
    left
    unfold dispatch
    simp only [hm]
  | ok payload =>
    rcases hg : (sortStrings env.GatewayIDs)[0]? with _ | g
    · left
      unfold dispatch
      simp only [hm, hg]
      split <;> rfl
    · exact Or.inr ⟨payload, g, rfl, rfl⟩

theorem sample_sorted : sortStrings sampleEnv.GatewayIDs = ["a", "b", "c"] := by
  simp +decide [sortStrings, sampleEnv, List.insertionSort, List.orderedInsert]

theorem sample_dispatch :
    dispatch sampleEnv sampleHandler "x" ⟨0, [1]⟩ =
      (sampleDispatched, .waiting 0 20100000000) := by
  have hm : sampleEnv.Marshal (withDefaultTimeout ⟨0, [1]⟩) = .ok [20000, 1] := rfl
  have hg : (sortStrings sampleEnv.GatewayIDs)[0]? = some "a" := by
    rw [sample_sorted]; rfl
  rw [dispatch_sends sampleHandler "x" ⟨0, [1]⟩ hm hg]
  decide

/-- C4: whenever the request serializes and `GatewayIDs` returns a non-empty
list, `HandleSingleNodeRequest` makes its one send to a gateway id of the list
that is less than or equal to every id of the list in the lexicographic order
of strings, and it sends the same envelope to the same id for every
permutation of that list. -/
theorem request_goes_to_least_gateway (env : Env K L) (c : OutgoingConnectorHandler L)
    (messageID : String) (req : Request) (payload : Bytes)
    (hm : env.Marshal (withDefaultTimeout req) = .ok payload)
    (hne : env.GatewayIDs ≠ []) :
    ∃ g body, (dispatch env c messageID req).1.sent = c.sent ++ [(g, body)] ∧
      g ∈ env.GatewayIDs ∧ (∀ x ∈ env.GatewayIDs, g ≤ x) ∧
      ∀ ids : List String, ids.Perm env.GatewayIDs →
        (dispatch { env with GatewayIDs := ids } c messageID req).1.sent =
          c.sent ++ [(g, body)] := by
  obtain ⟨g, hg, hmem, hle⟩ := sortStrings_first hne
  have hsent : ∀ env1 : Env K L, env1.Marshal (withDefaultTimeout req) = .ok payload →
      (sortStrings env1.GatewayIDs)[0]? = some g → env1.DonID = env.DonID →
      (dispatch env1 c messageID req).1.sent =
        c.sent ++ [(g, { MessageId := messageID, DonId := env.DonID, Method := c.method,
                         Payload := payload, Sender := "" })] := by
    intro env1 h1 h2 h3
    rw [dispatch_sends_state c messageID req h1 h2, h3]
    rfl
  refine ⟨g, _, hsent env hm hg rfl, hmem, hle, ?_⟩
  intro ids hp
  refine hsent { env with GatewayIDs := ids } hm ?_ rfl
  show (sortStrings ids)[0]? = some g
  rw [sortStrings_perm hp]
  exact hg

theorem request_goes_to_least_gateway_witness :
    ∃ g body, (dispatch sampleEnv sampleHandler "x" ⟨0, [1]⟩).1.sent =
        sampleHandler.sent ++ [(g, body)] ∧
      g ∈ sampleEnv.GatewayIDs ∧ (∀ x ∈ sampleEnv.GatewayIDs, g ≤ x) ∧
      ∀ ids : List String, ids.Perm sampleEnv.GatewayIDs →
        (dispatch { sampleEnv with GatewayIDs := ids } sampleHandler "x" ⟨0, [1]⟩).1.sent =
          sampleHandler.sent ++ [(g, body)] :=
  request_goes_to_least_gateway sampleEnv sampleHandler "x" ⟨0, [1]⟩ [20000, 1] rfl
    (by decide)

/-- For the gateways `b, a, c` the request is sent to `a`. -/
theorem sample_request_goes_to_a :
    (dispatch sampleEnv sampleHandler "x" ⟨0, [1]⟩).1.sent = [("a", sampleBody)] := by
  rw [sample_dispatch]; rfl

/-- C5: when the request serializes and `GatewayIDs` returns an empty list,
`HandleSingleNodeRequest` returns a nil response and the error "no gateway
nodes available" without waiting; it makes no `SignAndSendToGateway` call, and
the state it leaves is the state after the registration of its own id:
`responseChs` maps the id to the new empty channel and nothing else changed. -/
theorem no_gateway_fails_without_send (env : Env K L) (c : OutgoingConnectorHandler L)
    (ctx : Context) (pick : Bool) (messageID : String) (req : Request) (payload : Bytes)
    (hm : env.Marshal (withDefaultTimeout req) = .ok payload)
    (hg : env.GatewayIDs = []) :
    ∃ c1, HandleSingleNodeRequest env c ctx pick messageID req =
        some (c1, .returned none (some (.new "no gateway nodes available"))) ∧
      c1.sent = c.sent ∧
      c1 = (register c messageID).1 ∧
      c1.responseChs = mapSet c.responseChs messageID c.chans.length ∧
      c1.chans = c.chans ++ [⟨1, []⟩] ∧
      c1.method = c.method ∧ c1.rateLimiter = c.rateLimiter := by
  refine ⟨(register c messageID).1, ?_, rfl, rfl, rfl, rfl, rfl, rfl⟩
  unfold HandleSingleNodeRequest
  rw [dispatch_no_gateway c messageID req hm hg]

theorem no_gateway_fails_without_send_witness :
    ∃ c1, HandleSingleNodeRequest { sampleEnv with GatewayIDs := [] } sampleHandler .live
        true "x" ⟨0, [1]⟩ =
        some (c1, .returned none (some (.new "no gateway nodes available"))) ∧
      c1.sent = sampleHandler.sent ∧
      c1 = (register sampleHandler "x").1 ∧
      c1.responseChs = mapSet sampleHandler.responseChs "x" sampleHandler.chans.length ∧
      c1.chans = sampleHandler.chans ++ [⟨1, []⟩] ∧
      c1.method = sampleHandler.method ∧ c1.rateLimiter = sampleHandler.rateLimiter :=
  no_gateway_fails_without_send { sampleEnv with GatewayIDs := [] } sampleHandler .live true
    "x" ⟨0, [1]⟩ [20000, 1] rfl rfl

/-! ## The registration precedes the send -/

/-- Run without interference, the first two steps of the call are `dispatch`. -/
theorem execution_alone (env : Env K L) (c : OutgoingConnectorHandler L) (ctx : Context)
    (pick : Bool) (messageID : String) (req : Request) :
    (∀ payload, env.Marshal (withDefaultTimeout req) = .ok payload →
      execution env ctx pick messageID req (c, .entry) [.own, .own] =
        some ((dispatch env c messageID req).1, .after (dispatch env c messageID req).2)) ∧
    (∀ err, env.Marshal (withDefaultTimeout req) = .error err →
      execution env ctx pick messageID req (c, .entry) [.own] =
        some ((dispatch env c messageID req).1, .after (dispatch env c messageID req).2)) := by
  refine ⟨?_, ?_⟩
  · intro payload hm
    simp only [execution, callStep, registerStep, hm, sendStep, dispatch]
  · intro err hm
    simp only [execution, callStep, registerStep, hm, dispatch]

theorem interfere_reachable {env : Env K L} {c c1 : OutgoingConnectorHandler L}
    {ev : Interference} (hr : Reachable env c) (h : interfere env c ev = some c1) :
    Reachable env c1 := by
  cases ev with
  | register messageID =>
    simp only [interfere, Option.some.injEq] at h
    subst h
    exact Reachable.register messageID hr
  | send gatewayID body =>
    simp only [interfere, Option.some.injEq] at h
    subst h
    exact Reachable.send gatewayID body hr
  | await ch ctx pick =>
    simp only [interfere] at h
    split at h
    · next c2 status hs =>
      cases h
      exact Reachable.await hr hs
    · cases h
  | gateway ctx pick gatewayID msg =>
    simp only [interfere] at h
    split at h
    · next c2 how hs =>
      cases h
      exact Reachable.gateway hr hs
    · cases h

/-- No step of another goroutine takes a channel off the heap. -/
theorem interfere_length {env : Env K L} {c c1 : OutgoingConnectorHandler L}
    {ev : Interference} (h : interfere env c ev = some c1) :
    c.chans.length ≤ c1.chans.length := by
  cases ev with
  | register messageID =>
    simp only [interfere, Option.some.injEq] at h
    subst h
    simp [register, makeChan]
  | send gatewayID body =>
    simp only [interfere, Option.some.injEq] at h
    subst h
    exact Nat.le_refl _
  | await ch ctx pick =>
    simp only [interfere] at h
    split at h
    · next c2 status hs =>
      cases h
      unfold awaitResponse at hs
      split at hs
      · next resp chans hrecv =>
        split at hs
        · cases hs
          exact Nat.le_refl _
        · cases hs
          obtain ⟨cap, rest, -, rfl⟩ := chanRecv_some hrecv
          simp
      · split at hs
        · cases hs
          exact Nat.le_refl _
        · cases hs
    · cases h
  | gateway ctx pick gatewayID msg =>
    simp only [interfere] at h
    split at h
    · next c2 how hs =>
      cases h
      rcases gateway_effect hs with ⟨-, ch1, chans, -, hsend, rfl⟩ | ⟨-, rfl⟩
      · obtain ⟨x, -, -, rfl⟩ := chanSend_some hsend
        simp
      · exact Nat.le_refl _
    · cases h

/-- A step of another goroutine that is not made for `id` leaves the entry of
`id` in place. -/
theorem interfere_quiet {env : Env K L} {c c1 : OutgoingConnectorHandler L}
    {ev : Interference} {id : String} {ch : Nat} (hinv : Inv c)
    (hk : mapGet c.responseChs id = some ch) (h : interfere env c ev = some c1)
    (hq : ev.carries id = false) :
    mapGet c1.responseChs id = some ch := by
  obtain ⟨h1, h2, h3, h4⟩ := registered_entry_stable env hinv hk
  cases ev with
  | register messageID =>
    simp only [interfere, Option.some.injEq] at h
    subst h
    have hne : messageID ≠ id := by simpa [Interference.carries] using hq
    exact (h1 messageID hne).1
  | send gatewayID body =>
    simp only [interfere, Option.some.injEq] at h
    subst h
    exact (h2 gatewayID body).1
  | await ch1 ctx pick =>
    simp only [interfere] at h
    split at h
    · next c2 status hs =>
      cases h
      exact (h3 _ _ _ _ _ hs).1
    · cases h
  | gateway ctx pick gatewayID msg =>
    simp only [interfere] at h
    split at h
    · next c2 how hs =>
      cases h
      have hne : msg.Body.MessageId ≠ id := by simpa [Interference.carries] using hq
      exact (h4 _ _ _ _ _ _ hne hs).1
    · cases h

theorem runOthers_reachable {env : Env K L} :
    ∀ (evs : List Interference) (c c1 : OutgoingConnectorHandler L),
      Reachable env c → runOthers env c evs = some c1 → Reachable env c1 := by
  intro evs
  induction evs with
  | nil =>
    intro c c1 hr h
    simp only [runOthers, Option.some.injEq] at h
    subst h
    exact hr
  | cons ev rest ih =>
    intro c c1 hr h
    simp only [runOthers] at h
    split at h
    · next c2 hi => exact ih c2 c1 (interfere_reachable hr hi) h
    · cases h

theorem runOthers_length {env : Env K L} :
    ∀ (evs : List Interference) (c c1 : OutgoingConnectorHandler L),
      runOthers env c evs = some c1 → c.chans.length ≤ c1.chans.length := by
  intro evs
  induction evs with
  | nil =>
    intro c c1 h
    simp only [runOthers, Option.some.injEq] at h
    subst h
    exact Nat.le_refl _
  | cons ev rest ih =>
    intro c c1 h
    simp only [runOthers] at h
    split at h
    · next c2 hi => exact Nat.le_trans (interfere_length hi) (ih c2 c1 h)
    · cases h

/-- Steps of other goroutines none of which is made for `id` leave the entry
of `id` in place. -/
theorem runOthers_quiet {env : Env K L} {id : String} {ch : Nat} :
    ∀ (evs : List Interference) (c c1 : OutgoingConnectorHandler L),
      Reachable env c → mapGet c.responseChs id = some ch →
      runOthers env c evs = some c1 → (∀ ev ∈ evs, ev.carries id = false) →
      mapGet c1.responseChs id = some ch := by
  intro evs
  induction evs with
  | nil =>
    intro c c1 _ hk h _
    simp only [runOthers, Option.some.injEq] at h
    subst h
    exact hk
  | cons ev rest ih =>
    intro c c1 hr hk h hq
    simp only [runOthers] at h
    split at h
    · next c2 hi =>
      exact ih c2 c1 (interfere_reachable hr hi)
        (interfere_quiet (reachable_inv hr) hk hi (hq ev (List.mem_cons_self _ _))) h
        (fun e he => hq e (List.mem_cons_of_mem _ he))
    · cases h

/-- Once line 99 is behind the call, it stays behind it. -/
theorem execution_after {env : Env K L} {ctx : Context} {pick : Bool} {messageID : String}
    {req : Request} :
    ∀ (evs : List Event) (c : OutgoingConnectorHandler L) (status : CallStatus)
      (s : OutgoingConnectorHandler L × CallPoint),
      execution env ctx pick messageID req (c, .after status) evs = some s →
      ∃ status1, s.2 = .after status1 := by
  intro evs
  induction evs with
  | nil =>
    intro c status s h
    simp only [execution, Option.some.injEq] at h
    subst h
    exact ⟨status, rfl⟩
  | cons ev rest ih =>
    intro c status s h
    cases ev with
    | own =>
      simp only [execution] at h
      split at h
      · next s1 hstep =>
        cases status with
        | waiting ch timeout =>
          simp only [callStep] at hstep
          split at hstep
          · next c1 status1 _ =>
            cases hstep
            exact ih c1 status1 s h
          · cases hstep
        | returned resp err => simp [callStep] at hstep
        | indexOutOfRange => simp [callStep] at hstep
      · cases h
    | other e =>
      simp only [execution] at h
      split at h
      · next c1 _ => exact ih c1 status s h
      · cases h

/-- From the point after line 80 the call is either still there, only other
goroutines having run, or line 99 is behind it. -/
theorem execution_registered {env : Env K L} {ctx : Context} {pick : Bool}
    {messageID : String} {req : Request} :
    ∀ (evs : List Event) (c : OutgoingConnectorHandler L) (ch : Nat) (payload : Bytes)
      (timeout : Int) (s : OutgoingConnectorHandler L × CallPoint),
      execution env ctx pick messageID req (c, .registered ch payload timeout) evs = some s →
      (∃ post, evs = post.map Event.other ∧ runOthers env c post = some s.1 ∧
        s.2 = .registered ch payload timeout) ∨
      (∃ status, s.2 = .after status) := by
  intro evs
  induction evs with
  | nil =>
    intro c ch payload timeout s h
    simp only [execution, Option.some.injEq] at h
    subst h
    exact Or.inl ⟨[], rfl, rfl, rfl⟩
  | cons ev rest ih =>
    intro c ch payload timeout s h
    cases ev with
    | own =>
      simp only [execution, callStep] at h
      exact Or.inr (execution_after rest _ _ s h)
    | other e =>
      simp only [execution] at h
      split at h
      · next c1 hi =>
        rcases ih c1 ch payload timeout s h with ⟨post, hev, hrun, hpc⟩ | hafter
        · refine Or.inl ⟨e :: post, ?_, ?_, hpc⟩
          · rw [hev]; rfl
          · simp only [runOthers, hi]
            exact hrun
        · exact Or.inr hafter
      · cases h

/-- From its entry the call is either still there, or it has taken its first
step after some steps of other goroutines. -/
theorem execution_entry {env : Env K L} {ctx : Context} {pick : Bool} {messageID : String}
    {req : Request} :
    ∀ (evs : List Event) (c : OutgoingConnectorHandler L)
      (s : OutgoingConnectorHandler L × CallPoint),
      execution env ctx pick messageID req (c, .entry) evs = some s →
      s.2 = .entry ∨
      ∃ pre rest cpre, evs = pre.map Event.other ++ Event.own :: rest ∧
        runOthers env c pre = some cpre ∧
        execution env ctx pick messageID req (registerStep env cpre messageID req) rest =
          some s := by
  intro evs
  induction evs with
  | nil =>
    intro c s h
    simp only [execution, Option.some.injEq] at h
    subst h
    exact Or.inl rfl
  | cons ev rest ih =>
    intro c s h
    cases ev with
    | own =>
      simp only [execution, callStep] at h
      exact Or.inr ⟨[], rest, c, rfl, rfl, h⟩
    | other e =>
      simp only [execution] at h
      split at h
      · next c1 hi =>
        rcases ih c1 s h with hentry | ⟨pre, rest1, cpre, hev, hrun, hexec⟩
        · exact Or.inl hentry
        · refine Or.inr ⟨e :: pre, rest1, cpre, ?_, ?_, hexec⟩
          · rw [hev]; rfl
          · simp only [runOthers, hi]
            exact hrun
      · cases h

/-- The step of lines 81-102 changes the send log only by sending one envelope
with the call's id to the first gateway id of the sorted list. -/
theorem sendStep_sent (env : Env K L) (c : OutgoingConnectorHandler L) (messageID : String)
    (ch : Nat) (payload : Bytes) (timeout : Int)
    (h : (sendStep env c messageID ch payload timeout).1.sent ≠ c.sent) :
    ∃ g, (sortStrings env.GatewayIDs)[0]? = some g ∧
      (sendStep env c messageID ch payload timeout).1.sent =
        c.sent ++ [(g, ⟨messageID, c.method, env.DonID, payload, ""⟩)] := by
  unfold sendStep at h ⊢
  simp only at h ⊢
  split at h
  · exact absurd rfl h
  · next hlen =>
    simp only [hlen]
    cases hg : (sortStrings env.GatewayIDs)[0]? with
    | none =>
      rw [hg] at h
      exact absurd rfl h
    | some g =>
      refine ⟨g, rfl, ?_⟩
      simp only [SignAndSendToGateway]
      cases env.SignAndSendToGateway g ⟨messageID, c.method, env.DonID, payload, ""⟩ <;> rfl

/-- C10, as the code has it: take any execution of a `HandleSingleNodeRequest`
call on a reachable handler, interleaved in any way with steps of other
goroutines, and a step of the call that sends (it extends the send log). That
step is the one of lines 81-102 and the call took exactly one step before it,
its registration (lines 61-80), which stored under its `messageID` a channel
that did not exist before, empty and of capacity 1; only other goroutines ran
between the registration and the send. The step sends exactly one envelope,
carrying `messageID`. At the moment of the send the channel is still on the
heap with capacity 1 and at most one message; and if none of the steps taken
by other goroutines since the registration was made for the same id (a
registration under it or a gateway message carrying it), `responseChs` still
maps `messageID` to that channel and the channel is still empty. Without that
condition the entry need not be there: a gateway message with the same id
handled between the registration and the send removes it. -/
theorem send_happens_after_registration (env : Env K L) (c0 : OutgoingConnectorHandler L)
    (ctx : Context) (pick : Bool) (messageID : String) (req : Request) (evs : List Event)
    (c c1 : OutgoingConnectorHandler L) (pc pc1 : CallPoint)
    (hr : Reachable env c0)
    (hexec : execution env ctx pick messageID req (c0, .entry) evs = some (c, pc))
    (hstep : callStep env c ctx pick messageID req pc = some (c1, pc1))
    (hsend : c1.sent ≠ c.sent) :
    ∃ (pre post : List Interference) (cpre : OutgoingConnectorHandler L) (payload : Bytes)
        (g : String),
      evs = pre.map Event.other ++ Event.own :: post.map Event.other ∧
      runOthers env c0 pre = some cpre ∧
      env.Marshal (withDefaultTimeout req) = .ok payload ∧
      registerStep env cpre messageID req =
        ((register cpre messageID).1,
          .registered (register cpre messageID).2 payload
            (timeoutWithMargin (withDefaultTimeout req))) ∧
      cpre.chans[(register cpre messageID).2]? = none ∧
      (register cpre messageID).1.chans[(register cpre messageID).2]? = some ⟨1, []⟩ ∧
      mapGet (register cpre messageID).1.responseChs messageID =
        some (register cpre messageID).2 ∧
      runOthers env (register cpre messageID).1 post = some c ∧
      pc = .registered (register cpre messageID).2 payload
        (timeoutWithMargin (withDefaultTimeout req)) ∧
      (sortStrings env.GatewayIDs)[0]? = some g ∧
      c1.sent = c.sent ++ [(g, ⟨messageID, c.method, env.DonID, payload, ""⟩)] ∧
      (∃ x, c.chans[(register cpre messageID).2]? = some x ∧ x.cap = 1 ∧
        x.buf.length ≤ 1) ∧
      ((∀ ev ∈ post, ev.carries messageID = false) →
        mapGet c.responseChs messageID = some (register cpre messageID).2 ∧
        c.chans[(register cpre messageID).2]? = some ⟨1, []⟩) := by
  rcases execution_entry evs c0 (c, pc) hexec with hentry | ⟨pre, rest, cpre, hev, hpre, hrest⟩
  · exfalso
    simp only at hentry
    subst hentry
    simp only [callStep, registerStep, Option.some.injEq] at hstep
    split at hstep
    · cases hstep
      exact hsend rfl
    · cases hstep
      exact hsend rfl
  · have hrpre : Reachable env cpre := runOthers_reachable pre c0 cpre hr hpre
    cases hm : env.Marshal (withDefaultTimeout req) with
    | error err =>
      exfalso
      simp only [registerStep, hm] at hrest
      obtain ⟨status1, hs1⟩ := execution_after rest _ _ _ hrest
      simp only at hs1
      subst hs1
      cases status1 with
      | waiting ch timeout =>
        simp only [callStep] at hstep
        split at hstep
        · next c2 status2 hawait =>
          cases hstep
          unfold awaitResponse at hawait
          split at hawait
          · split at hawait
            · cases hawait; exact hsend rfl
            · cases hawait; exact hsend rfl
          · split at hawait
            · cases hawait; exact hsend rfl
            · cases hawait
        · cases hstep
      | returned resp err1 => simp [callStep] at hstep
      | indexOutOfRange => simp [callStep] at hstep
    | ok payload =>
      have hreg : registerStep env cpre messageID req =
          ((register cpre messageID).1,
            .registered (register cpre messageID).2 payload
              (timeoutWithMargin (withDefaultTimeout req))) := by
        simp only [registerStep, hm]
      rw [hreg] at hrest
      rcases execution_registered rest _ _ _ _ _ hrest with ⟨post, hpost, hrun, hpc⟩ | ⟨st, hst⟩
      · simp only at hrun hpc
        subst hpc
        simp only [callStep, Option.some.injEq, Prod.mk.injEq] at hstep
        obtain ⟨hc1, -⟩ := hstep
        subst hc1
        obtain ⟨g, hg, hsent⟩ := sendStep_sent env c messageID _ payload _ hsend
        obtain ⟨hch, hfresh, hempty, hmap⟩ := register_fresh cpre messageID
        have hrreg : Reachable env (register cpre messageID).1 :=
          Reachable.register messageID hrpre
        have hrc : Reachable env c := runOthers_reachable post _ c hrreg hrun
        have hlen := runOthers_length post _ c hrun
        have hlt : (register cpre messageID).2 < c.chans.length := by
          have h1 : (register cpre messageID).2 < (register cpre messageID).1.chans.length := by
            rw [hch]
            simp [register, makeChan]
          exact Nat.lt_of_lt_of_le h1 hlen
        refine ⟨pre, post, cpre, payload, g, ?_, hpre, rfl, hreg, hfresh, hempty, hmap, hrun,
          rfl, hg, hsent, ?_, ?_⟩
        · rw [hev, hpost]
        · refine ⟨c.chans[(register cpre messageID).2], ?_, ?_⟩
          · exact List.getElem?_eq_getElem hlt
          · exact (reachable_inv hrc).caps _ (List.getElem_mem _)
        · intro hq
          have hk := runOthers_quiet post _ c hrreg hmap hrun hq
          exact ⟨hk, (reachable_inv hrc).empty _ _ (mem_of_mapGet hk)⟩
      · exfalso
        simp only at hst
        subst hst
        cases st with
        | waiting ch timeout =>
          simp only [callStep] at hstep
          split at hstep
          · next c2 status2 hawait =>
            cases hstep
            unfold awaitResponse at hawait
            split at hawait
            · split at hawait
              · cases hawait; exact hsend rfl
              · cases hawait; exact hsend rfl
            · split at hawait
              · cases hawait; exact hsend rfl
              · cases hawait
          · cases hstep
        | returned resp err1 => simp [callStep] at hstep
        | indexOutOfRange => simp [callStep] at hstep

/-- The send of the sample environment, in any handler state: one envelope to
gateway `"a"`. -/
theorem sample_sendStep (c : OutgoingConnectorHandler (Nat × List (String × Nat)))
    (messageID : String) (ch : Nat) (payload : Bytes) (timeout : Int) :
    sendStep sampleEnv c messageID ch payload timeout =
      (⟨c.method, c.responseChs, c.rateLimiter, c.chans,
        c.sent ++ [("a", ⟨messageID, c.method, "don", payload, ""⟩)]⟩,
       .waiting ch timeout) := by
  have hg : (sortStrings sampleEnv.GatewayIDs)[0]? = some "a" := by
    rw [sample_sorted]; rfl
  unfold sendStep
  simp only [hg]
  rfl

theorem send_happens_after_registration_witness :
    ∃ (pre post : List Interference)
        (cpre : OutgoingConnectorHandler (Nat × List (String × Nat))) (payload : Bytes)
        (g : String),
      [Event.other (.register "y"), Event.own,
          Event.other (.gateway .live true "a" (sampleMsg "y" "s" [7]))] =
        pre.map Event.other ++ Event.own :: post.map Event.other ∧
      runOthers sampleEnv sampleHandler pre = some cpre ∧
      sampleEnv.Marshal (withDefaultTimeout ⟨0, [1]⟩) = .ok payload ∧
      registerStep sampleEnv cpre "x" ⟨0, [1]⟩ =
        ((register cpre "x").1,
          .registered (register cpre "x").2 payload
            (timeoutWithMargin (withDefaultTimeout ⟨0, [1]⟩))) ∧
      cpre.chans[(register cpre "x").2]? = none ∧
      (register cpre "x").1.chans[(register cpre "x").2]? = some ⟨1, []⟩ ∧
      mapGet (register cpre "x").1.responseChs "x" = some (register cpre "x").2 ∧
      runOthers sampleEnv (register cpre "x").1 post =
        some ⟨"web_api_target", [("x", 1)], (2, [("s", 1)]),
          [⟨1, [sampleMsg "y" "s" [7]]⟩, ⟨1, []⟩], []⟩ ∧
      CallPoint.registered 1 [20000, 1] 20100000000 =
        .registered (register cpre "x").2 payload
          (timeoutWithMargin (withDefaultTimeout ⟨0, [1]⟩)) ∧
      (sortStrings sampleEnv.GatewayIDs)[0]? = some g ∧
      [("a", sampleBody)] = [] ++ [(g, ⟨"x", "web_api_target", sampleEnv.DonID, payload, ""⟩)] ∧
      (∃ x, [(⟨1, [sampleMsg "y" "s" [7]]⟩ : Chan), ⟨1, []⟩][(register cpre "x").2]? = some x ∧
        x.cap = 1 ∧ x.buf.length ≤ 1) ∧
      ((∀ ev ∈ post, ev.carries "x" = false) →
        mapGet [("x", 1)] "x" = some (register cpre "x").2 ∧
        [(⟨1, [sampleMsg "y" "s" [7]]⟩ : Chan), ⟨1, []⟩][(register cpre "x").2]? =
          some ⟨1, []⟩) :=
  send_happens_after_registration sampleEnv sampleHandler .live true "x" ⟨0, [1]⟩
    [.other (.register "y"), .own, .other (.gateway .live true "a" (sampleMsg "y" "s" [7]))]
    ⟨"web_api_target", [("x", 1)], (2, [("s", 1)]),
      [⟨1, [sampleMsg "y" "s" [7]]⟩, ⟨1, []⟩], []⟩
    ⟨"web_api_target", [("x", 1)], (2, [("s", 1)]),
      [⟨1, [sampleMsg "y" "s" [7]]⟩, ⟨1, []⟩], [("a", sampleBody)]⟩
    (.registered 1 [20000, 1] 20100000000) (.after (.waiting 1 20100000000))
    sampleHandler_reachable (by decide)
    (by simp only [callStep, sample_sendStep]; rfl) (by decide)

/-- C10 as stated fails in its clause "the handler never sends an envelope
whose id is not registered": in the sample environment the call for `"x"`
registers, a gateway message carrying `"x"` is handled before the call reaches
line 99 (it is delivered into the call's channel and removes the entry), and
the call then sends its envelope for `"x"` while `responseChs` has no entry
for `"x"` and its channel is not empty. -/
theorem send_finds_id_registered_counterexample :
    execution sampleEnv .live true "x" ⟨0, [1]⟩ (sampleHandler, .entry)
        [.own, .other (.gateway .live true "a" (sampleMsg "x" "s" [7]))] =
      some (sampleEarlyResponse, .registered 0 [20000, 1] 20100000000) ∧
    mapGet sampleEarlyResponse.responseChs "x" = none ∧
    slot sampleEarlyResponse 0 = [sampleMsg "x" "s" [7]] ∧
    callStep sampleEnv sampleEarlyResponse .live true "x" ⟨0, [1]⟩
        (.registered 0 [20000, 1] 20100000000) =
      some (⟨"web_api_target", [], (2, [("s", 1)]), [⟨1, [sampleMsg "x" "s" [7]]⟩],
          [("a", sampleBody)]⟩,
        .after (.waiting 0 20100000000)) ∧
    sampleBody.MessageId = "x" := by
  refine ⟨by decide, by decide, by decide, ?_, by decide⟩
  simp only [callStep, sample_sendStep]
  rfl

/-! ## Timeouts and repeated ids -/

/-- A call parked in its `select` registered its id with the channel it waits
on, and that channel is empty. -/
theorem dispatch_waiting {env : Env K L} {c c1 : OutgoingConnectorHandler L}
    {messageID : String} {req : Request} {ch : Nat} {t : Int}
    (hd : dispatch env c messageID req = (c1, .waiting ch t)) :
    ch = (register c messageID).2 ∧
    c1.responseChs = (register c messageID).1.responseChs ∧
    c1.chans = (register c messageID).1.chans := by
  cases hm : env.Marshal (withDefaultTimeout req) with
  | error err =>
    unfold dispatch at hd
    simp only [hm] at hd
    cases hd
  | ok payload =>
    rcases hg : (sortStrings env.GatewayIDs)[0]? with _ | g
    · unfold dispatch at hd
      simp only [hm, hg] at hd
      split at hd <;> cases hd
    · have hst := dispatch_sends_state c messageID req hm hg
      rw [hd] at hst
      simp only at hst
      rw [dispatch_sends c messageID req hm hg] at hd
      cases h : env.SignAndSendToGateway g ⟨messageID, c.method, env.DonID, payload, ""⟩ with
      | some err =>
        simp [SignAndSendToGateway, h] at hd
      | none =>
        simp only [SignAndSendToGateway, h, Prod.mk.injEq, CallStatus.waiting.injEq] at hd
        refine ⟨hd.2.1.symm, ?_, ?_⟩
        · rw [hst]; rfl
        · rw [hst]; rfl

/-- C2, as the code has it: when a `HandleSingleNodeRequest` call for `id` that
reached its `select` returns because its context is done while no response has
been delivered, it returns a nil response and the context's error, and `id` is
still a key of `responseChs`, mapped to the call's empty channel: the timeout
path removes nothing. A late accepted `HandleGatewayMessage` carrying `id` (with
a context that is not cancelled) then puts its message into that channel and
removes `id` from `responseChs`, without blocking; only after that are further
messages carrying `id` dropped with the map and every channel unchanged. -/
theorem timeout_leaves_entry_until_late_response (env : Env K L)
    (c c1 : OutgoingConnectorHandler L) (ctx : Context) (pick : Bool) (messageID : String)
    (req : Request) (ch : Nat) (t : Int)
    (hd : dispatch env c messageID req = (c1, .waiting ch t)) (hctx : ctx.Done = true) :
    HandleSingleNodeRequest env c ctx pick messageID req = some (c1, .returned none ctx.Err) ∧
    ctx.Err ≠ none ∧
    mapGet c1.responseChs messageID = some ch ∧
    slot c1 ch = [] ∧
    ∀ (msg : Message) (pick2 : Bool) (g : String),
      msg.Body.MessageId = messageID → Accepted env c1 msg →
      ∃ c2, HandleGatewayMessage env c1 .live pick2 g msg = some (c2, .delivered) ∧
        slot c2 ch = [msg] ∧
        c2.responseChs = mapDelete c1.responseChs messageID ∧
        c2.responseChs ≠ c1.responseChs ∧
        mapGet c2.responseChs messageID = none ∧
        ∀ (msg3 : Message) (ctx3 : Context) (pick3 : Bool) (g3 : String),
          msg3.Body.MessageId = messageID →
          ∃ c3 how, HandleGatewayMessage env c2 ctx3 pick3 g3 msg3 = some (c3, how) ∧
            how ≠ .delivered ∧ c3.responseChs = c2.responseChs ∧ c3.chans = c2.chans := by
  obtain ⟨hch, hmap, hchans⟩ := dispatch_waiting hd
  obtain ⟨-, -, h3, h4⟩ := register_fresh c messageID
  rw [← hch, ← hchans] at h3
  rw [← hch, ← hmap] at h4
  refine ⟨?_, ?_, h4, ?_, ?_⟩
  · unfold HandleSingleNodeRequest
    rw [hd]
    exact await_times_out ctx pick h3 hctx
  · cases ctx <;> simp [Context.Done, Context.Err] at hctx ⊢
  · simp [slot, h3]
  · intro msg pick2 g hid hacc
    subst hid
    have hlt : ch < c1.chans.length := by
      by_contra hge
      rw [List.getElem?_eq_none (Nat.le_of_not_lt hge)] at h3
      cases h3
    have hget : (c1.chans.set ch ⟨1, [msg]⟩)[ch]? = some ⟨1, [msg]⟩ :=
      List.getElem?_set_self hlt
    have hnone : mapGet (mapDelete c1.responseChs msg.Body.MessageId) msg.Body.MessageId =
        none := mapGet_mapDelete_self _ _
    refine ⟨_, gateway_delivers env c1 .live pick2 g hacc h4 h3 (Or.inl rfl), ?_, rfl, ?_,
      hnone, ?_⟩
    · simp [slot, hget]
    · intro heq
      have h5 : mapGet (mapDelete c1.responseChs msg.Body.MessageId) msg.Body.MessageId =
          some ch := by
        rw [show mapDelete c1.responseChs msg.Body.MessageId = c1.responseChs from heq]
        exact h4
      rw [hnone] at h5
      cases h5
    · intro msg3 ctx3 pick3 g3 hid3
      have hnone3 : mapGet (mapDelete c1.responseChs msg.Body.MessageId)
          msg3.Body.MessageId = none := by
        rw [hid3]; exact hnone
      obtain ⟨how, hne, -, hstep⟩ := gateway_unregistered env
        { c1 with
          rateLimiter := (env.Allow c1.rateLimiter msg.Body.Sender).2,
          chans := c1.chans.set ch ⟨1, [msg]⟩,
          responseChs := mapDelete c1.responseChs msg.Body.MessageId }
        ctx3 pick3 g3 hnone3
      exact ⟨_, how, hstep, hne, rfl, rfl⟩

theorem timeout_leaves_entry_until_late_response_witness :
    HandleSingleNodeRequest sampleEnv sampleHandler .deadlineExceeded false "x" ⟨0, [1]⟩ =
      some (sampleDispatched, .returned none Context.deadlineExceeded.Err) ∧
    mapGet sampleDispatched.responseChs "x" = some 0 :=
  have h := timeout_leaves_entry_until_late_response sampleEnv sampleHandler sampleDispatched
    .deadlineExceeded false "x" ⟨0, [1]⟩ 0 20100000000 sample_dispatch rfl
  ⟨h.1, h.2.2.1⟩

/-- C2 as stated fails: the sample call for `"x"` returns with the deadline
error, yet `"x"` is still a key of `responseChs`, and a late response carrying
`"x"` is delivered into its channel and changes the map. -/
theorem timeout_removes_entry_counterexample :
    HandleSingleNodeRequest sampleEnv sampleHandler .deadlineExceeded false "x" ⟨0, [1]⟩ =
      some (sampleDispatched,
        .returned none (some (.new "context deadline exceeded"))) ∧
    mapGet sampleDispatched.responseChs "x" = some 0 ∧
    HandleGatewayMessage sampleEnv sampleDispatched .live false "a" (sampleMsg "x" "s" [7]) =
      some (sampleLate, .delivered) ∧
    sampleLate.responseChs ≠ sampleDispatched.responseChs ∧
    slot sampleLate 0 = [sampleMsg "x" "s" [7]] ∧
    slot sampleDispatched 0 = [] := by
  refine ⟨?_, by decide, by decide, by decide, by decide, by decide⟩
  unfold HandleSingleNodeRequest
  rw [sample_dispatch]
  decide

/-- C3, as the code has it: in every reachable handler state in which `id` is
already a key of `responseChs` (mapped to `ch0`), the registration step of a
further `HandleSingleNodeRequest` call with the same `id` replaces the entry:
afterwards `id` is mapped to the new call's channel, which is new, empty and
different from `ch0`; no id is mapped to `ch0` any more (the channel itself
stays on the heap unchanged); the map holds exactly one entry for `id`, and
the entries of all other ids are unchanged. -/
theorem second_registration_replaces_entry (env : Env K L)
    (c : OutgoingConnectorHandler L) (id : String) (ch0 : Nat)
    (hr : Reachable env c) (hk : mapGet c.responseChs id = some ch0) :
    mapGet (register c id).1.responseChs id = some (register c id).2 ∧
    (register c id).2 ≠ ch0 ∧
    (register c id).1.chans[(register c id).2]? = some ⟨1, []⟩ ∧
    c.chans[(register c id).2]? = none ∧
    (∀ k, mapGet (register c id).1.responseChs k ≠ some ch0) ∧
    (register c id).1.chans[ch0]? = c.chans[ch0]? ∧
    ((register c id).1.responseChs.map Prod.fst).count id = 1 ∧
    (∀ k, k ≠ id → mapGet (register c id).1.responseChs k = mapGet c.responseChs k) := by
  have hinv := reachable_inv hr
  have hmem := mem_of_mapGet hk
  have hlt : ch0 < c.chans.length := by
    have := hinv.empty _ _ hmem
    by_contra hge
    rw [List.getElem?_eq_none (Nat.le_of_not_lt hge)] at this
    cases this
  obtain ⟨h1, h2, h3, h4⟩ := register_fresh c id
  have hne : (register c id).2 ≠ ch0 := by
    rw [h1]; exact Nat.ne_of_gt hlt
  refine ⟨h4, hne, h3, h2, ?_, ?_, ?_, ?_⟩
  · intro k hkk
    by_cases hkid : k = id
    · subst hkid
      rw [h4] at hkk
      exact hne (Option.some.inj hkk)
    · have h5 : mapGet (register c id).1.responseChs k = mapGet c.responseChs k :=
        mapGet_mapSet_ne _ _ hkid
      rw [h5] at hkk
      exact hkid (hinv.inj _ _ _ (mem_of_mapGet hkk) hmem)
  · show (c.chans ++ [⟨1, []⟩])[ch0]? = c.chans[ch0]?
    exact List.getElem?_append_left hlt
  · show ((mapSet c.responseChs id c.chans.length).map Prod.fst).count id = 1
    have hnot : id ∉ (mapDelete c.responseChs id).map Prod.fst := by
      intro hm
      obtain ⟨e, he, hke⟩ := List.mem_map.mp hm
      exact (mem_mapDelete.mp he).2 hke
    simp only [mapSet, List.map_cons, List.count_cons_self, List.count_eq_zero.mpr hnot]
  · intro k hkid
    exact mapGet_mapSet_ne _ _ hkid

theorem second_registration_replaces_entry_witness :
    mapGet (register (register sampleHandler "x").1 "x").1.responseChs "x" =
      some (register (register sampleHandler "x").1 "x").2 ∧
    (register (register sampleHandler "x").1 "x").2 ≠ 0 :=
  have h := second_registration_replaces_entry sampleEnv (register sampleHandler "x").1 "x" 0
    (Reachable.register "x" sampleHandler_reachable) (by decide)
  ⟨h.1, h.2.1⟩

/-- C3 as stated fails: in the sample handler `"x"` is registered with channel
`0`; after the registration step of a second call with id `"x"` the map sends
`"x"` to channel `1`, not to the previously registered channel. -/
theorem second_registration_keeps_entry_counterexample :
    mapGet (register sampleHandler "x").1.responseChs "x" = some 0 ∧
    mapGet (register (register sampleHandler "x").1 "x").1.responseChs "x" = some 1 ∧
    mapGet (register (register sampleHandler "x").1 "x").1.responseChs "x" ≠
      mapGet (register sampleHandler "x").1.responseChs "x" := by
  decide

/-! ## The timeout bound to the call's context -/

theorem wrapInt64_of_range {x : Int} (h1 : -(2 ^ 63) ≤ x) (h2 : x < 2 ^ 63) :
    wrapInt64 x = x := by
  unfold wrapInt64
  rw [Int.emod_eq_of_lt (by omega) (by omega)]
  omega

/-- The timeout carried by a call parked in its `select` is the one computed
from the request after default substitution. -/
theorem dispatch_waiting_timeout {env : Env K L} {c c1 : OutgoingConnectorHandler L}
    {messageID : String} {req : Request} {ch : Nat} {t : Int}
    (hd : dispatch env c messageID req = (c1, .waiting ch t)) :
    t = timeoutWithMargin (withDefaultTimeout req) := by
  cases hm : env.Marshal (withDefaultTimeout req) with
  | error err =>
    unfold dispatch at hd
    simp only [hm] at hd
    cases hd
  | ok payload =>
    rcases hg : (sortStrings env.GatewayIDs)[0]? with _ | g
    · unfold dispatch at hd
      simp only [hm, hg] at hd
      split at hd <;> cases hd
    · rw [dispatch_sends c messageID req hm hg] at hd
      cases h : env.SignAndSendToGateway g ⟨messageID, c.method, env.DonID, payload, ""⟩ with
      | some err =>
        simp [SignAndSendToGateway, h] at hd
      | none =>
        simp only [SignAndSendToGateway, h, Prod.mk.injEq, CallStatus.waiting.injEq] at hd
        exact hd.2.2.symm

/-- C11: for every `uint32` value of `req.TimeoutMs`, the timeout
`HandleSingleNodeRequest` binds to its context is exactly `(t + 100)`
milliseconds, where `t = 20000` when `TimeoutMs` is 0 and `t = TimeoutMs`
otherwise; the product and the sum are computed in `int64` without overflow
(each wrapped value equals the exact value), and the duration is strictly
greater than both the requested and the effective timeout. It is the timeout of
every call that reaches its `select`. -/
theorem timeout_is_request_plus_margin (env : Env K L) (c : OutgoingConnectorHandler L)
    (messageID : String) (req : Request) (h32 : req.TimeoutMs < 2 ^ 32) :
    timeoutWithMargin (withDefaultTimeout req) =
      (((if req.TimeoutMs = 0 then 20000 else req.TimeoutMs : Nat) : Int) + 100) * Millisecond ∧
    wrapInt64 (((withDefaultTimeout req).TimeoutMs : Int) * Millisecond) =
      ((withDefaultTimeout req).TimeoutMs : Int) * Millisecond ∧
    wrapInt64 (((withDefaultTimeout req).TimeoutMs : Int) * Millisecond + 100 * Millisecond) =
      ((withDefaultTimeout req).TimeoutMs : Int) * Millisecond + 100 * Millisecond ∧
    (req.TimeoutMs : Int) * Millisecond < timeoutWithMargin (withDefaultTimeout req) ∧
    ((withDefaultTimeout req).TimeoutMs : Int) * Millisecond <
      timeoutWithMargin (withDefaultTimeout req) ∧
    ∀ c1 ch t, dispatch env c messageID req = (c1, .waiting ch t) →
      t = (((if req.TimeoutMs = 0 then 20000 else req.TimeoutMs : Nat) : Int) + 100) *
        Millisecond := by
  have ht : (withDefaultTimeout req).TimeoutMs =
      (if req.TimeoutMs = 0 then 20000 else req.TimeoutMs) := by
    unfold withDefaultTimeout defaultFetchTimeoutMs
    by_cases h0 : req.TimeoutMs = 0 <;> simp [h0]
  have hb : (withDefaultTimeout req).TimeoutMs < 2 ^ 32 := by
    rw [ht]
    split
    · norm_num
    · exact h32
  have hle : req.TimeoutMs ≤ (withDefaultTimeout req).TimeoutMs := by
    rw [ht]
    split <;> omega
  have hbi : ((withDefaultTimeout req).TimeoutMs : Int) < 4294967296 := by
    have : (withDefaultTimeout req).TimeoutMs < 4294967296 := by
      simpa using hb
    exact_mod_cast this
  have hnn : (0 : Int) ≤ ((withDefaultTimeout req).TimeoutMs : Int) := Int.natCast_nonneg _
  have hlei : (req.TimeoutMs : Int) ≤ ((withDefaultTimeout req).TimeoutMs : Int) := by
    exact_mod_cast hle
  have hw1 : wrapInt64 (((withDefaultTimeout req).TimeoutMs : Int) * Millisecond) =
      ((withDefaultTimeout req).TimeoutMs : Int) * Millisecond := by
    apply wrapInt64_of_range <;> simp only [Millisecond] <;> omega
  have hw2 : wrapInt64 (100 * Millisecond) = 100 * Millisecond := by
    apply wrapInt64_of_range <;> simp only [Millisecond] <;> omega
  have hw3 : wrapInt64 (((withDefaultTimeout req).TimeoutMs : Int) * Millisecond +
      100 * Millisecond) =
      ((withDefaultTimeout req).TimeoutMs : Int) * Millisecond + 100 * Millisecond := by
    apply wrapInt64_of_range <;> simp only [Millisecond] <;> omega
  have hval : timeoutWithMargin (withDefaultTimeout req) =
      ((withDefaultTimeout req).TimeoutMs : Int) * Millisecond + 100 * Millisecond := by
    simp only [timeoutWithMargin, hw1, hw2, hw3]
  have hexact : timeoutWithMargin (withDefaultTimeout req) =
      (((if req.TimeoutMs = 0 then 20000 else req.TimeoutMs : Nat) : Int) + 100) *
        Millisecond := by
    rw [hval, ht]
    ring
  refine ⟨hexact, hw1, hw3, ?_, ?_, ?_⟩
  · rw [hval]; simp only [Millisecond]; omega
  · rw [hval]; simp only [Millisecond]; omega
  · intro c1 ch t hd
    rw [dispatch_waiting_timeout hd, hexact]

theorem timeout_is_request_plus_margin_witness :
    timeoutWithMargin (withDefaultTimeout ⟨0, [1]⟩) =
      (((if (0 : Nat) = 0 then 20000 else 0 : Nat) : Int) + 100) * Millisecond ∧
    (((0 : Nat) : Int)) * Millisecond < timeoutWithMargin (withDefaultTimeout ⟨0, [1]⟩) :=
  have h := timeout_is_request_plus_margin sampleEnv sampleHandler "x" ⟨0, [1]⟩ (by decide)
  ⟨h.1, h.2.2.2.1⟩

/-- The largest `uint32` timeout gives 4294967395 milliseconds. -/
theorem timeout_largest_request :
    timeoutWithMargin (withDefaultTimeout ⟨4294967295, []⟩) = 4294967395000000 := by
  decide

/-! ## Failures on the dispatch path -/

/-- C12: when serializing the request (after default-timeout substitution)
fails with `err`, `HandleSingleNodeRequest` returns at once a nil response and
an error wrapping `err`; the handler state is unchanged: nothing is registered
in `responseChs`, no channel is made and nothing is sent. -/
theorem marshal_failure_changes_nothing (env : Env K L) (c : OutgoingConnectorHandler L)
    (ctx : Context) (pick : Bool) (messageID : String) (req : Request) (err : GoError)
    (hm : env.Marshal (withDefaultTimeout req) = .error err) :
    HandleSingleNodeRequest env c ctx pick messageID req =
      some (c, .returned none (some (.wrap "failed to marshal fetch request" err))) ∧
    (dispatch env c messageID req).1 = c ∧
    (dispatch env c messageID req).1.responseChs = c.responseChs ∧
    (dispatch env c messageID req).1.chans = c.chans ∧
    (dispatch env c messageID req).1.sent = c.sent := by
  have hd : dispatch env c messageID req =
      (c, .returned none (some (.wrap "failed to marshal fetch request" err))) := by
    unfold dispatch
    simp only [hm]
  refine ⟨?_, ?_, ?_, ?_, ?_⟩
  · unfold HandleSingleNodeRequest
    rw [hd]
  all_goals rw [hd]

theorem marshal_failure_changes_nothing_witness :
    HandleSingleNodeRequest
        { sampleEnv with Marshal := fun _ => .error (.new "json: unsupported value") }
        sampleHandler .live true "x" ⟨0, [1]⟩ =
      some (sampleHandler, .returned none
        (some (.wrap "failed to marshal fetch request" (.new "json: unsupported value")))) :=
  (marshal_failure_changes_nothing
    { sampleEnv with Marshal := fun _ => .error (.new "json: unsupported value") }
    sampleHandler .live true "x" ⟨0, [1]⟩ (.new "json: unsupported value") rfl).1

/-- C13: when the request serializes, a gateway is chosen and
`SignAndSendToGateway` returns `err`, `HandleSingleNodeRequest` returns a nil
response and an error wrapping `err` without waiting (whatever the state of its
context and of its channel). That call is its only send: the send log grows by
exactly one entry, for the first gateway id in sorted order, however many
gateway ids are available. -/
theorem send_failure_is_terminal (env : Env K L) (c : OutgoingConnectorHandler L)
    (ctx : Context) (pick : Bool) (messageID : String) (req : Request) (payload : Bytes)
    (g : String) (err : GoError)
    (hm : env.Marshal (withDefaultTimeout req) = .ok payload)
    (hg : (sortStrings env.GatewayIDs)[0]? = some g)
    (hs : env.SignAndSendToGateway g ⟨messageID, c.method, env.DonID, payload, ""⟩ =
      some err) :
    ∃ c2, HandleSingleNodeRequest env c ctx pick messageID req =
        some (c2, .returned none (some (.wrap "failed to send request to gateway" err))) ∧
      c2.sent = c.sent ++ [(g, ⟨messageID, c.method, env.DonID, payload, ""⟩)] ∧
      c2.sent.length = c.sent.length + 1 := by
  have hd : dispatch env c messageID req =
      ({ (register c messageID).1 with
          sent := c.sent ++ [(g, ⟨messageID, c.method, env.DonID, payload, ""⟩)] },
        .returned none (some (.wrap "failed to send request to gateway" err))) := by
    rw [dispatch_sends c messageID req hm hg]
    simp only [SignAndSendToGateway, hs]
    rfl
  refine ⟨{ (register c messageID).1 with
      sent := c.sent ++ [(g, ⟨messageID, c.method, env.DonID, payload, ""⟩)] }, ?_, rfl, ?_⟩
  · unfold HandleSingleNodeRequest
    rw [hd]
  · simp

theorem send_failure_is_terminal_witness :
    ∃ c2, HandleSingleNodeRequest
        { sampleEnv with SignAndSendToGateway := fun _ _ => some (.new "connection refused") }
        sampleHandler .live true "x" ⟨0, [1]⟩ =
        some (c2, .returned none (some (.wrap "failed to send request to gateway"
          (.new "connection refused")))) ∧
      c2.sent = sampleHandler.sent ++
        [("a", ⟨"x", sampleHandler.method, "don", [20000, 1], ""⟩)] ∧
      c2.sent.length = sampleHandler.sent.length + 1 :=
  send_failure_is_terminal
    { sampleEnv with SignAndSendToGateway := fun _ _ => some (.new "connection refused") }
    sampleHandler .live true "x" ⟨0, [1]⟩ [20000, 1] "a" (.new "connection refused") rfl
    (by show (sortStrings sampleEnv.GatewayIDs)[0]? = some "a"; rw [sample_sorted]; rfl) rfl

/-! ## Messages dropped by `HandleGatewayMessage` -/

/-- C14: in every handler state, an inbound message that the rate limiter
allows and whose `Body.Method` is none of the three supported methods is
dropped in the "unsupported method" branch: `HandleGatewayMessage` returns with
`responseChs`, every channel and the send log unchanged, whatever the message's
id and payload (registered id and well-formed payload included). -/
theorem unsupported_method_is_dropped (env : Env K L) (c : OutgoingConnectorHandler L)
    (ctx : Context) (pick : Bool) (gatewayID : String) (msg : Message)
    (hallow : (env.Allow c.rateLimiter msg.Body.Sender).1 = true)
    (hmethod : msg.Body.Method ≠ env.MethodWebAPITarget ∧
      msg.Body.Method ≠ env.MethodComputeAction ∧
      msg.Body.Method ≠ env.MethodWorkflowSyncer) :
    ∃ c1, HandleGatewayMessage env c ctx pick gatewayID msg = some (c1, .unsupportedMethod) ∧
      c1.responseChs = c.responseChs ∧ c1.chans = c.chans ∧ c1.sent = c.sent ∧
      ∀ ch, slot c1 ch = slot c ch := by
  obtain ⟨h1, h2, h3⟩ := hmethod
  refine ⟨{ c with rateLimiter := (env.Allow c.rateLimiter msg.Body.Sender).2 }, ?_, rfl, rfl,
    rfl, fun _ => rfl⟩
  unfold HandleGatewayMessage
  simp [hallow, h1, h2, h3]

theorem unsupported_method_is_dropped_witness :
    ∃ c1, HandleGatewayMessage sampleEnv (register sampleHandler "x").1 .live true "a"
        ⟨⟨"x", "web_api_trigger", "don", [7], "s"⟩⟩ = some (c1, .unsupportedMethod) ∧
      c1.responseChs = (register sampleHandler "x").1.responseChs ∧
      c1.chans = (register sampleHandler "x").1.chans ∧
      c1.sent = (register sampleHandler "x").1.sent ∧
      ∀ ch, slot c1 ch = slot (register sampleHandler "x").1 ch :=
  unsupported_method_is_dropped sampleEnv (register sampleHandler "x").1 .live true "a"
    ⟨⟨"x", "web_api_trigger", "don", [7], "s"⟩⟩ (by decide) (by decide)

/-- C15: in every handler state, an inbound message with a supported method
whose payload fails to deserialize as a `Response` resolves nothing:
`HandleGatewayMessage` returns (in the "unmarshal failed" branch when the rate
limiter allows the sender, in the rate-limited branch otherwise) with
`responseChs`, every channel and the send log unchanged, whether or not the
message's id is registered. -/
theorem malformed_payload_is_dropped (env : Env K L) (c : OutgoingConnectorHandler L)
    (ctx : Context) (pick : Bool) (gatewayID : String) (msg : Message) (err : GoError)
    (hmethod : validMethod env msg.Body.Method = true)
    (hpayload : env.Unmarshal msg.Body.Payload = some err) :
    ∃ c1 how, HandleGatewayMessage env c ctx pick gatewayID msg = some (c1, how) ∧
      (how = if (env.Allow c.rateLimiter msg.Body.Sender).1 then Handled.unmarshalFailed
        else Handled.rateLimited) ∧
      c1.responseChs = c.responseChs ∧ c1.chans = c.chans ∧ c1.sent = c.sent ∧
      ∀ ch, slot c1 ch = slot c ch := by
  unfold validMethod at hmethod
  refine ⟨{ c with rateLimiter := (env.Allow c.rateLimiter msg.Body.Sender).2 },
    if (env.Allow c.rateLimiter msg.Body.Sender).1 then Handled.unmarshalFailed
      else Handled.rateLimited, ?_, rfl, rfl, rfl, rfl, fun _ => rfl⟩
  unfold HandleGatewayMessage
  cases ha : (env.Allow c.rateLimiter msg.Body.Sender).1 <;> simp [ha, hmethod, hpayload]

theorem malformed_payload_is_dropped_witness :
    ∃ c1 how, HandleGatewayMessage sampleEnv (register sampleHandler "x").1 .live true "a"
        (sampleMsg "x" "s" []) = some (c1, how) ∧
      (how = if (sampleEnv.Allow (register sampleHandler "x").1.rateLimiter
          (sampleMsg "x" "s" []).Body.Sender).1 then Handled.unmarshalFailed
        else Handled.rateLimited) ∧
      c1.responseChs = (register sampleHandler "x").1.responseChs ∧
      c1.chans = (register sampleHandler "x").1.chans ∧
      c1.sent = (register sampleHandler "x").1.sent ∧
      ∀ ch, slot c1 ch = slot (register sampleHandler "x").1 ch :=
  malformed_payload_is_dropped sampleEnv (register sampleHandler "x").1 .live true "a"
    (sampleMsg "x" "s" []) (.new "unexpected end of JSON input") (by decide) (by decide)

/-! ## Cancellation of the delivery -/

/-- The cancellation branch of `HandleGatewayMessage` is taken only with a
context that is done, after the entry was found, and changes nothing but the
rate limiter. -/
theorem gateway_ctxDone {env : Env K L} {c c1 : OutgoingConnectorHandler L} {ctx : Context}
    {pick : Bool} {gatewayID : String} {msg : Message}
    (hs : HandleGatewayMessage env c ctx pick gatewayID msg = some (c1, .ctxDone)) :
    ctx.Done = true ∧ (∃ ch, mapGet c.responseChs msg.Body.MessageId = some ch) ∧
      c1 = { c with rateLimiter := (env.Allow c.rateLimiter msg.Body.Sender).2 } := by
  unfold HandleGatewayMessage at hs
  simp only at hs
  split at hs
  · cases hs
  · split at hs
    · split at hs
      · cases hs
      · split at hs
        · cases hs
        · next ch hget =>
          split at hs
          · split at hs
            · cases hs
            · next hsel =>
              cases hs
              refine ⟨?_, ⟨ch, hget⟩, rfl⟩
              cases hd : ctx.Done
              · simp [hd] at hsel
              · rfl
          · split at hs
            · next hd =>
              cases hs
              exact ⟨hd, ⟨ch, hget⟩, rfl⟩
            · cases hs
    · cases hs

/-- In a state that satisfies the invariant `HandleGatewayMessage` is never
blocked: the channel it finds in the map has room. -/
theorem gateway_returns (env : Env K L) {c : OutgoingConnectorHandler L} (hinv : Inv c)
    (ctx : Context) (pick : Bool) (gatewayID : String) (msg : Message) :
    ∃ c1 how, HandleGatewayMessage env c ctx pick gatewayID msg = some (c1, how) := by
  unfold HandleGatewayMessage
  simp only
  split
  · exact ⟨_, _, rfl⟩
  · split
    · split
      · exact ⟨_, _, rfl⟩
      · split
        · exact ⟨_, _, rfl⟩
        · next ch hget =>
          have hch := hinv.empty _ _ (mem_of_mapGet hget)
          have hsend : chanSend c.chans ch msg = some (c.chans.set ch ⟨1, [msg]⟩) := by
            simp [chanSend, hch]
          simp only [hsend]
          split
          · exact ⟨_, _, rfl⟩
          · exact ⟨_, _, rfl⟩
    · exact ⟨_, _, rfl⟩

/-- C16, as the code has it: in every reachable handler state
`HandleGatewayMessage` returns, whatever the message, the context and the
scheduler's choice (it is never blocked in its `select`). When its `select`
takes the context's cancellation after the entry for the message's id was
found, the delivery is abandoned: the context is done, nothing is put into the
channel (it stays empty), the entry for the id stays in `responseChs`, and
`responseChs`, every channel, the send log and the method are unchanged. The
handler state is not unchanged as a whole: the rate limiter has been advanced
by the `Allow` call of line 116 for the message's sender, and that is the only
difference. That branch is taken whenever the message is accepted, its id is
registered, the context is done and the scheduler picks the cancellation. -/
theorem cancelled_delivery_is_abandoned (env : Env K L) (c : OutgoingConnectorHandler L)
    (hr : Reachable env c) :
    (∀ (ctx : Context) (pick : Bool) (gatewayID : String) (msg : Message),
      ∃ c1 how, HandleGatewayMessage env c ctx pick gatewayID msg = some (c1, how)) ∧
    (∀ (ctx : Context) (pick : Bool) (gatewayID : String) (msg : Message)
        (c1 : OutgoingConnectorHandler L),
      HandleGatewayMessage env c ctx pick gatewayID msg = some (c1, .ctxDone) →
      ctx.Done = true ∧
      (∃ ch, mapGet c.responseChs msg.Body.MessageId = some ch ∧
        mapGet c1.responseChs msg.Body.MessageId = some ch ∧
        slot c1 ch = [] ∧ slot c ch = []) ∧
      c1.responseChs = c.responseChs ∧ c1.chans = c.chans ∧ c1.sent = c.sent ∧
      c1.method = c.method ∧
      c1 = { c with rateLimiter := (env.Allow c.rateLimiter msg.Body.Sender).2 }) ∧
    (∀ (ctx : Context) (gatewayID : String) (msg : Message) (ch : Nat),
      ctx.Done = true → Accepted env c msg →
      mapGet c.responseChs msg.Body.MessageId = some ch →
      ∃ c1, HandleGatewayMessage env c ctx false gatewayID msg = some (c1, .ctxDone)) := by
  have hinv := reachable_inv hr
  refine ⟨gateway_returns env hinv, ?_, ?_⟩
  · intro ctx pick gatewayID msg c1 hs
    obtain ⟨hd, ⟨ch, hget⟩, rfl⟩ := gateway_ctxDone hs
    have hch := hinv.empty _ _ (mem_of_mapGet hget)
    refine ⟨hd, ⟨ch, hget, hget, ?_, ?_⟩, rfl, rfl, rfl, rfl, rfl⟩
    · simp [slot, hch]
    · simp [slot, hch]
  · intro ctx gatewayID msg ch hd hacc hget
    obtain ⟨ha, hm, hp⟩ := hacc
    have hch := hinv.empty _ _ (mem_of_mapGet hget)
    have hsend : chanSend c.chans ch msg = some (c.chans.set ch ⟨1, [msg]⟩) := by
      simp [chanSend, hch]
    unfold validMethod at hm
    refine ⟨{ c with rateLimiter := (env.Allow c.rateLimiter msg.Body.Sender).2 }, ?_⟩
    unfold HandleGatewayMessage
    simp [ha, hm, hp, hget, hsend, hd]

theorem cancelled_delivery_is_abandoned_witness :
    ∃ c1, HandleGatewayMessage sampleEnv (register sampleHandler "x").1 .canceled false "a"
      (sampleMsg "x" "s" [7]) = some (c1, .ctxDone) :=
  (cancelled_delivery_is_abandoned sampleEnv (register sampleHandler "x").1
    (Reachable.register "x" sampleHandler_reachable)).2.2 .canceled "a"
    (sampleMsg "x" "s" [7]) 0 rfl ⟨by decide, by decide, by decide⟩ (by decide)

/-- C16 as stated fails in its clause "handler state is unchanged": the sample
handler with request `"x"` registered abandons the delivery of a response from
sender `"s"` under a cancelled context, the entry and the empty channel stay,
yet the state after the call differs from the state before it, because the
rate limiter has counted the message. -/
theorem cancelled_delivery_changes_nothing_counterexample :
    HandleGatewayMessage sampleEnv (register sampleHandler "x").1 .canceled false "a"
        (sampleMsg "x" "s" [7]) =
      some (⟨"web_api_target", [("x", 0)], (2, [("s", 1)]), [⟨1, []⟩], []⟩, .ctxDone) ∧
    (register sampleHandler "x").1 = ⟨"web_api_target", [("x", 0)], (2, []), [⟨1, []⟩], []⟩ ∧
    mapGet (register sampleHandler "x").1.responseChs "x" = some 0 ∧
    slot (register sampleHandler "x").1 0 = [] ∧
    (⟨"web_api_target", [("x", 0)], (2, [("s", 1)]), [⟨1, []⟩], []⟩ :
        OutgoingConnectorHandler (Nat × List (String × Nat))) ≠
      (register sampleHandler "x").1 := by
  refine ⟨by decide, by decide, by decide, by decide, by decide⟩

/-! ## The outgoing envelope -/

/-- C17: whenever the request serializes and a gateway is available, the one
envelope `HandleSingleNodeRequest` sends has `MessageId` equal to the caller's
`messageID`, `DonId` equal to the connector's `DonID()`, `Method` equal to the
handler's method, and `Payload` equal to the serialization of the request in
which a zero `TimeoutMs` has been replaced by 20000 (and which is the request
itself otherwise). -/
theorem envelope_carries_request (env : Env K L) (c : OutgoingConnectorHandler L)
    (messageID : String) (req : Request) (payload : Bytes)
    (hm : env.Marshal (withDefaultTimeout req) = .ok payload)
    (hne : env.GatewayIDs ≠ []) :
    ∃ g body, (dispatch env c messageID req).1.sent = c.sent ++ [(g, body)] ∧
      body.MessageId = messageID ∧ body.DonId = env.DonID ∧ body.Method = c.method ∧
      body.Payload = payload ∧
      env.Marshal { req with TimeoutMs := if req.TimeoutMs = 0 then 20000 else req.TimeoutMs } =
        .ok body.Payload ∧
      (req.TimeoutMs = 0 → env.Marshal { req with TimeoutMs := 20000 } = .ok body.Payload) ∧
      (req.TimeoutMs ≠ 0 → env.Marshal req = .ok body.Payload) := by
  obtain ⟨g, hg, -, -⟩ := sortStrings_first hne
  have hw : withDefaultTimeout req =
      { req with TimeoutMs := if req.TimeoutMs = 0 then 20000 else req.TimeoutMs } := by
    unfold withDefaultTimeout defaultFetchTimeoutMs
    by_cases h0 : req.TimeoutMs = 0 <;> simp [h0]
  refine ⟨g, ⟨messageID, c.method, env.DonID, payload, ""⟩, ?_, rfl, rfl, rfl, rfl, ?_, ?_, ?_⟩
  · rw [dispatch_sends_state c messageID req hm hg]
    rfl
  · rw [← hw]; exact hm
  · intro h0
    rw [hw] at hm
    simpa [h0] using hm
  · intro h0
    rw [hw] at hm
    simpa [h0] using hm

theorem envelope_carries_request_witness :
    ∃ g body, (dispatch sampleEnv sampleHandler "x" ⟨0, [1]⟩).1.sent =
        sampleHandler.sent ++ [(g, body)] ∧
      body.MessageId = "x" ∧ body.DonId = sampleEnv.DonID ∧
      body.Method = sampleHandler.method ∧
      body.Payload = [20000, 1] ∧
      sampleEnv.Marshal { (⟨0, [1]⟩ : Request) with
          TimeoutMs := if (⟨0, [1]⟩ : Request).TimeoutMs = 0 then 20000
            else (⟨0, [1]⟩ : Request).TimeoutMs } = .ok body.Payload ∧
      ((⟨0, [1]⟩ : Request).TimeoutMs = 0 →
        sampleEnv.Marshal { (⟨0, [1]⟩ : Request) with TimeoutMs := 20000 } =
          .ok body.Payload) ∧
      ((⟨0, [1]⟩ : Request).TimeoutMs ≠ 0 →
        sampleEnv.Marshal (⟨0, [1]⟩ : Request) = .ok body.Payload) :=
  envelope_carries_request sampleEnv sampleHandler "x" ⟨0, [1]⟩ [20000, 1] rfl (by decide)

/-! ## Construction -/

/-- C18: `NewOutgoingConnectorHandler` returns the error of `NewRateLimiter`
and no handler when the rate-limiter configuration is rejected; it returns an
"invalid method" error and no handler when the configuration is accepted but
`validMethod` is false; otherwise it returns a handler with the given method,
the new rate limiter and an empty `responseChs` map. `validMethod` is true for
exactly the three supported methods. -/
theorem constructor_validates (env : Env K L) (config : K) (method : String) :
    (∀ err, env.NewRateLimiter config = .error err →
      NewOutgoingConnectorHandler env config method = .error err) ∧
    (∀ rl, env.NewRateLimiter config = .ok rl → validMethod env method = false →
      NewOutgoingConnectorHandler env config method =
        .error (.new ("invalid outgoing connector handler method: " ++ method))) ∧
    (∀ rl, env.NewRateLimiter config = .ok rl → validMethod env method = true →
      NewOutgoingConnectorHandler env config method =
        .ok { method := method, responseChs := [], rateLimiter := rl, chans := [],
              sent := [] }) ∧
    (validMethod env method = true ↔
      method = env.MethodWebAPITarget ∨ method = env.MethodComputeAction ∨
        method = env.MethodWorkflowSyncer) ∧
    (∀ c, NewOutgoingConnectorHandler env config method = .ok c →
      c.method = method ∧ c.responseChs = [] ∧ validMethod env method = true ∧
        env.NewRateLimiter config = .ok c.rateLimiter) := by
  refine ⟨?_, ?_, ?_, ?_, ?_⟩
  · intro err h
    simp [NewOutgoingConnectorHandler, h]
  · intro rl h hv
    simp [NewOutgoingConnectorHandler, h, hv]
  · intro rl h hv
    simp [NewOutgoingConnectorHandler, h, hv]
  · simp [validMethod, or_assoc]
  · intro c h
    unfold NewOutgoingConnectorHandler at h
    split at h
    · cases h
    · next rl hrl =>
      split at h
      · cases h
      · next hv =>
        cases h
        refine ⟨rfl, rfl, ?_, hrl⟩
        simpa using hv

/-- The sample constructor accepts a supported method, rejects another method
and rejects a zero burst. -/
theorem sample_constructor :
    NewOutgoingConnectorHandler sampleEnv 2 "web_api_target" = .ok sampleHandler ∧
    NewOutgoingConnectorHandler sampleEnv 2 "web_api_trigger" =
      .error (.new "invalid outgoing connector handler method: web_api_trigger") ∧
    NewOutgoingConnectorHandler sampleEnv 0 "web_api_target" =
      .error (.new "burst must be positive") :=
  ⟨rfl, rfl, rfl⟩

/-! ## Lifecycle -/

/-- Once the handler has left `Created`, no sequence of calls reaches
`AddHandler`. -/
theorem runCalls_added_of_not_created (answer : List String → Option GoError)
    (c : OutgoingConnectorHandler L) (calls : List LifecycleCall) :
    ∀ s : Lifecycle, s.state ≠ .created → (runCalls answer c calls s).added = s.added := by
  induction calls with
  | nil => intro s _; rfl
  | cons call rest ih =>
    intro s hs
    obtain ⟨st, added⟩ := s
    cases call <;> cases st
    · exact absurd rfl hs
    · exact ih _ (by simp [Start, StartOnce])
    · exact ih _ (by simp [Start, StartOnce])
    · exact absurd rfl hs
    · exact ih _ (by simp [Close, StopOnce])
    · exact ih _ (by simp [Close, StopOnce])

/-- The state `Stopped` is never left. -/
theorem runCalls_stopped (answer : List String → Option GoError)
    (c : OutgoingConnectorHandler L) (calls : List LifecycleCall) :
    ∀ s : Lifecycle, s.state = .stopped → (runCalls answer c calls s).state = .stopped := by
  induction calls with
  | nil => intro s hs; exact hs
  | cons call rest ih =>
    intro s hs
    obtain ⟨st, added⟩ := s
    cases hs
    cases call
    · exact ih _ rfl
    · exact ih _ rfl

/-- C19, as the code has it: over any sequence of `Start` and `Close` calls
on a new handler, `AddHandler` is invoked at most once, and then with exactly
the one-element list of the handler's method. The first `Start` registers and
moves the handler to `Started`; once the handler has left `Created` (so after
the first `Start`, and in particular for a second `Start`) no later call
registers again; a `Close` of a started handler moves it to `Stopped`, and
`Stopped` is terminal: no later call changes the state or registers. A `Close`
of a handler that was never started makes no transition: the handler stays
`Created`, and a later `Start` registers it. -/
theorem lifecycle_registers_at_most_once (answer : List String → Option GoError)
    (c : OutgoingConnectorHandler L) :
    (∀ calls : List LifecycleCall,
      (runCalls answer c calls ⟨.created, []⟩).added = [] ∨
      (runCalls answer c calls ⟨.created, []⟩).added = [[c.method]]) ∧
    (∀ (calls : List LifecycleCall) (s : Lifecycle), s.state ≠ .created →
      (runCalls answer c calls s).added = s.added) ∧
    (∀ (calls : List LifecycleCall) (s : Lifecycle), s.state = .stopped →
      (runCalls answer c calls s).state = .stopped ∧
      (runCalls answer c calls s).added = s.added) ∧
    (∀ added, (Start answer c ⟨.created, added⟩).1 = ⟨.started, added ++ [[c.method]]⟩) ∧
    (∀ added, (Start answer c ⟨.started, added⟩).1 = ⟨.started, added⟩ ∧
      (Start answer c ⟨.stopped, added⟩).1 = ⟨.stopped, added⟩ ∧
      (Close ⟨.started, added⟩).1 = ⟨.stopped, added⟩) ∧
    (∀ added, (Close ⟨.created, added⟩).1 = ⟨.created, added⟩ ∧
      (Close ⟨.stopped, added⟩).1 = ⟨.stopped, added⟩) ∧
    (∀ calls : List LifecycleCall,
      runCalls answer c (.close :: .start :: calls) ⟨.created, []⟩ =
        runCalls answer c calls ⟨.started, [[c.method]]⟩ ∧
      (runCalls answer c (.close :: .start :: calls) ⟨.created, []⟩).added =
        [[c.method]]) := by
  refine ⟨?_, runCalls_added_of_not_created answer c, ?_, fun _ => rfl,
    fun _ => ⟨rfl, rfl, rfl⟩, fun _ => ⟨rfl, rfl⟩,
    fun calls => ⟨rfl, runCalls_added_of_not_created answer c calls
      ⟨.started, [[c.method]]⟩ (by simp)⟩⟩
  · intro calls
    induction calls with
    | nil => exact Or.inl rfl
    | cons call rest ih =>
      cases call
      · right
        exact runCalls_added_of_not_created answer c rest ⟨.started, [] ++ [[c.method]]⟩
          (by simp)
      · exact ih
  · intro calls s hs
    exact ⟨runCalls_stopped answer c calls s hs,
      runCalls_added_of_not_created answer c calls s (by rw [hs]; simp)⟩

/-- C19 as stated fails in its clause "once Close has run no later Start
registers the handler": on a new handler `Close` followed by `Start` ends in
`Started` with the handler registered, the `Close` having left it `Created`. -/
theorem close_then_start_registers_counterexample :
    (Close ⟨.created, []⟩).1 = ⟨.created, []⟩ ∧
    runCalls (fun _ => none) sampleHandler [.close] ⟨.created, []⟩ = ⟨.created, []⟩ ∧
    runCalls (fun _ => none) sampleHandler [.close, .start] ⟨.created, []⟩ =
      ⟨.started, [["web_api_target"]]⟩ := by
  decide

/-- A sample sequence: start, start, close, start registers once and ends
stopped. -/
theorem sample_lifecycle :
    runCalls (fun _ => none) sampleHandler [.start, .start, .close, .start] ⟨.created, []⟩ =
      ⟨.stopped, [["web_api_target"]]⟩ := by
  decide

/-! ## The extent of the mutex -/

/-- C20, as the code has it: `HandleSingleNodeRequest` holds the mutex only for
the insertion of its entry, never across its send or its wait.
`HandleGatewayMessage` takes the mutex before the lookup and, its unlock being
deferred, still holds it during the delivery `select` and the delete: the
operations it performs under the mutex are the lookup, then the `select`, then
(when it delivered) the delete. In every reachable state the channel found in
the map has room, so that `select` under the mutex never blocks. -/
theorem mutex_is_held_across_delivery (env : Env K L) (c : OutgoingConnectorHandler L)
    (hr : Reachable env c) :
    (∀ (messageID : String) (req : Request),
      blocksUnderLock (opsHandleSingleNodeRequest env c messageID req) = false ∧
      (underLock false (opsHandleSingleNodeRequest env c messageID req) = [] ∨
       underLock false (opsHandleSingleNodeRequest env c messageID req) = [.mapWrite])) ∧
    (∀ (ctx : Context) (pick : Bool) (gatewayID : String) (msg : Message)
        (c1 : OutgoingConnectorHandler L),
      HandleGatewayMessage env c ctx pick gatewayID msg = some (c1, .delivered) →
      underLock false (opsHandleGatewayMessage env c ctx pick gatewayID msg) =
        [.mapRead, .selectDeliver, .mapDelete] ∧
      blocksUnderLock (opsHandleGatewayMessage env c ctx pick gatewayID msg) = true) ∧
    (∀ (ctx : Context) (pick : Bool) (gatewayID : String) (msg : Message)
        (c1 : OutgoingConnectorHandler L),
      HandleGatewayMessage env c ctx pick gatewayID msg = some (c1, .ctxDone) →
      underLock false (opsHandleGatewayMessage env c ctx pick gatewayID msg) =
        [.mapRead, .selectDeliver] ∧
      blocksUnderLock (opsHandleGatewayMessage env c ctx pick gatewayID msg) = true) ∧
    (∀ (ctx : Context) (pick : Bool) (gatewayID : String) (msg : Message),
      HandleGatewayMessage env c ctx pick gatewayID msg ≠ none) := by
  refine ⟨?_, ?_, ?_, ?_⟩
  · intro messageID req
    unfold opsHandleSingleNodeRequest
    split
    · exact ⟨rfl, Or.inl rfl⟩
    · split
      · exact ⟨rfl, Or.inr rfl⟩
      · split
        · exact ⟨rfl, Or.inr rfl⟩
        · split
          · exact ⟨rfl, Or.inr rfl⟩
          · exact ⟨rfl, Or.inr rfl⟩
  · intro ctx pick gatewayID msg c1 hs
    simp [opsHandleGatewayMessage, hs, underLock, blocksUnderLock, Op.blocking]
  · intro ctx pick gatewayID msg c1 hs
    simp [opsHandleGatewayMessage, hs, underLock, blocksUnderLock, Op.blocking]
  · intro ctx pick gatewayID msg hn
    obtain ⟨c1, how, hs⟩ := gateway_returns env (reachable_inv hr) ctx pick gatewayID msg
    rw [hn] at hs
    cases hs

theorem mutex_is_held_across_delivery_witness :
    underLock false (opsHandleGatewayMessage sampleEnv
        (register (register sampleHandler "x").1 "y").1 .live false "a"
        (sampleMsg "x" "s" [7])) = [.mapRead, .selectDeliver, .mapDelete] ∧
    blocksUnderLock (opsHandleGatewayMessage sampleEnv
        (register (register sampleHandler "x").1 "y").1 .live false "a"
        (sampleMsg "x" "s" [7])) = true :=
  (mutex_is_held_across_delivery sampleEnv (register (register sampleHandler "x").1 "y").1
    (Reachable.register "y" (Reachable.register "x" sampleHandler_reachable))).2.1
    .live false "a" (sampleMsg "x" "s" [7]) sampleResolvedX (by decide)

/-- C20 as stated fails: handling an accepted response to the registered
request `"x"`, `HandleGatewayMessage` locks, reads the map, runs the delivery
`select`, deletes the entry and only then unlocks; the `select` is performed
with the mutex held. -/
theorem mutex_released_before_delivery_counterexample :
    opsHandleGatewayMessage sampleEnv (register sampleHandler "x").1 .live false "a"
        (sampleMsg "x" "s" [7]) =
      [.lock, .mapRead, .selectDeliver, .mapDelete, .unlock] ∧
    blocksUnderLock (opsHandleGatewayMessage sampleEnv (register sampleHandler "x").1
        .live false "a" (sampleMsg "x" "s" [7])) = true := by
  decide

/-! ## Registered channels are empty -/

theorem slot_register (c : OutgoingConnectorHandler L) (messageID : String) (ch : Nat) :
    slot (register c messageID).1 ch = slot c ch := by
  show (match (c.chans ++ [(⟨1, []⟩ : Chan)])[ch]? with
    | some x => x.buf
    | none => []) = slot c ch
  rcases Nat.lt_trichotomy ch c.chans.length with h | h | h
  · rw [List.getElem?_append_left h]
    rfl
  · subst h
    rw [List.getElem?_concat_length]
    simp [slot]
  · have h1 : (c.chans ++ [(⟨1, []⟩ : Chan)])[ch]? = none :=
      List.getElem?_eq_none (by simp; omega)
    have h2 : c.chans[ch]? = none := List.getElem?_eq_none (by omega)
    rw [h1]
    simp [slot, h2]

theorem slot_await {c c1 : OutgoingConnectorHandler L} {ch0 : Nat} {ctx : Context}
    {pick : Bool} {status : CallStatus}
    (hs : awaitResponse c ch0 ctx pick = some (c1, status)) (ch : Nat) :
    (slot c1 ch).length ≤ (slot c ch).length := by
  unfold awaitResponse at hs
  split at hs
  · next resp chans hr =>
    split at hs
    · cases hs; exact Nat.le_refl _
    · cases hs
      obtain ⟨cap, rest, hget, rfl⟩ := chanRecv_some hr
      by_cases hch : ch0 = ch
      · subst hch
        have hlt : ch0 < c.chans.length := by
          by_contra hge
          rw [List.getElem?_eq_none (Nat.le_of_not_lt hge)] at hget
          cases hget
        simp only [slot]
        rw [List.getElem?_set_self hlt, hget]
        simp
      · simp only [slot]
        rw [List.getElem?_set_ne hch]
  · split at hs
    · cases hs; exact Nat.le_refl _
    · cases hs

/-- C26: in every handler state reachable from `NewOutgoingConnectorHandler`
by any interleaving of `HandleSingleNodeRequest` steps (registration, send,
final `select`) and `HandleGatewayMessage` steps, every channel stored in
`responseChs` is empty, with capacity 1. Hence the send into a channel found in
the map proceeds at once, and `HandleGatewayMessage` is never blocked. A
channel receives a message only in the `HandleGatewayMessage` step that also
removes its id from the map: such a step changes a channel only in its
delivering branch, and registrations, sends and receives add no message to
any channel. -/
theorem registered_slots_are_empty (env : Env K L) (c : OutgoingConnectorHandler L)
    (hr : Reachable env c) :
    (∀ k ch, mapGet c.responseChs k = some ch →
      c.chans[ch]? = some ⟨1, []⟩ ∧ slot c ch = []) ∧
    (∀ (msg : Message) (ch : Nat), mapGet c.responseChs msg.Body.MessageId = some ch →
      chanSend c.chans ch msg = some (c.chans.set ch ⟨1, [msg]⟩)) ∧
    (∀ (ctx : Context) (pick : Bool) (gatewayID : String) (msg : Message),
      ∃ c1 how, HandleGatewayMessage env c ctx pick gatewayID msg = some (c1, how)) ∧
    (∀ (ctx : Context) (pick : Bool) (gatewayID : String) (msg : Message)
        (c1 : OutgoingConnectorHandler L) (how : Handled) (ch : Nat),
      HandleGatewayMessage env c ctx pick gatewayID msg = some (c1, how) →
      slot c1 ch ≠ slot c ch →
      how = .delivered ∧ mapGet c.responseChs msg.Body.MessageId = some ch ∧
        mapGet c1.responseChs msg.Body.MessageId = none ∧ slot c1 ch = [msg]) ∧
    (∀ (messageID : String) (ch : Nat), slot (register c messageID).1 ch = slot c ch) ∧
    (∀ (gatewayID : String) (body : MessageBody) (ch : Nat),
      slot (SignAndSendToGateway env c gatewayID body).1 ch = slot c ch) ∧
    (∀ (ch0 : Nat) (ctx : Context) (pick : Bool) (c1 : OutgoingConnectorHandler L)
        (status : CallStatus) (ch : Nat),
      awaitResponse c ch0 ctx pick = some (c1, status) →
      (slot c1 ch).length ≤ (slot c ch).length) := by
  have hinv := reachable_inv hr
  refine ⟨?_, ?_, gateway_returns env hinv, ?_, slot_register c, fun _ _ _ => rfl, ?_⟩
  · intro k ch hk
    have hch := hinv.empty _ _ (mem_of_mapGet hk)
    exact ⟨hch, by simp [slot, hch]⟩
  · intro msg ch hk
    have hch := hinv.empty _ _ (mem_of_mapGet hk)
    simp [chanSend, hch]
  · intro ctx pick gatewayID msg c1 how ch hs hne
    rcases gateway_effect hs with ⟨hd, ch1, chans, hget, hsend, rfl⟩ | ⟨-, rfl⟩
    · obtain ⟨x, hx, -, rfl⟩ := chanSend_some hsend
      have hx1 : x = ⟨1, []⟩ := by
        have := hinv.empty _ _ (mem_of_mapGet hget)
        rw [hx] at this
        exact Option.some.inj this
      subst hx1
      have hlt : ch1 < c.chans.length := by
        by_contra hge
        rw [List.getElem?_eq_none (Nat.le_of_not_lt hge)] at hx
        cases hx
      by_cases hch : ch1 = ch
      · subst hch
        refine ⟨hd, hget, mapGet_mapDelete_self _ _, ?_⟩
        simp only [slot]
        rw [List.getElem?_set_self hlt]
        rfl
      · exfalso
        apply hne
        simp only [slot]
        rw [List.getElem?_set_ne hch]
    · exact absurd rfl hne
  · intro ch0 ctx pick c1 status ch hs
    exact slot_await hs ch

theorem registered_slots_are_empty_witness :
    mapGet (register (register sampleHandler "x").1 "y").1.responseChs "x" = some 0 ∧
      (register (register sampleHandler "x").1 "y").1.chans[0]? = some ⟨1, []⟩ ∧
      slot (register (register sampleHandler "x").1 "y").1 0 = [] :=
  ⟨rfl, (registered_slots_are_empty sampleEnv (register (register sampleHandler "x").1 "y").1
    (Reachable.register "y" (Reachable.register "x" sampleHandler_reachable))).1 "x" 0 rfl⟩

end Webapi

namespace Changeset

open Webapi

/-! ## Program-derived addresses -/

theorem littleEndianValue_AppendUint64 (v : Nat) (h : v < 2 ^ 64) :
    littleEndianValue (AppendUint64 [] v) = v := by
  simp only [AppendUint64, List.nil_append, littleEndianValue]
  omega

/-- C25: for every router program id and every `uint64` chain selector, the
four functions hand `FindProgramAddress` exactly two seeds and the router
program id: the ASCII bytes of `source_chain_state` (the `Source` variants) or
of `dest_chain_state` (the `Dest` variants), followed by the selector in eight
little-endian bytes. The encoding is injective on `uint64`, so distinct
selectors give distinct seed lists, and the `Evm` and `Solana` variants return
the same address. -/
theorem chain_state_pda_seeds (env : SolEnv) (ccipRouterProgramID : PublicKey)
    (selector : Nat) (h64 : selector < 2 ^ 64) :
    GetEvmSourceChainStatePDA env ccipRouterProgramID selector =
      env.FindProgramAddress
        [[115, 111, 117, 114, 99, 101, 95, 99, 104, 97, 105, 110, 95, 115, 116, 97, 116, 101],
         AppendUint64 [] selector] ccipRouterProgramID ∧
    GetEvmDestChainStatePDA env ccipRouterProgramID selector =
      env.FindProgramAddress
        [[100, 101, 115, 116, 95, 99, 104, 97, 105, 110, 95, 115, 116, 97, 116, 101],
         AppendUint64 [] selector] ccipRouterProgramID ∧
    GetSolanaSourceChainStatePDA env ccipRouterProgramID selector =
      GetEvmSourceChainStatePDA env ccipRouterProgramID selector ∧
    GetSolanaDestChainStatePDA env ccipRouterProgramID selector =
      GetEvmDestChainStatePDA env ccipRouterProgramID selector ∧
    (AppendUint64 [] selector).length = 8 ∧
    (∀ b ∈ AppendUint64 [] selector, b < 256) ∧
    littleEndianValue (AppendUint64 [] selector) = selector ∧
    (∀ other : Nat, other < 2 ^ 64 →
      AppendUint64 [] selector = AppendUint64 [] other → selector = other) ∧
    (∀ other : Nat, other < 2 ^ 64 → selector ≠ other →
      [stringBytes "source_chain_state", AppendUint64 [] selector] ≠
        [stringBytes "source_chain_state", AppendUint64 [] other] ∧
      [stringBytes "dest_chain_state", AppendUint64 [] selector] ≠
        [stringBytes "dest_chain_state", AppendUint64 [] other]) := by
  have hs : stringBytes "source_chain_state" =
      [115, 111, 117, 114, 99, 101, 95, 99, 104, 97, 105, 110, 95, 115, 116, 97, 116, 101] := by
    decide
  have hd : stringBytes "dest_chain_state" =
      [100, 101, 115, 116, 95, 99, 104, 97, 105, 110, 95, 115, 116, 97, 116, 101] := by
    decide
  have hinj : ∀ other : Nat, other < 2 ^ 64 →
      AppendUint64 [] selector = AppendUint64 [] other → selector = other := by
    intro other ho heq
    rw [← littleEndianValue_AppendUint64 selector h64,
      ← littleEndianValue_AppendUint64 other ho, heq]
  refine ⟨?_, ?_, rfl, rfl, rfl, ?_, littleEndianValue_AppendUint64 selector h64, hinj, ?_⟩
  · rw [← hs]; rfl
  · rw [← hd]; rfl
  · intro b hb
    simp only [AppendUint64, List.nil_append, List.mem_cons, List.mem_singleton,
      List.not_mem_nil, or_false] at hb
    rcases hb with h | h | h | h | h | h | h | h <;> omega
  · intro other ho hne
    refine ⟨?_, ?_⟩
    · intro heq
      simp only [List.cons.injEq, true_and, and_true] at heq
      exact hne (hinj other ho heq)
    · intro heq
      simp only [List.cons.injEq, true_and, and_true] at heq
      exact hne (hinj other ho heq)

theorem chain_state_pda_seeds_witness :
    (AppendUint64 [] 258).length = 8 ∧ littleEndianValue (AppendUint64 [] 258) = 258 :=
  have h := chain_state_pda_seeds sampleSolEnv (sampleKey 2) 258 (by decide)
  ⟨h.2.2.2.2.1, h.2.2.2.2.2.2.1⟩

/-- The selector 258 is encoded as the bytes 2, 1, 0, 0, 0, 0, 0, 0. -/
theorem sample_selector_bytes : AppendUint64 [] 258 = [2, 1, 0, 0, 0, 0, 0, 0] := by
  decide

/-! ## Remote chains -/

/-- The `Confirm` calls of the loop of `doAddRemoteChainToSolana` are a
beginning of the list of updates, one single-instruction call per update, and
all of it when no error is returned. -/
theorem addRemoteChains_confirmed (env : SolEnv) (ccipRouterID : PublicKey) (chainSel : Nat)
    (updates : List (Nat × RemoteChainConfigSolana)) :
    (∃ n, n ≤ updates.length ∧
      (addRemoteChains env ccipRouterID chainSel updates).1 =
        (updates.take n).map
          (fun u => [addChainSelectorInstruction env ccipRouterID chainSel u.1 u.2])) ∧
    ((addRemoteChains env ccipRouterID chainSel updates).2 = none →
      (addRemoteChains env ccipRouterID chainSel updates).1 =
        updates.map
          (fun u => [addChainSelectorInstruction env ccipRouterID chainSel u.1 u.2])) := by
  induction updates with
  | nil => exact ⟨⟨0, Nat.le_refl _, rfl⟩, fun _ => rfl⟩
  | cons u rest ih =>
    obtain ⟨destination, update⟩ := u
    obtain ⟨⟨n, hn, hpre⟩, hall⟩ := ih
    cases hb : env.ValidateAndBuild
        (addChainSelectorInstruction env ccipRouterID chainSel destination update) with
    | some err =>
      refine ⟨⟨0, Nat.zero_le _, ?_⟩, ?_⟩
      · simp [addRemoteChains, hb]
      · simp [addRemoteChains, hb]
    | none =>
      cases hc : env.Confirm chainSel
          [addChainSelectorInstruction env ccipRouterID chainSel destination update] with
      | some err =>
        refine ⟨⟨1, by simp, ?_⟩, ?_⟩
        · simp [addRemoteChains, hb, hc]
        · simp [addRemoteChains, hb, hc]
      | none =>
        refine ⟨⟨n + 1, by simp; omega, ?_⟩, ?_⟩
        · simp [addRemoteChains, hb, hc, hpre]
        · intro hnone
          have h2 : (addRemoteChains env ccipRouterID chainSel rest).2 = none := by
            simpa [addRemoteChains, hb, hc] using hnone
          simp [addRemoteChains, hb, hc, hall h2]

/-- Every `Confirm` call of `AddRemoteChainToSolana` carries the single
instruction built for one configured update of one configured chain. -/
theorem addRemoteChainsByChain_mem (env : SolEnv) (s : Nat → SolCCIPChainState)
    (updatesByChain : List (Nat × List (Nat × RemoteChainConfigSolana)))
    (batch : List Instruction)
    (hb : batch ∈ (addRemoteChainsByChain env s updatesByChain).1) :
    ∃ chainSel updates destination update,
      (chainSel, updates) ∈ updatesByChain ∧ (destination, update) ∈ updates ∧
      batch = [addChainSelectorInstruction env (s chainSel).Router chainSel destination
        update] := by
  induction updatesByChain with
  | nil => simp [addRemoteChainsByChain] at hb
  | cons e rest ih =>
    obtain ⟨chainSel, updates⟩ := e
    have hfirst : ∀ b ∈ (doAddRemoteChainToSolana env s chainSel updates).1,
        ∃ destination update, (destination, update) ∈ updates ∧
          b = [addChainSelectorInstruction env (s chainSel).Router chainSel destination
            update] := by
      intro b hbm
      obtain ⟨⟨n, -, hpre⟩, -⟩ :=
        addRemoteChains_confirmed env (s chainSel).Router chainSel updates
      have hbm1 : b ∈ (addRemoteChains env (s chainSel).Router chainSel updates).1 := hbm
      rw [hpre] at hbm1
      obtain ⟨u, hu, rfl⟩ := List.mem_map.mp hbm1
      exact ⟨u.1, u.2, List.mem_of_mem_take hu, rfl⟩
    unfold addRemoteChainsByChain at hb
    split at hb
    · next confirmed err heq =>
      have hc : confirmed = (doAddRemoteChainToSolana env s chainSel updates).1 := by
        rw [heq]
      rw [hc] at hb
      obtain ⟨d, u, hu, rfl⟩ := hfirst batch hb
      exact ⟨chainSel, updates, d, u, List.mem_cons_self _ _, hu, rfl⟩
    · next confirmed heq =>
      have hc : confirmed = (doAddRemoteChainToSolana env s chainSel updates).1 := by
        rw [heq]
      simp only [List.mem_append] at hb
      rcases hb with hb | hb
      · rw [hc] at hb
        obtain ⟨d, u, hu, rfl⟩ := hfirst batch hb
        exact ⟨chainSel, updates, d, u, List.mem_cons_self _ _, hu, rfl⟩
      · obtain ⟨cs1, us1, d, u, h1, h2, h3⟩ := ih hb
        exact ⟨cs1, us1, d, u, List.mem_cons_of_mem _ h1, h2, h3⟩

/-- C24: the instruction `doAddRemoteChainToSolana` builds for an update of a
remote selector is the add-chain-selector instruction for that selector, with
a source config whose `IsEnabled` is `update.EnabledAsSource` and whose
`OnRamp` is the bytes of the string `update.RemoteChainOnRampAddress`, with a
dest config whose `IsEnabled` is `update.EnabledAsDestination`, whose gas and
size limits are the update's and whose `ChainFamilySelector` is
`[40, 18, 213, 44]` whatever the update's is, and with the source and dest
state accounts given by `GetEvmSourceChainStatePDA` and
`GetEvmDestChainStatePDA` for the chain's router and the remote selector. The
updates are confirmed one instruction at a time in the order of the iteration:
the `Confirm` calls are a beginning of the list of updates, all of it when no
error is returned, and every `Confirm` call of `AddRemoteChainToSolana` carries
the instruction of one configured update. -/
theorem add_remote_chain_instruction (env : SolEnv) (s : Nat → SolCCIPChainState)
    (chainSel : Nat) (updates : List (Nat × RemoteChainConfigSolana)) :
    (∀ (destination : Nat) (update : RemoteChainConfigSolana),
      addChainSelectorInstruction env (s chainSel).Router chainSel destination update =
        .addChainSelector destination
          { OnRamp := stringBytes update.RemoteChainOnRampAddress,
            IsEnabled := update.EnabledAsSource }
          { IsEnabled := update.EnabledAsDestination,
            DefaultTxGasLimit := update.DefaultTxGasLimit,
            MaxPerMsgGasLimit := update.MaxPerMsgGasLimit,
            MaxDataBytes := update.MaxDataBytes,
            MaxNumberOfTokensPerMsg := update.MaxNumberOfTokensPerMsg,
            ChainFamilySelector := [40, 18, 213, 44] }
          (GetEvmSourceChainStatePDA env (s chainSel).Router destination)
          (GetEvmDestChainStatePDA env (s chainSel).Router destination)
          (GetRouterConfigPDA env (s chainSel).Router)
          (env.DeployerKey chainSel) env.SystemProgramID) ∧
    (∀ (destination : Nat) (update : RemoteChainConfigSolana) (family : List Nat),
      addChainSelectorInstruction env (s chainSel).Router chainSel destination
          { update with ChainFamilySelector := family } =
        addChainSelectorInstruction env (s chainSel).Router chainSel destination update) ∧
    (∃ n, n ≤ updates.length ∧
      (doAddRemoteChainToSolana env s chainSel updates).1 =
        (updates.take n).map
          (fun u => [addChainSelectorInstruction env (s chainSel).Router chainSel u.1 u.2])) ∧
    ((doAddRemoteChainToSolana env s chainSel updates).2 = none →
      (doAddRemoteChainToSolana env s chainSel updates).1 =
        updates.map
          (fun u => [addChainSelectorInstruction env (s chainSel).Router chainSel u.1 u.2])) ∧
    (∀ (validated : Option GoError)
        (updatesByChain : List (Nat × List (Nat × RemoteChainConfigSolana)))
        (batch : List Instruction),
      batch ∈ (AddRemoteChainToSolana env validated (.ok s) updatesByChain).1 →
      ∃ chain ups destination update,
        (chain, ups) ∈ updatesByChain ∧ (destination, update) ∈ ups ∧
        batch = [addChainSelectorInstruction env (s chain).Router chain destination
          update]) := by
  refine ⟨fun _ _ => rfl, fun _ _ _ => rfl,
    (addRemoteChains_confirmed env (s chainSel).Router chainSel updates).1,
    (addRemoteChains_confirmed env (s chainSel).Router chainSel updates).2, ?_⟩
  intro validated updatesByChain batch hb
  cases validated with
  | some err => simp [AddRemoteChainToSolana] at hb
  | none => exact addRemoteChainsByChain_mem env s updatesByChain batch hb

/-- The update of `TestAddRemoteChain` for remote selector 5 on chain 7. -/
theorem sample_add_remote_chain :
    doAddRemoteChainToSolana sampleSolEnv
        (fun _ => ⟨zeroKey, sampleKey 2, zeroKey, zeroKey, zeroKey⟩) 7 [(5, sampleUpdate)] =
      ([[.addChainSelector 5 ⟨[48, 120, 97, 98], true⟩ ⟨true, 1, 100, 32, 1, [40, 18, 213, 44]⟩
          (sampleKey 184) (sampleKey 215) (sampleKey 182) (sampleKey 1) zeroKey]], none) := by
  decide

/-! ## Chain state -/

theorem loadFrom_cons_unknown (env : SolEnv) (state : SolCCIPChainState)
    (e : String × TypeAndVersion) (rest : List (String × TypeAndVersion))
    (h : env.TypeAndVersionString e.2 ∉ knownTypes env) :
    loadChainStateSolanaFrom env state (e :: rest) =
      .returned (state, some (.new ("unknown contract " ++ env.TypeAndVersionString e.2))) := by
  obtain ⟨address, tv⟩ := e
  simp only [knownTypes, List.mem_cons, List.mem_singleton, List.not_mem_nil, or_false,
    not_or] at h
  obtain ⟨h1, h2, h3, h4⟩ := h
  simp [loadChainStateSolanaFrom, h1, h2, h3, h4]

theorem loadFrom_cons_known (env : SolEnv) (state : SolCCIPChainState)
    (e : String × TypeAndVersion) (rest : List (String × TypeAndVersion)) (pub : PublicKey)
    (h : env.TypeAndVersionString e.2 ∈ knownTypes env)
    (hp : env.PublicKeyFromBase58 e.1 = some pub) :
    ∃ state1, loadChainStateSolanaFrom env state (e :: rest) =
      loadChainStateSolanaFrom env state1 rest := by
  obtain ⟨address, tv⟩ := e
  simp only at hp
  rw [loadChainStateSolanaFrom]
  simp only [hp]
  split
  · exact ⟨_, rfl⟩
  · split
    · exact ⟨_, rfl⟩
    · split
      · exact ⟨_, rfl⟩
      · split
        · exact ⟨_, rfl⟩
        · next h1 h2 h3 h4 =>
          exfalso
          simp only [knownTypes, List.mem_cons, List.mem_singleton, List.not_mem_nil,
            or_false] at h
          simp only [beq_iff_eq] at h1 h2 h3 h4
          rcases h with h | h | h | h
          · exact h1 h
          · exact h2 h
          · exact h3 h
          · exact h4 h

theorem loadFrom_cons_bad (env : SolEnv) (state : SolCCIPChainState)
    (e : String × TypeAndVersion) (rest : List (String × TypeAndVersion))
    (h : env.TypeAndVersionString e.2 ∈ knownTypes env)
    (hp : env.PublicKeyFromBase58 e.1 = none) :
    loadChainStateSolanaFrom env state (e :: rest) = .panicked := by
  obtain ⟨address, tv⟩ := e
  simp only at hp
  rw [loadChainStateSolanaFrom]
  simp only [hp]
  split
  · rfl
  · split
    · rfl
    · split
      · rfl
      · split
        · rfl
        · next h1 h2 h3 h4 =>
          exfalso
          simp only [knownTypes, List.mem_cons, List.mem_singleton, List.not_mem_nil,
            or_false] at h
          simp only [beq_iff_eq] at h1 h2 h3 h4
          rcases h with h | h | h | h
          · exact h1 h
          · exact h2 h
          · exact h3 h
          · exact h4 h

theorem recordedKeyFrom_hit (env : SolEnv) (dflt : PublicKey) (e : String × TypeAndVersion)
    (rest : List (String × TypeAndVersion)) :
    recordedKeyFrom env dflt (e :: rest) (env.TypeAndVersionString e.2) =
      (env.PublicKeyFromBase58 e.1).getD zeroKey := by
  simp [recordedKeyFrom, List.find?]

theorem recordedKeyFrom_miss (env : SolEnv) (dflt : PublicKey) (e : String × TypeAndVersion)
    (rest : List (String × TypeAndVersion)) {key : String}
    (h : env.TypeAndVersionString e.2 ≠ key) :
    recordedKeyFrom env dflt (e :: rest) key = recordedKeyFrom env dflt rest key := by
  have hb : (env.TypeAndVersionString e.2 == key) = false := by simpa using h
  simp [recordedKeyFrom, List.find?, hb]

theorem recordedKeyFrom_absent (env : SolEnv) (dflt : PublicKey)
    (l : List (String × TypeAndVersion)) {key : String}
    (h : key ∉ l.map (fun e => env.TypeAndVersionString e.2)) :
    recordedKeyFrom env dflt l key = dflt := by
  have hf : l.find? (fun e => env.TypeAndVersionString e.2 == key) = none := by
    rw [List.find?_eq_none]
    intro x hx hk
    apply h
    rw [List.mem_map]
    exact ⟨x, hx, by simpa using hk⟩
  simp [recordedKeyFrom, hf]

/-- The loop of `LoadChainStateSolana` on entries of the four known types, no
type twice, all addresses valid: it returns no error, and each field holds the
key recorded for its type, or what it held before when there is none. -/
theorem loadFrom_ok (env : SolEnv) (hdist : (knownTypes env).Nodup) :
    ∀ (l : List (String × TypeAndVersion)) (state : SolCCIPChainState),
      (∀ e ∈ l, env.TypeAndVersionString e.2 ∈ knownTypes env) →
      (l.map (fun e => env.TypeAndVersionString e.2)).Nodup →
      (∀ e ∈ l, ∃ pub, env.PublicKeyFromBase58 e.1 = some pub) →
      ∃ st, loadChainStateSolanaFrom env state l = .returned (st, none) ∧
        st.LinkToken = recordedKeyFrom env state.LinkToken l
          (env.TypeAndVersionString ⟨env.LinkToken, env.Version1_0_0⟩) ∧
        st.Router = recordedKeyFrom env state.Router l
          (env.TypeAndVersionString ⟨env.Router, env.Version1_0_0⟩) ∧
        st.AddressLookupTable = recordedKeyFrom env state.AddressLookupTable l
          (env.TypeAndVersionString ⟨AddressLookupTable, env.Version1_0_0⟩) ∧
        st.Receiver = recordedKeyFrom env state.Receiver l
          (env.TypeAndVersionString ⟨Receiver, env.Version1_0_0⟩) ∧
        st.Timelock = state.Timelock := by
  simp only [knownTypes, List.nodup_cons, List.mem_cons, List.mem_singleton,
    List.not_mem_nil, or_false, not_or, List.nodup_nil, and_true, not_false_eq_true] at hdist
  obtain ⟨⟨d12, d13, d14⟩, ⟨d23, d24⟩, d34⟩ := hdist
  intro l
  induction l with
  | nil =>
    intro state _ _ _
    exact ⟨state, rfl, rfl, rfl, rfl, rfl, rfl⟩
  | cons e rest ih =>
    intro state hknown hnodup hparse
    obtain ⟨pub, hp⟩ := hparse e (List.mem_cons_self _ _)
    have hk := hknown e (List.mem_cons_self _ _)
    simp only [List.map_cons, List.nodup_cons] at hnodup
    obtain ⟨habs, hnd⟩ := hnodup
    have hrest := fun st1 => ih st1 (fun x hx => hknown x (List.mem_cons_of_mem _ hx)) hnd
      (fun x hx => hparse x (List.mem_cons_of_mem _ hx))
    have hhit : ∀ d, recordedKeyFrom env d (e :: rest) (env.TypeAndVersionString e.2) = pub := by
      intro d
      rw [recordedKeyFrom_hit, hp]
      rfl
    have habsent : ∀ d, recordedKeyFrom env d rest (env.TypeAndVersionString e.2) = d :=
      fun d => recordedKeyFrom_absent env d rest habs
    simp only [knownTypes, List.mem_cons, List.mem_singleton, List.not_mem_nil,
      or_false] at hk
    obtain ⟨address, tv⟩ := e
    simp only at hp hhit habsent hk
    rcases hk with hk | hk | hk | hk
    · obtain ⟨st, hst, f1, f2, f3, f4, f5⟩ := hrest { state with LinkToken := pub }
      refine ⟨st, ?_, ?_, ?_, ?_, ?_, f5⟩
      · rw [loadChainStateSolanaFrom]
        simp only [hk, beq_self_eq_true, if_true, hp]
        exact hst
      · rw [f1, ← hk, habsent, hhit]
      · rw [f2, recordedKeyFrom_miss env _ _ _ (by simp only; rw [hk]; exact d12)]
      · rw [f3, recordedKeyFrom_miss env _ _ _ (by simp only; rw [hk]; exact d13)]
      · rw [f4, recordedKeyFrom_miss env _ _ _ (by simp only; rw [hk]; exact d14)]
    · obtain ⟨st, hst, f1, f2, f3, f4, f5⟩ := hrest { state with Router := pub }
      refine ⟨st, ?_, ?_, ?_, ?_, ?_, f5⟩
      · rw [loadChainStateSolanaFrom]
        have h1 : (env.TypeAndVersionString tv ==
            env.TypeAndVersionString ⟨env.LinkToken, env.Version1_0_0⟩) = false := by
          rw [hk]; simpa using Ne.symm d12
        have hself := beq_iff_eq.mpr hk
        simp only [h1, hself, Bool.false_eq_true, if_false, if_true, hp]
        exact hst
      · rw [f1, recordedKeyFrom_miss env _ _ _ (by simp only; rw [hk]; exact Ne.symm d12)]
      · rw [f2, ← hk, habsent, hhit]
      · rw [f3, recordedKeyFrom_miss env _ _ _ (by simp only; rw [hk]; exact d23)]
      · rw [f4, recordedKeyFrom_miss env _ _ _ (by simp only; rw [hk]; exact d24)]
    · obtain ⟨st, hst, f1, f2, f3, f4, f5⟩ := hrest { state with AddressLookupTable := pub }
      refine ⟨st, ?_, ?_, ?_, ?_, ?_, f5⟩
      · rw [loadChainStateSolanaFrom]
        have h1 : (env.TypeAndVersionString tv ==
            env.TypeAndVersionString ⟨env.LinkToken, env.Version1_0_0⟩) = false := by
          rw [hk]; simpa using Ne.symm d13
        have h2 : (env.TypeAndVersionString tv ==
            env.TypeAndVersionString ⟨env.Router, env.Version1_0_0⟩) = false := by
          rw [hk]; simpa using Ne.symm d23
        have hself := beq_iff_eq.mpr hk
        simp only [h1, h2, hself, Bool.false_eq_true, if_false, if_true, hp]
        exact hst
      · rw [f1, recordedKeyFrom_miss env _ _ _ (by simp only; rw [hk]; exact Ne.symm d13)]
      · rw [f2, recordedKeyFrom_miss env _ _ _ (by simp only; rw [hk]; exact Ne.symm d23)]
      · rw [f3, ← hk, habsent, hhit]
      · rw [f4, recordedKeyFrom_miss env _ _ _ (by simp only; rw [hk]; exact d34)]
    · obtain ⟨st, hst, f1, f2, f3, f4, f5⟩ := hrest { state with Receiver := pub }
      refine ⟨st, ?_, ?_, ?_, ?_, ?_, f5⟩
      · rw [loadChainStateSolanaFrom]
        have h1 : (env.TypeAndVersionString tv ==
            env.TypeAndVersionString ⟨env.LinkToken, env.Version1_0_0⟩) = false := by
          rw [hk]; simpa using Ne.symm d14
        have h2 : (env.TypeAndVersionString tv ==
            env.TypeAndVersionString ⟨env.Router, env.Version1_0_0⟩) = false := by
          rw [hk]; simpa using Ne.symm d24
        have h3 : (env.TypeAndVersionString tv ==
            env.TypeAndVersionString ⟨AddressLookupTable, env.Version1_0_0⟩) = false := by
          rw [hk]; simpa using Ne.symm d34
        have hself := beq_iff_eq.mpr hk
        simp only [h1, h2, h3, hself, Bool.false_eq_true, if_false, if_true, hp]
        exact hst
      · rw [f1, recordedKeyFrom_miss env _ _ _ (by simp only; rw [hk]; exact Ne.symm d14)]
      · rw [f2, recordedKeyFrom_miss env _ _ _ (by simp only; rw [hk]; exact Ne.symm d24)]
      · rw [f3, recordedKeyFrom_miss env _ _ _ (by simp only; rw [hk]; exact Ne.symm d34)]
      · rw [f4, ← hk, habsent, hhit]

/-- When the addresses of the entries of the four known types are valid, an
entry of another type-and-version makes the loop return the "unknown contract"
error for the first such entry it meets; the address of such an entry is never
parsed. -/
theorem loadFrom_unknown (env : SolEnv) :
    ∀ (l : List (String × TypeAndVersion)) (state : SolCCIPChainState),
      (∀ e ∈ l, env.TypeAndVersionString e.2 ∈ knownTypes env →
        ∃ pub, env.PublicKeyFromBase58 e.1 = some pub) →
      (∃ e ∈ l, env.TypeAndVersionString e.2 ∉ knownTypes env) →
      ∃ st e, e ∈ l ∧ env.TypeAndVersionString e.2 ∉ knownTypes env ∧
        loadChainStateSolanaFrom env state l =
          .returned (st, some (.new ("unknown contract " ++ env.TypeAndVersionString e.2))) := by
  intro l
  induction l with
  | nil =>
    rintro state - ⟨e, he, -⟩
    cases he
  | cons x rest ih =>
    intro state hparse hex
    by_cases hx : env.TypeAndVersionString x.2 ∈ knownTypes env
    · obtain ⟨pub, hp⟩ := hparse x (List.mem_cons_self _ _) hx
      obtain ⟨state1, h1⟩ := loadFrom_cons_known env state x rest pub hx hp
      have hex1 : ∃ e ∈ rest, env.TypeAndVersionString e.2 ∉ knownTypes env := by
        obtain ⟨e, he, hne⟩ := hex
        rcases List.mem_cons.mp he with h | h
        · subst h; exact absurd hx hne
        · exact ⟨e, h, hne⟩
      obtain ⟨st, e, he, hne, hres⟩ :=
        ih state1 (fun y hy => hparse y (List.mem_cons_of_mem _ hy)) hex1
      exact ⟨st, e, List.mem_cons_of_mem _ he, hne, by rw [h1]; exact hres⟩
    · exact ⟨state, x, List.mem_cons_self _ _, hx, loadFrom_cons_unknown env state x rest hx⟩

/-- An entry of a known type whose address is not a valid key makes the loop
panic when every entry before it is of a known type with a valid address. -/
theorem loadFrom_panics (env : SolEnv) :
    ∀ (pre : List (String × TypeAndVersion)) (state : SolCCIPChainState)
      (e : String × TypeAndVersion) (post : List (String × TypeAndVersion)),
      (∀ x ∈ pre, env.TypeAndVersionString x.2 ∈ knownTypes env ∧
        ∃ pub, env.PublicKeyFromBase58 x.1 = some pub) →
      env.TypeAndVersionString e.2 ∈ knownTypes env →
      env.PublicKeyFromBase58 e.1 = none →
      loadChainStateSolanaFrom env state (pre ++ e :: post) = .panicked := by
  intro pre
  induction pre with
  | nil =>
    intro state e post _ hk hp
    exact loadFrom_cons_bad env state e post hk hp
  | cons x rest ih =>
    intro state e post hpre hk hp
    obtain ⟨hx, pub, hpx⟩ := hpre x (List.mem_cons_self _ _)
    obtain ⟨state1, h1⟩ := loadFrom_cons_known env state x (rest ++ e :: post) pub hx hpx
    rw [List.cons_append, h1]
    exact ih state1 e post (fun y hy => hpre y (List.mem_cons_of_mem _ hy)) hk hp

/-- C22: let the four compared renderings be pairwise distinct and the
address of every entry of one of the four known types be a valid base58 public
key (the address of an entry of another type is never parsed and may be any
string). If each entry's type-and-version is one of LinkToken, Router,
AddressLookupTable, Receiver at version 1.0.0 and no type occurs twice,
`LoadChainStateSolana` returns no error and a state whose field for each of
the four types is the public key of the address recorded for it, the zero key
when absent (`Timelock` is always zero). If any entry has another
type-and-version it returns an "unknown contract" error naming such an entry.
For the empty map it returns the zero state and no error. (An entry of a known
type whose address is not a valid key, met before any unknown entry, makes
`MustPublicKeyFromBase58` panic.) -/
theorem load_chain_state_solana (env : SolEnv) (addresses : List (String × TypeAndVersion))
    (hdist : (knownTypes env).Nodup)
    (hparse : ∀ e ∈ addresses, env.TypeAndVersionString e.2 ∈ knownTypes env →
      ∃ pub, env.PublicKeyFromBase58 e.1 = some pub) :
    ((∀ e ∈ addresses, env.TypeAndVersionString e.2 ∈ knownTypes env) →
      (addresses.map (fun e => env.TypeAndVersionString e.2)).Nodup →
      ∃ st, LoadChainStateSolana env addresses = .returned (st, none) ∧
        st.LinkToken = recordedKey env addresses
          (env.TypeAndVersionString ⟨env.LinkToken, env.Version1_0_0⟩) ∧
        st.Router = recordedKey env addresses
          (env.TypeAndVersionString ⟨env.Router, env.Version1_0_0⟩) ∧
        st.AddressLookupTable = recordedKey env addresses
          (env.TypeAndVersionString ⟨AddressLookupTable, env.Version1_0_0⟩) ∧
        st.Receiver = recordedKey env addresses
          (env.TypeAndVersionString ⟨Receiver, env.Version1_0_0⟩) ∧
        st.Timelock = zeroKey) ∧
    ((∃ e ∈ addresses, env.TypeAndVersionString e.2 ∉ knownTypes env) →
      ∃ st e, e ∈ addresses ∧ env.TypeAndVersionString e.2 ∉ knownTypes env ∧
        LoadChainStateSolana env addresses =
          .returned (st, some (.new ("unknown contract " ++ env.TypeAndVersionString e.2)))) ∧
    LoadChainStateSolana env [] =
      .returned (⟨zeroKey, zeroKey, zeroKey, zeroKey, zeroKey⟩, none) ∧
    (∀ (pre : List (String × TypeAndVersion)) (e : String × TypeAndVersion)
        (post : List (String × TypeAndVersion)),
      (∀ x ∈ pre, env.TypeAndVersionString x.2 ∈ knownTypes env ∧
        ∃ pub, env.PublicKeyFromBase58 x.1 = some pub) →
      env.TypeAndVersionString e.2 ∈ knownTypes env →
      env.PublicKeyFromBase58 e.1 = none →
      LoadChainStateSolana env (pre ++ e :: post) = .panicked) := by
  refine ⟨?_, ?_, rfl, ?_⟩
  · intro hknown hnodup
    exact loadFrom_ok env hdist addresses _ hknown hnodup
      (fun e he => hparse e he (hknown e he))
  · intro hex
    exact loadFrom_unknown env addresses _ hparse hex
  · intro pre e post hpre hk hp
    exact loadFrom_panics env pre _ e post hpre hk hp

theorem sampleAddresses_parse :
    ∀ e ∈ sampleAddresses,
      sampleSolEnv.TypeAndVersionString e.2 ∈ knownTypes sampleSolEnv →
      ∃ pub, sampleSolEnv.PublicKeyFromBase58 e.1 = some pub := by
  intro e he _
  simp only [sampleAddresses, List.mem_cons, List.mem_singleton, List.not_mem_nil,
    or_false] at he
  rcases he with rfl | rfl
  · exact ⟨sampleKey 2, rfl⟩
  · exact ⟨sampleKey 1, rfl⟩

/-- In a map with a router and a timelock entry whose address is no base58
key, every entry of a known type has a valid address. -/
theorem sampleUnknown_parse :
    ∀ e ∈ [("B", (⟨"Router", "1.0.0"⟩ : TypeAndVersion)), ("0xabc", ⟨"RBACTimelock", "1.0.0"⟩)],
      sampleSolEnv.TypeAndVersionString e.2 ∈ knownTypes sampleSolEnv →
      ∃ pub, sampleSolEnv.PublicKeyFromBase58 e.1 = some pub := by
  intro e he hk
  simp only [List.mem_cons, List.mem_singleton, List.not_mem_nil, or_false] at he
  rcases he with rfl | rfl
  · exact ⟨sampleKey 2, rfl⟩
  · exact absurd hk (by decide)

theorem load_chain_state_solana_witness :
    (∃ st, LoadChainStateSolana sampleSolEnv sampleAddresses = .returned (st, none) ∧
      st.LinkToken = recordedKey sampleSolEnv sampleAddresses
        (sampleSolEnv.TypeAndVersionString ⟨sampleSolEnv.LinkToken, sampleSolEnv.Version1_0_0⟩) ∧
      st.Router = recordedKey sampleSolEnv sampleAddresses
        (sampleSolEnv.TypeAndVersionString ⟨sampleSolEnv.Router, sampleSolEnv.Version1_0_0⟩) ∧
      st.AddressLookupTable = recordedKey sampleSolEnv sampleAddresses
        (sampleSolEnv.TypeAndVersionString ⟨AddressLookupTable, sampleSolEnv.Version1_0_0⟩) ∧
      st.Receiver = recordedKey sampleSolEnv sampleAddresses
        (sampleSolEnv.TypeAndVersionString ⟨Receiver, sampleSolEnv.Version1_0_0⟩) ∧
      st.Timelock = zeroKey) ∧
    (sampleSolEnv.PublicKeyFromBase58 "0xabc" = none ∧
      ∃ st e, e ∈ [("B", (⟨"Router", "1.0.0"⟩ : TypeAndVersion)),
          ("0xabc", ⟨"RBACTimelock", "1.0.0"⟩)] ∧
        sampleSolEnv.TypeAndVersionString e.2 ∉ knownTypes sampleSolEnv ∧
        LoadChainStateSolana sampleSolEnv
            [("B", ⟨"Router", "1.0.0"⟩), ("0xabc", ⟨"RBACTimelock", "1.0.0"⟩)] =
          .returned (st, some (.new ("unknown contract " ++
            sampleSolEnv.TypeAndVersionString e.2)))) :=
  ⟨(load_chain_state_solana sampleSolEnv sampleAddresses (by decide) sampleAddresses_parse).1
      (by decide) (by decide),
    rfl,
    (load_chain_state_solana sampleSolEnv
      [("B", ⟨"Router", "1.0.0"⟩), ("0xabc", ⟨"RBACTimelock", "1.0.0"⟩)] (by decide)
      sampleUnknown_parse).2.1
      ⟨("0xabc", ⟨"RBACTimelock", "1.0.0"⟩), by simp, by decide⟩⟩

/-- The sample address map gives the link token key and the router key; an
address that is no key makes the call panic when its entry is of a known type;
a timelock entry is unknown, whatever its address. -/
theorem sample_load_chain_state :
    LoadChainStateSolana sampleSolEnv sampleAddresses =
      .returned (⟨sampleKey 1, sampleKey 2, zeroKey, zeroKey, zeroKey⟩, none) ∧
    LoadChainStateSolana sampleSolEnv [("0", ⟨"Router", "1.0.0"⟩)] = .panicked ∧
    LoadChainStateSolana sampleSolEnv [("A", ⟨"RBACTimelock", "1.0.0"⟩)] =
      .returned (⟨zeroKey, zeroKey, zeroKey, zeroKey, zeroKey⟩,
        some (.new "unknown contract RBACTimelock 1.0.0")) ∧
    LoadChainStateSolana sampleSolEnv
        [("B", ⟨"Router", "1.0.0"⟩), ("0xabc", ⟨"RBACTimelock", "1.0.0"⟩)] =
      .returned (⟨zeroKey, sampleKey 2, zeroKey, zeroKey, zeroKey⟩,
        some (.new "unknown contract RBACTimelock 1.0.0")) := by
  decide

/-! ## Minting -/

/-- The loop of `MintSolanaToken` with valid recipients and successful builds
appends one instruction per recipient, in order. -/
theorem mintInstructions_ok (env : SolEnv) (cfg : MintSolanaTokenConfig)
    (tokenAddress tokenprogramID : PublicKey)
    (hbuild : ∀ pk, env.MintTo (mintToInstruction env cfg tokenAddress tokenprogramID pk) =
      none) :
    ∀ (l : List String) (instructions : List Instruction),
      (∀ a ∈ l, ∃ pk, env.PublicKeyFromBase58 a = some pk) →
      mintInstructions env cfg tokenAddress tokenprogramID l instructions =
        .returned (.ok (instructions ++ l.map (fun a =>
          mintToInstruction env cfg tokenAddress tokenprogramID
            ((env.PublicKeyFromBase58 a).getD zeroKey)))) := by
  intro l
  induction l with
  | nil =>
    intro instructions _
    simp [mintInstructions]
  | cons a rest ih =>
    intro instructions hparse
    obtain ⟨pk, hp⟩ := hparse a (List.mem_cons_self _ _)
    rw [mintInstructions]
    simp only [hp, hbuild pk]
    rw [ih _ (fun b hb => hparse b (List.mem_cons_of_mem _ hb))]
    simp [hp]

/-- On a chain whose token program credits the amount of a `MintTo` to its
destination account, a transaction made of the mint instructions of a list of
recipients, if it succeeds, raises the balance of an account by the amount for
every recipient whose associated token account it is. -/
theorem mintInstructions_credit (env : SolEnv) (cfg : MintSolanaTokenConfig)
    (tokenAddress tokenprogramID : PublicKey) {C : Type}
    (process : C → Instruction → Option C) (balance : C → PublicKey → Nat)
    (hmintTo : ∀ (c c1 : C) (amount : Nat) (program mint toAccount authority : PublicKey),
      process c (.mintTo amount program mint toAccount authority) = some c1 →
      ∀ account, balance c1 account =
        balance c account + (if account = toAccount then amount else 0))
    (account : PublicKey) :
    ∀ (l : List String) (c c1 : C),
      (l.map (fun a => mintToInstruction env cfg tokenAddress tokenprogramID
          ((env.PublicKeyFromBase58 a).getD zeroKey))).foldlM process c = some c1 →
      balance c1 account =
        balance c account + cfg.Amount * l.countP (fun a =>
          decide (env.FindAssociatedTokenAddress tokenprogramID tokenAddress
            ((env.PublicKeyFromBase58 a).getD zeroKey) = account)) := by
  intro l
  induction l with
  | nil =>
    intro c c1 h
    simp only [List.map_nil, List.foldlM_nil] at h
    cases h
    simp
  | cons a rest ih =>
    intro c c1 h
    simp only [List.map_cons, List.foldlM_cons] at h
    cases hstep : process c (mintToInstruction env cfg tokenAddress tokenprogramID
        ((env.PublicKeyFromBase58 a).getD zeroKey)) with
    | none =>
      rw [hstep] at h
      cases h
    | some c2 =>
      rw [hstep] at h
      have hrest := ih c2 c1 h
      have hone := hmintTo c c2 _ _ _ _ _ hstep account
      rw [hrest, hone]
      by_cases hacc : env.FindAssociatedTokenAddress tokenprogramID tokenAddress
          ((env.PublicKeyFromBase58 a).getD zeroKey) = account
      · rw [List.countP_cons_of_pos _ _ (by simpa using hacc), if_pos hacc.symm]
        ring
      · rw [List.countP_cons_of_neg _ _ (by simpa using hacc),
          if_neg (fun h => hacc h.symm)]
        ring

/-- C23: for every `MintSolanaTokenConfig` whose token and token program
resolve, whose recipients are valid base58 public keys and whose `MintTo`
instructions build, `MintSolanaToken` makes exactly one `Confirm` call and
returns its result; the call carries exactly one `MintTo` instruction per
entry of `ToAddressList`, in list order, each for `cfg.Amount`, to the
associated token account of (token program, token address, that recipient),
with the chain's deployer key as authority. The balances are those of the
chain, whose token program is no part of the changeset: on every chain
`process`, `balance` whose token program credits the amount of a `MintTo` to
its destination account, whenever `MintSolanaToken` returns no error the one
transaction it submitted, once executed, has raised the balance of every
account by `Amount` for each entry of the list whose associated token account
it is. -/
theorem mint_builds_one_instruction_per_recipient (env : SolEnv)
    (cfg : MintSolanaTokenConfig) (tokenAddress tokenprogramID : PublicKey)
    (htoken : env.FindTokenAddress cfg.ChainSelector cfg.TokenName = .ok tokenAddress)
    (hprogram : env.GetTokenProgramID cfg.TokenProgram = .ok tokenprogramID)
    (hparse : ∀ a ∈ cfg.ToAddressList, ∃ pk, env.PublicKeyFromBase58 a = some pk)
    (hbuild : ∀ pk, env.MintTo (mintToInstruction env cfg tokenAddress tokenprogramID pk) =
      none)
    {C : Type} (process : C → Instruction → Option C) (balance : C → PublicKey → Nat)
    (hmintTo : ∀ (c c1 : C) (amount : Nat) (program mint toAccount authority : PublicKey),
      process c (.mintTo amount program mint toAccount authority) = some c1 →
      ∀ account, balance c1 account =
        balance c account + (if account = toAccount then amount else 0)) :
    MintSolanaToken env cfg =
      .returned
        ([cfg.ToAddressList.map (fun a =>
            Instruction.mintTo cfg.Amount tokenprogramID tokenAddress
              (env.FindAssociatedTokenAddress tokenprogramID tokenAddress
                ((env.PublicKeyFromBase58 a).getD zeroKey))
              (env.DeployerKey cfg.ChainSelector))],
         env.Confirm cfg.ChainSelector (cfg.ToAddressList.map (fun a =>
            Instruction.mintTo cfg.Amount tokenprogramID tokenAddress
              (env.FindAssociatedTokenAddress tokenprogramID tokenAddress
                ((env.PublicKeyFromBase58 a).getD zeroKey))
              (env.DeployerKey cfg.ChainSelector)))) ∧
    (cfg.ToAddressList.map (fun a =>
        Instruction.mintTo cfg.Amount tokenprogramID tokenAddress
          (env.FindAssociatedTokenAddress tokenprogramID tokenAddress
            ((env.PublicKeyFromBase58 a).getD zeroKey))
          (env.DeployerKey cfg.ChainSelector))).length = cfg.ToAddressList.length ∧
    (∀ (calls : List (List Instruction)),
      MintSolanaToken env cfg = .returned (calls, none) →
      ∃ instructions, calls = [instructions] ∧
        env.Confirm cfg.ChainSelector instructions = none ∧
        ∀ (c c1 : C), instructions.foldlM process c = some c1 →
          ∀ account, balance c1 account =
            balance c account + cfg.Amount * cfg.ToAddressList.countP (fun a =>
              decide (env.FindAssociatedTokenAddress tokenprogramID tokenAddress
                ((env.PublicKeyFromBase58 a).getD zeroKey) = account))) := by
  have hcall : MintSolanaToken env cfg =
      .returned
        ([cfg.ToAddressList.map (fun a =>
            mintToInstruction env cfg tokenAddress tokenprogramID
              ((env.PublicKeyFromBase58 a).getD zeroKey))],
         env.Confirm cfg.ChainSelector (cfg.ToAddressList.map (fun a =>
            mintToInstruction env cfg tokenAddress tokenprogramID
              ((env.PublicKeyFromBase58 a).getD zeroKey)))) := by
    unfold MintSolanaToken
    simp only [htoken, hprogram]
    rw [mintInstructions_ok env cfg tokenAddress tokenprogramID hbuild cfg.ToAddressList []
      hparse]
    rfl
  refine ⟨hcall, by simp, ?_⟩
  intro calls hret
  rw [hcall] at hret
  injection hret with hret
  injection hret with hcalls herr
  refine ⟨_, hcalls.symm, herr, ?_⟩
  intro c c1 hexec account
  exact mintInstructions_credit env cfg tokenAddress tokenprogramID process balance hmintTo
    account cfg.ToAddressList c c1 hexec

theorem sampleMintConfig_parse :
    ∀ a ∈ sampleMintConfig.ToAddressList, ∃ pk, sampleSolEnv.PublicKeyFromBase58 a = some pk := by
  intro a ha
  simp only [sampleMintConfig, List.mem_cons, List.mem_singleton, List.not_mem_nil,
    or_false] at ha
  rcases ha with rfl | rfl | rfl
  · exact ⟨sampleKey 1, rfl⟩
  · exact ⟨sampleKey 2, rfl⟩
  · exact ⟨sampleKey 1, rfl⟩

/-- The sample token program credits the amount of a `MintTo` to its
destination account and changes no other balance. -/
theorem sampleProcess_mintTo (c c1 : List (PublicKey × Nat)) (amount : Nat)
    (program mint toAccount authority : PublicKey)
    (h : sampleProcess c (.mintTo amount program mint toAccount authority) = some c1)
    (account : PublicKey) :
    sampleBalance c1 account =
      sampleBalance c account + (if account = toAccount then amount else 0) := by
  simp only [sampleProcess] at h
  split at h
  · cases h
    by_cases hacc : account = toAccount
    · subst hacc
      simp [sampleBalance, List.lookup]
    · have hb : (account == toAccount) = false := by simpa using hacc
      have hfilter : ∀ l : List (PublicKey × Nat),
          (l.filter (fun e => e.1 != toAccount)).lookup account = l.lookup account := by
        intro l
        induction l with
        | nil => rfl
        | cons e rest ih =>
          obtain ⟨k, v⟩ := e
          by_cases hk : k = toAccount
          · subst hk
            have hne : (account == k) = false := hb
            simp [List.filter, List.lookup, hne, ih]
          · have hk1 : (k != toAccount) = true := by simpa using hk
            simp only [List.filter, hk1, List.lookup]
            cases hak : account == k
            · exact ih
            · rfl
      simp [sampleBalance, List.lookup, hb, hfilter, hacc]
  · cases h

theorem mint_builds_one_instruction_per_recipient_witness :
    ∃ instructions,
      MintSolanaToken sampleSolEnv sampleMintConfig = .returned ([instructions], none) ∧
      instructions.foldlM sampleProcess [] =
        some [(sampleKey 64, 2000), (sampleKey 96, 1000)] ∧
      sampleBalance [(sampleKey 64, 2000), (sampleKey 96, 1000)] (sampleKey 64) =
        sampleBalance [] (sampleKey 64) + sampleMintConfig.Amount *
          sampleMintConfig.ToAddressList.countP (fun a =>
            decide (sampleSolEnv.FindAssociatedTokenAddress (sampleKey 8) (sampleKey 9)
              ((sampleSolEnv.PublicKeyFromBase58 a).getD zeroKey) = sampleKey 64)) := by
  obtain ⟨instructions, hcalls, -, hbal⟩ :=
    (mint_builds_one_instruction_per_recipient sampleSolEnv sampleMintConfig (sampleKey 9)
      (sampleKey 8) rfl rfl sampleMintConfig_parse (fun _ => rfl) sampleProcess sampleBalance
      sampleProcess_mintTo).2.2
      [[.mintTo 1000 (sampleKey 8) (sampleKey 9) (sampleKey 64) (sampleKey 1),
        .mintTo 1000 (sampleKey 8) (sampleKey 9) (sampleKey 96) (sampleKey 1),
        .mintTo 1000 (sampleKey 8) (sampleKey 9) (sampleKey 64) (sampleKey 1)]] (by decide)
  cases hcalls
  have hexec : List.foldlM sampleProcess []
      [.mintTo 1000 (sampleKey 8) (sampleKey 9) (sampleKey 64) (sampleKey 1),
       .mintTo 1000 (sampleKey 8) (sampleKey 9) (sampleKey 96) (sampleKey 1),
       .mintTo 1000 (sampleKey 8) (sampleKey 9) (sampleKey 64) (sampleKey 1)] =
      some [(sampleKey 64, 2000), (sampleKey 96, 1000)] := by decide
  exact ⟨_, by decide, hexec, hbal [] _ hexec (sampleKey 64)⟩

/-- The sample configuration mints 1000 to `A`, `B`, `A` in one `Confirm`: on
the sample ledger the associated token account of `A` gains 2000 and that of
`B` gains 1000. A recipient that is no key makes the call panic, with no
`Confirm`. -/
theorem sample_mint :
    MintSolanaToken sampleSolEnv sampleMintConfig =
      .returned ([[.mintTo 1000 (sampleKey 8) (sampleKey 9) (sampleKey 64) (sampleKey 1),
                   .mintTo 1000 (sampleKey 8) (sampleKey 9) (sampleKey 96) (sampleKey 1),
                   .mintTo 1000 (sampleKey 8) (sampleKey 9) (sampleKey 64) (sampleKey 1)]],
                 none) ∧
    List.foldlM sampleProcess []
        [.mintTo 1000 (sampleKey 8) (sampleKey 9) (sampleKey 64) (sampleKey 1),
         .mintTo 1000 (sampleKey 8) (sampleKey 9) (sampleKey 96) (sampleKey 1),
         .mintTo 1000 (sampleKey 8) (sampleKey 9) (sampleKey 64) (sampleKey 1)] =
      some [(sampleKey 64, 2000), (sampleKey 96, 1000)] ∧
    MintSolanaToken sampleSolEnv { sampleMintConfig with ToAddressList := ["A", "0"] } =
      .panicked := by
  refine ⟨by decide, by decide, by decide⟩

/-! ## Transfer of ownership to the timelock -/

variable {W P : Type}

/-- A successful run of the inner loop of `TransferToMCMSWithTimelock` appends
to the operations exactly the accept-ownership operations of the chain, and
makes one `TransferOwnership` call per appended operation. -/
theorem transferContracts_spec (env : EvmEnv W P) (chainSelector : Nat)
    (timelockAddr : String) :
    ∀ (contracts : List Address) (st st1 : EvmState W) (ops0 ops : List Operation),
      transferContracts env chainSelector timelockAddr st contracts ops0 =
        .returned (st1, .ok ops) →
      ∃ added, ops = ops0 ++ added ∧
        AcceptOps env chainSelector timelockAddr st.world contracts st1.world added ∧
        st1.transfers = st.transfers ++
          added.map (fun op => (chainSelector, op.To, env.HexToAddress timelockAddr)) := by
  intro contracts
  induction contracts with
  | nil =>
    intro st st1 ops0 ops h
    rw [transferContracts] at h
    cases h
    exact ⟨[], by simp, AcceptOps.done _, by simp⟩
  | cons contract rest ih =>
    intro st st1 ops0 ops h
    rw [transferContracts] at h
    split at h
    · next howned =>
      obtain ⟨added, h1, h2, h3⟩ := ih st st1 ops0 ops h
      exact ⟨added, h1, AcceptOps.owned (by simpa using howned) h2, h3⟩
    · next hnot =>
      split at h
      · cases h
      · split at h
        · cases h
        · next w1 htr =>
          split at h
          · cases h
          · next data hdata =>
            obtain ⟨added, h1, h2, h3⟩ := ih _ st1 _ ops h
            refine ⟨{ To := contract, Data := data, Value := 0 } :: added, ?_, ?_, ?_⟩
            · rw [h1]; simp
            · exact AcceptOps.accept (by simpa using hnot) htr hdata h2
            · rw [h3]; simp

/-- The operations of a chain name contracts of the configured list in the
order of the list, each with value 0 and the accept-ownership calldata of its
contract. -/
theorem acceptOps_shape {env : EvmEnv W P} {chainSelector : Nat} {timelockAddr : String}
    {w w1 : W} {contracts : List Address} {ops : List Operation}
    (h : AcceptOps env chainSelector timelockAddr w contracts w1 ops) :
    (ops.map (fun op => op.To)).Sublist contracts ∧
    ∀ op ∈ ops, op.Value = 0 ∧ env.AcceptOwnership chainSelector op.To = .ok op.Data := by
  induction h with
  | done w => exact ⟨by simp, by simp⟩
  | owned _ _ ih => exact ⟨ih.1.cons _, ih.2⟩
  | @accept w w0 w1 contract rest ops data _ _ hdata _ ih =>
    refine ⟨?_, ?_⟩
    · have h2 : (contract :: ops.map (fun op => op.To)).Sublist (contract :: rest) :=
        List.Sublist.cons₂ contract ih.1
      simpa using h2
    intro op hop
    rcases List.mem_cons.mp hop with h1 | h1
    · subst h1
      exact ⟨rfl, hdata⟩
    · exact ih.2 op h1

/-- When a transfer does not change what `Owner` reads, the operations of a
chain are those of the configured contracts that the timelock does not own
in the chain state before the call. -/
theorem acceptOps_filter {env : EvmEnv W P} {chainSelector : Nat} {timelockAddr : String}
    (hstable : ∀ (w : W) (chain : Nat) (contract newOwner : Address) (chain1 : Nat)
      (a : Address),
      ownerSeen env (env.TransferOwnership w chain contract newOwner).1 chain1 a =
        ownerSeen env w chain1 a)
    {w w1 : W} {contracts : List Address} {ops : List Operation}
    (h : AcceptOps env chainSelector timelockAddr w contracts w1 ops) :
    ops.map (fun op => op.To) =
      contracts.filter (fun a =>
        env.AddressString (ownerSeen env w chainSelector a) != timelockAddr) ∧
    ∀ (chain1 : Nat) (a : Address), ownerSeen env w1 chain1 a = ownerSeen env w chain1 a := by
  induction h with
  | done w => exact ⟨rfl, fun _ _ => rfl⟩
  | owned howned _ ih =>
    refine ⟨?_, ih.2⟩
    rw [ih.1]
    simp [List.filter, howned]
  | @accept w w0 w1 contract rest ops data hnot htr _ _ ih =>
    have hw0 : ∀ (chain1 : Nat) (a : Address),
        ownerSeen env w0 chain1 a = ownerSeen env w chain1 a := by
      intro chain1 a
      have := hstable w chainSelector contract (env.HexToAddress timelockAddr) chain1 a
      rw [htr] at this
      exact this
    refine ⟨?_, fun chain1 a => by rw [ih.2, hw0]⟩
    have hb : (env.AddressString (ownerSeen env w chainSelector contract) != timelockAddr) =
        true := by simpa using hnot
    simp only [List.map_cons, List.filter, hb]
    rw [ih.1]
    congr 1
    apply List.filter_congr
    intro a _
    rw [hw0]

/-- A successful run of the outer loop of `TransferToMCMSWithTimelock` appends
one batch per chain, records the timelock and the proposer of each chain, and
makes one `TransferOwnership` call per operation. -/
theorem transferChains_spec (env : EvmEnv W P) :
    ∀ (chains : List (Nat × List Address)) (st st1 : EvmState W) (acc res : Batches),
      transferChains env st chains acc = .returned (st1, .ok res) →
      ∃ added, res.batches = acc.batches ++ added ∧
        ChainOps env st.world chains st1.world added ∧
        res.timelocksByChain = acc.timelocksByChain ++ chains.map (fun e =>
          (e.1, env.HexToAddress (searchOrEmpty env e.1 env.RBACTimelock))) ∧
        res.proposersByChain = acc.proposersByChain ++ chains.map (fun e =>
          (e.1, env.HexToAddress (searchOrEmpty env e.1 env.ProposerManyChainMultisig))) ∧
        st1.transfers = st.transfers ++ transfersOf env added := by
  intro chains
  induction chains with
  | nil =>
    intro st st1 acc res h
    rw [transferChains] at h
    cases h
    exact ⟨[], by simp, ChainOps.done _, by simp, by simp, by simp [transfersOf]⟩
  | cons e rest ih =>
    intro st st1 acc res h
    obtain ⟨chainSelector, contracts⟩ := e
    rw [transferChains] at h
    split at h
    · cases h
    · split at h
      · cases h
      · cases h
      · next st0 ops hinner =>
        obtain ⟨added0, hops, hacc, htr0⟩ :=
          transferContracts_spec env chainSelector _ contracts st st0 [] ops hinner
        simp only [List.nil_append] at hops
        subst hops
        obtain ⟨added, h1, h2, h3, h4, h5⟩ := ih st0 st1 _ res h
        refine ⟨{ ChainIdentifier := chainSelector, Batch := ops } :: added, ?_, ?_, ?_, ?_, ?_⟩
        · rw [h1]; simp
        · exact ChainOps.chain hacc h2
        · rw [h3]; simp
        · rw [h4]; simp
        · rw [h5, htr0]
          simp [transfersOf]

/-- The batches of a proposal name the chain selectors of the configuration in
order, and each batch has the shape of the operations of its chain. -/
theorem chainOps_shape {env : EvmEnv W P} {w w1 : W} {chains : List (Nat × List Address)}
    {batches : List BatchChainOperation} (h : ChainOps env w chains w1 batches) :
    batches.map (fun b => b.ChainIdentifier) = chains.map (fun e => e.1) ∧
    List.Forall₂ (fun (b : BatchChainOperation) (e : Nat × List Address) =>
      b.ChainIdentifier = e.1 ∧ (b.Batch.map (fun op => op.To)).Sublist e.2 ∧
      ∀ op ∈ b.Batch, op.Value = 0 ∧ env.AcceptOwnership e.1 op.To = .ok op.Data)
      batches chains := by
  induction h with
  | done w => exact ⟨rfl, List.Forall₂.nil⟩
  | chain hops _ ih =>
    obtain ⟨hs, hv⟩ := acceptOps_shape hops
    refine ⟨by simp [ih.1], List.Forall₂.cons ⟨rfl, hs, hv⟩ ih.2⟩

/-- When a transfer does not change what `Owner` reads, each batch holds the
operations of the configured contracts of its chain that the chain's timelock
does not own in the chain state before the call. -/
theorem chainOps_filter {env : EvmEnv W P}
    (hstable : ∀ (w : W) (chain : Nat) (contract newOwner : Address) (chain1 : Nat)
      (a : Address),
      ownerSeen env (env.TransferOwnership w chain contract newOwner).1 chain1 a =
        ownerSeen env w chain1 a)
    {w w1 : W} {chains : List (Nat × List Address)}
    {batches : List BatchChainOperation} (h : ChainOps env w chains w1 batches) :
    List.Forall₂ (fun (b : BatchChainOperation) (e : Nat × List Address) =>
      b.Batch.map (fun op => op.To) =
        e.2.filter (fun a => env.AddressString (ownerSeen env w e.1 a) !=
          searchOrEmpty env e.1 env.RBACTimelock)) batches chains ∧
    ∀ (chain1 : Nat) (a : Address), ownerSeen env w1 chain1 a = ownerSeen env w chain1 a := by
  induction h with
  | done w => exact ⟨List.Forall₂.nil, fun _ _ => rfl⟩
  | @chain w w0 w1 chainSelector contracts rest ops batches hops _ ih =>
    obtain ⟨hf, hw0⟩ := acceptOps_filter hstable hops
    refine ⟨List.Forall₂.cons hf ?_, fun chain1 a => by rw [ih.2, hw0]⟩
    refine List.Forall₂.imp ?_ ih.1
    intro b e hbe
    rw [hbe]
    apply List.filter_congr
    intro a _
    rw [hw0]

/-- When the inner loop of `Validate` passes, every contract of the chain is
in the address book and is owned by the deployer key. -/
theorem validateContracts_none (env : EvmEnv W P) (w : W) (chainSelector : Nat) :
    ∀ contracts : List Address, validateContracts env w chainSelector contracts = none →
      ∀ a ∈ contracts,
        env.AddressBookContains chainSelector (env.AddressString a) = .ok true ∧
        LoadOwnableContract env w chainSelector a = .ok (env.DeployerKeyFrom chainSelector) := by
  intro contracts
  induction contracts with
  | nil => intro _ a ha; cases ha
  | cons contract rest ih =>
    intro h a ha
    rw [validateContracts] at h
    split at h
    · cases h
    · cases h
    · next hcontains =>
      split at h
      · cases h
      · next owner hload =>
        split at h
        · cases h
        · next hown =>
          rcases List.mem_cons.mp ha with h1 | h1
          · subst h1
            refine ⟨hcontains, ?_⟩
            rw [hload]
            have : owner = env.DeployerKeyFrom chainSelector := by simpa using hown
            rw [this]
          · exact ih h a h1

/-- When `Validate` passes, every configured contract is in the address book
and owned by the deployer key, and every configured chain has a timelock and a
proposer in the address book. -/
theorem validateChains_none (env : EvmEnv W P) (w : W) :
    ∀ chains : List (Nat × List Address), validateChains env w chains = none →
      ∀ e ∈ chains,
        (∀ a ∈ e.2, env.AddressBookContains e.1 (env.AddressString a) = .ok true ∧
          LoadOwnableContract env w e.1 a = .ok (env.DeployerKeyFrom e.1)) ∧
        (∃ t, env.SearchAddressBook e.1 env.RBACTimelock = .ok t) ∧
        (∃ m, env.SearchAddressBook e.1 env.ProposerManyChainMultisig = .ok m) := by
  intro chains
  induction chains with
  | nil => intro _ e he; cases he
  | cons x rest ih =>
    intro h e he
    obtain ⟨chainSelector, contracts⟩ := x
    rw [validateChains] at h
    split at h
    · cases h
    · next hcontracts =>
      split at h
      · cases h
      · next t ht =>
        split at h
        · cases h
        · next m hm =>
          rcases List.mem_cons.mp he with h1 | h1
          · subst h1
            exact ⟨validateContracts_none env w chainSelector contracts hcontracts,
              ⟨t, ht⟩, ⟨m, hm⟩⟩
          · exact ih h e h1

/-- C21: when `cfg.Validate` fails, `TransferToMCMSWithTimelock` returns that
error and the empty output and leaves the chains untouched (no
`TransferOwnership` call); `Validate` passes only if every configured contract
is in the address book and owned by the deployer key and every configured
chain has a timelock and a proposer. On success the output holds exactly one
proposal, built by `BuildProposalFromBatches` with the description "Transfer
ownership to timelock" and `cfg.MinDelay` from one batch per chain selector of
`cfg.ContractsByChain`, in the order of the iteration; the batch of a chain
holds, in the order of the configured list, one operation (`To` the contract,
`Value` 0, `Data` the `AcceptOwnership` calldata) for every configured contract
whose owner was not the chain's timelock when it was examined, and one
`TransferOwnership` call to the timelock was made per operation. When a
transfer does not change what `Owner` reads, these are the contracts the
timelock did not own before the call. -/
theorem transfer_to_mcms_with_timelock (env : EvmEnv W P) (st : EvmState W)
    (cfg : TransferToMCMSWithTimelockConfig) :
    (∀ err, Validate env st.world cfg = some err →
      TransferToMCMSWithTimelock env st cfg = .returned (st, ⟨[]⟩, some err)) ∧
    (Validate env st.world cfg = none →
      ∀ e ∈ cfg.ContractsByChain,
        (∀ a ∈ e.2, env.AddressBookContains e.1 (env.AddressString a) = .ok true ∧
          LoadOwnableContract env st.world e.1 a = .ok (env.DeployerKeyFrom e.1)) ∧
        (∃ t, env.SearchAddressBook e.1 env.RBACTimelock = .ok t) ∧
        (∃ m, env.SearchAddressBook e.1 env.ProposerManyChainMultisig = .ok m)) ∧
    (∀ (st1 : EvmState W) (out : ChangesetOutput P),
      TransferToMCMSWithTimelock env st cfg = .returned (st1, out, none) →
      ∃ proposal batches,
        out.Proposals = [proposal] ∧
        env.BuildProposalFromBatches
          (cfg.ContractsByChain.map (fun e =>
            (e.1, env.HexToAddress (searchOrEmpty env e.1 env.RBACTimelock))))
          (cfg.ContractsByChain.map (fun e =>
            (e.1, env.HexToAddress (searchOrEmpty env e.1 env.ProposerManyChainMultisig))))
          batches "Transfer ownership to timelock" cfg.MinDelay = .ok proposal ∧
        ChainOps env st.world cfg.ContractsByChain st1.world batches ∧
        batches.map (fun b => b.ChainIdentifier) = cfg.ContractsByChain.map (fun e => e.1) ∧
        List.Forall₂ (fun (b : BatchChainOperation) (e : Nat × List Address) =>
          b.ChainIdentifier = e.1 ∧ (b.Batch.map (fun op => op.To)).Sublist e.2 ∧
          ∀ op ∈ b.Batch, op.Value = 0 ∧ env.AcceptOwnership e.1 op.To = .ok op.Data)
          batches cfg.ContractsByChain ∧
        st1.transfers = st.transfers ++ transfersOf env batches ∧
        ((∀ (w : W) (chain : Nat) (contract newOwner : Address) (chain1 : Nat) (a : Address),
            ownerSeen env (env.TransferOwnership w chain contract newOwner).1 chain1 a =
              ownerSeen env w chain1 a) →
          List.Forall₂ (fun (b : BatchChainOperation) (e : Nat × List Address) =>
            b.Batch.map (fun op => op.To) =
              e.2.filter (fun a => env.AddressString (ownerSeen env st.world e.1 a) !=
                searchOrEmpty env e.1 env.RBACTimelock)) batches cfg.ContractsByChain)) := by
  refine ⟨?_, ?_, ?_⟩
  · intro err h
    simp [TransferToMCMSWithTimelock, h]
  · intro h
    exact validateChains_none env st.world cfg.ContractsByChain h
  · intro st1 out h
    unfold TransferToMCMSWithTimelock at h
    split at h
    · cases h
    · split at h
      · cases h
      · cases h
      · next st0 acc hloop =>
        obtain ⟨added, h1, h2, h3, h4, h5⟩ :=
          transferChains_spec env cfg.ContractsByChain st st0 ⟨[], [], []⟩ acc hloop
        simp only [List.nil_append] at h1 h3 h4
        split at h
        · cases h
        · next proposal hbuild =>
          cases h
          rw [h1, h3, h4] at hbuild
          obtain ⟨hids, hshape⟩ := chainOps_shape h2
          exact ⟨proposal, added, rfl, hbuild, h2, hids, hshape, h5,
            fun hstable => (chainOps_filter hstable h2).1⟩

/-- In the sample environment contract 1 is listed twice: it is transferred
once, and the one proposal has one batch for chain 1 with one operation for
contract 1 and one for contract 2. On a chain without timelock `Validate`
fails and nothing is transferred. -/
theorem sample_transfer :
    (∃ st1, TransferToMCMSWithTimelock sampleEvmEnv sampleWorld sampleTransferConfig =
        .returned (st1,
          ⟨[[⟨1, [⟨sampleAddress 1, [121, 186, 80, 151], 0⟩,
                  ⟨sampleAddress 2, [121, 186, 80, 151], 0⟩]⟩]]⟩, none) ∧
      st1.transfers = [(1, sampleAddress 1, sampleAddress 84),
        (1, sampleAddress 2, sampleAddress 84)]) ∧
    (∃ err, TransferToMCMSWithTimelock sampleEvmEnv sampleWorld
        { sampleTransferConfig with ContractsByChain := [(2, [sampleAddress 1])] } =
      .returned (sampleWorld, ⟨[]⟩, some err)) := by
  refine ⟨⟨_, rfl, rfl⟩, ⟨_, rfl⟩⟩

/-- The sample configuration passes `Validate`, the call succeeds, and its
result is as stated. -/
theorem transfer_to_mcms_with_timelock_witness :
    Validate sampleEvmEnv sampleWorld.world sampleTransferConfig = none ∧
    ∃ st1 out, TransferToMCMSWithTimelock sampleEvmEnv sampleWorld sampleTransferConfig =
        .returned (st1, out, none) ∧
      ∃ proposal batches, out.Proposals = [proposal] ∧
        ChainOps sampleEvmEnv sampleWorld.world sampleTransferConfig.ContractsByChain
          st1.world batches := by
  refine ⟨rfl, _, _, rfl, ?_⟩
  obtain ⟨p, b, h1, _, h3, _⟩ :=
    (transfer_to_mcms_with_timelock sampleEvmEnv sampleWorld sampleTransferConfig).2.2 _ _ rfl
  exact ⟨p, b, h1, h3⟩

end Changeset
